import Mathlib

/-!
# ctrmus: the control layer of `source/main.c`

A shallow embedding of `changeFile`, `cmpstringp`, `getDir`, `listDir`,
`getNumberFiles` and of one iteration of the `while(aptMainLoop())` loop of
`main`, followed by theorems about them.

Modelling conventions

* `u64` values are natural numbers below `2 ^ 64`; the unsigned subtraction of
  the source is `u64sub`, which wraps around.
* `int` values are integers; no claim depends on signed overflow.
* C strings are lists of bytes (`Nat`), the terminating NUL left implicit.
* Calls into collaborators that are not part of `main.c` (the filesystem, the
  clock, the input scanner, the playback module) are inputs of the model. The
  clock is read once per frame: every `osGetTime()` of one loop iteration
  returns the frame's `time`.
* A call whose effect lies outside the variables of `main` (`changeFile`,
  `chdir`, `listDir`, ...) is recorded as an `Event` of the frame.
-/

namespace Ctrmus

/-! ## Machine integers -/

/-- Number of values of a `u64`. -/
def U64 : Nat := 18446744073709551616

/-- Subtraction of two `u64` values, as the source's `a - b` on `u64`. -/
def u64sub (a b : Nat) : Nat := (a + U64 - b % U64) % U64

/-! ## Strings and `cmpstringp` -/

/-- C string: its bytes before the terminating NUL. -/
abbrev CStr := List Nat

/-- Bytes of a Lean string literal, to write file names readably. -/
def cstr (s : String) : CStr := s.toList.map Char.toNat

/-- The libc `tolower` in the C locale, on an `unsigned char`. -/
def tolower (c : Nat) : Nat := if 65 ≤ c ∧ c ≤ 90 then c + 32 else c

/-- The libc `strcasecmp`: the first position at which the lower-cased bytes
differ decides; a NUL (here also the end of the list) ends the comparison. -/
def strcasecmp : CStr → CStr → Int
  | [], [] => 0
  | [], b :: _ => 0 - (tolower b : Int)
  | a :: _, [] => (tolower a : Int) - 0
  | a :: as, b :: bs =>
    if tolower a ≠ tolower b then (tolower a : Int) - (tolower b : Int)
    else if a = 0 then 0
    else strcasecmp as bs

/-- The comparator `cmpstringp` (main.c:139-146): `strcasecmp` on the two pointed-to strings. -/
def cmpstringp (p1 p2 : CStr) : Int := strcasecmp p1 p2

/-- The order `qsort` sorts by: `p1` may stand before `p2`. -/
def cmpLe (p1 p2 : CStr) : Prop := cmpstringp p1 p2 ≤ 0

instance : DecidableRel cmpLe := fun a b => by unfold cmpLe; exact inferInstance

/-- The libc `qsort` with `cmpstringp`. The C standard fixes the result up to
the order of elements that compare equal; the model is insertion sort. -/
def qsort (l : List CStr) : List CStr := List.insertionSort cmpLe l

/-! ## Directory listing: `getDir`, `getNumberFiles`, `listDir` -/

/-- One `struct dirent` as `readdir` returns it: `d_name` and whether
`d_type == DT_DIR`. -/
structure DirEnt where
  d_name : CStr
  isDir : Bool
  deriving DecidableEq, Repr

/-- What the filesystem answers to one directory read. -/
inductive FsResult where
  /-- The working-directory lookup (`getcwd`) returned NULL. -/
  | cwdFail
  /-- The lookup gave `wd`, `opendir` returned NULL. -/
  | openFail (wd : CStr)
  /-- The lookup gave `wd`, `readdir` returned `entries` in this order, and
  `closedir` succeeded or not. -/
  | listing (wd : CStr) (entries : List DirEnt) (closeOk : Bool)
  deriving DecidableEq, Repr

/-- The source's `struct dirList_t`, as far as `main.c` uses it. The arrays
`directories` and `files` are kept at their logical lengths. -/
structure DirList where
  currentDir : CStr
  directories : List CStr
  files : List CStr
  dirNum : Int
  fileNum : Int
  deriving DecidableEq, Repr

/-- The zero-initialised `struct dirList_t dirList = { 0 }`. -/
def DirList.zero : DirList :=
  { currentDir := [], directories := [], files := [], dirNum := 0, fileNum := 0 }

/-- The test `ep->d_name[0] == '.'` (main.c:180). -/
def isHidden (e : DirEnt) : Bool := e.d_name.head? == some 46

/-- The `readdir` loop of `getDir` (main.c:177-202): hidden entries are
skipped, directories are appended to `directories`, everything else to
`files`. Returns the two arrays in reading order. -/
def readLoop : List DirEnt → List CStr → List CStr → List CStr × List CStr
  | [], dirs, files => (dirs, files)
  | e :: rest, dirs, files =>
    if isHidden e then readLoop rest dirs files
    else if e.isDir then readLoop rest (dirs ++ [e.d_name]) files
    else readLoop rest dirs (files ++ [e.d_name])

/-- Function `getDir` (main.c:151-216): the new listing and the return value
`fileNum + dirNum`. On both failure paths the local counters are still 0, so
the return value is 0; after a failed `opendir` the old counts stay in
`dirList` while `currentDir` is already replaced. -/
def getDir (fs : FsResult) (dirList : DirList) : DirList × Int :=
  match fs with
  | .cwdFail => (dirList, 0 + 0)
  | .openFail wd => ({ dirList with currentDir := wd }, 0 + 0)
  | .listing wd entries _ =>
    let r := readLoop entries [] []
    let files := qsort r.2
    let directories := qsort r.1
    let dirNum : Int := r.1.length
    let fileNum : Int := r.2.length
    ({ currentDir := wd, directories := directories, files := files,
       dirNum := dirNum, fileNum := fileNum }, fileNum + dirNum)

/-- Function `getNumberFiles` (main.c:280-303): the number of non-hidden
entries of the working directory, or -1 when the directory cannot be opened. -/
def getNumberFiles (fs : FsResult) : Int :=
  match fs with
  | .cwdFail => -1
  | .openFail _ => -1
  | .listing _ entries _ => ((entries.filter (fun e => !isHidden e)).length : Int)

/-- One line printed by `listDir`. -/
inductive Line where
  /-- The synthetic `../` line. -/
  | parent (selected : Bool)
  /-- A directory line: reads `dirList.directories[idx]`. -/
  | dir (selected : Bool) (idx : Int)
  /-- A file line: reads `dirList.files[idx]`. -/
  | file (selected : Bool) (idx : Int)
  deriving DecidableEq, Repr

/-- The `while` loop of `listDir` (main.c:241-269), one iteration per unit of
`fuel`. State: the counter `fileNum`, `listed`, and the lines printed so far. -/
def listDirLoop (from_ max select : Int) (dirList : DirList) :
    Nat → Int → Int → List Line → Int × List Line
  | 0, _, listed, out => (listed, out)
  | fuel + 1, fileNum, listed, out =>
    if dirList.fileNum + dirList.dirNum > fileNum then
      let fileNum := fileNum + 1
      if fileNum ≤ from_ then listDirLoop from_ max select dirList fuel fileNum listed out
      else
        let listed := listed + 1
        let out := if dirList.dirNum ≥ fileNum
          then out ++ [Line.dir (select == fileNum) (fileNum - 1)] else out
        let out := if dirList.dirNum < fileNum
          then out ++ [Line.file (select == fileNum) (fileNum - dirList.dirNum - 1)] else out
        if fileNum = max + from_ then (listed, out)
        else listDirLoop from_ max select dirList fuel fileNum listed out
    else (listed, out)

/-- Function `listDir` (main.c:226-272): the number of entries listed and the lines
printed. The loop counter starts at 0 and grows by one per iteration, so
`fileNum + dirNum` iterations are enough fuel. -/
def listDir (from_ max select : Int) (dirList : DirList) : Int × List Line :=
  if from_ = 0 then
    listDirLoop from_ (max - 1) select dirList (dirList.fileNum + dirList.dirNum).toNat
      0 1 [Line.parent (select == 0)]
  else
    listDirLoop from_ max select dirList (dirList.fileNum + dirList.dirNum).toNat 0 0 []

/-! ## `changeFile` -/

/-- The fields of `struct playbackInfo_t` that `changeFile` touches. `file` is
the content of the fixed `char file[]` buffer, byte by byte (NUL included). -/
structure PlaybackInfo where
  file : List Nat
  samples_total : Nat
  samples_played : Nat
  samples_per_second : Nat
  deriving DecidableEq, Repr

/-- A call into the thread and playback collaborators, in program order. -/
inductive ThreadOp where
  | stopPlayback
  | threadJoin (t : Nat)
  | threadFree (t : Nat)
  | threadCreate (result : Option Nat) (prio : Int)
  deriving DecidableEq, Repr

/-- Everything `changeFile` reads or writes: its `static Thread thread`
(`none` is NULL), the session `*playbackInfo`, the shared `error` variable
and the failure event behind `playbackInfo->errInfo`, `errno`, the console,
and the calls made so far. -/
structure World where
  thread : Option Nat
  info : PlaybackInfo
  error : Int
  failEvent : Bool
  errno : Int
  console : List String
  ops : List ThreadOp
  deriving DecidableEq, Repr

/-- The collaborators of `changeFile`: `getFileType` (for a path, `some e`
when it returns `FILE_TYPE_ERROR` leaving `errno = e`, `none` when the file is
playable), the caller's thread priority, the handle `threadCreate` returns
(`none` is NULL), and `sizeof(playbackInfo->file)`. -/
structure Env where
  getFileType : CStr → Option Int
  prio : Int
  threadCreate : Option Nat
  fileSize : Nat

/-- The libc `memccpy(dest, src, c, n)`: copies bytes of `src` over the start
of `dest` up to and including the first `c`, at most `n` bytes. Returns the
new `dest` and whether `c` was found (the result pointer is not NULL). -/
def memccpy : List Nat → List Nat → Nat → Nat → List Nat × Bool
  | dest, _, _, 0 => (dest, false)
  | dest, [], _, _ + 1 => (dest, false)
  | dest, s :: src, c, n + 1 =>
    if s = c then (s :: dest.tail, true)
    else
      let r := memccpy dest.tail src c n
      (s :: r.1, r.2)

/-- The condition of main.c:96, `ep_file != NULL && getFileType(ep_file) ==
FILE_TYPE_ERROR`: `some e` when it holds, `e` being `errno` after the call. -/
def fileTypeError (env : Env) : Option CStr → Option Int
  | none => none
  | some p => env.getFileType p

/-- The block `if(thread != NULL) { ... }` of main.c:107-115. -/
def stopThread (w : World) : World :=
  match w.thread with
  | some t =>
    { w with thread := none,
             ops := w.ops ++ [ThreadOp.stopPlayback, ThreadOp.threadJoin t, ThreadOp.threadFree t] }
  | none => w

/-- The tail of `changeFile` for a non-NULL path and session (main.c:121-136):
copy the path, zero the counters, create the thread. -/
def startFile (env : Env) (p : CStr) (w : World) : Int × World :=
  let r := memccpy w.info.file (p ++ [0]) 0 env.fileSize
  let w := { w with info := { w.info with file := r.1 } }
  if r.2 = false then
    (-1, { w with console := w.console ++ ["Error: File path too long"] })
  else
    let w := { w with
      console := w.console ++ ["Playing"],
      info := { w.info with samples_total := 0, samples_played := 0, samples_per_second := 0 } }
    (0, { w with thread := env.threadCreate,
                 ops := w.ops ++ [ThreadOp.threadCreate env.threadCreate (env.prio - 1)] })

/-- Function `changeFile` (main.c:91-137). `ep_file = none` is the NULL path;
`hasInfo` says whether `playbackInfo` is non-NULL. The result is `none` where
the source dereferences a NULL `playbackInfo` (main.c:98). -/
def changeFile (env : Env) (ep_file : Option CStr) (hasInfo : Bool) (w : World) :
    Option (Int × World) :=
  match fileTypeError env ep_file with
  | some e =>
    if hasInfo then some (-1, { w with errno := e, error := e, failEvent := true })
    else none
  | none =>
    let w := stopThread w
    match ep_file with
    | none => some (0, w)
    | some p => if hasInfo = false then some (0, w) else some (startFile env p w)

/-! ## The main loop: data -/

/-- The constant `MAX_PRESSES` (main.c:27). -/
def MAX_PRESSES : Nat := 3

/-- The two constants of `main.h` that the loop uses; `main.h` is not among
the sources, so they are parameters. -/
structure Consts where
  MAX_LIST : Int
  MAX_DIRECTORIES : Nat

/-! Key masks of libctru (`BIT(n)` is `1 << n`). -/

def KEY_A : Nat := 1
def KEY_B : Nat := 2
def KEY_START : Nat := 8
def KEY_DRIGHT : Nat := 16
def KEY_DLEFT : Nat := 32
def KEY_DUP : Nat := 64
def KEY_DDOWN : Nat := 128
def KEY_R : Nat := 256
def KEY_L : Nat := 512
def KEY_ZL : Nat := 16384
def KEY_ZR : Nat := 32768
def KEY_CPAD_RIGHT : Nat := 268435456
def KEY_CPAD_LEFT : Nat := 536870912
def KEY_CPAD_UP : Nat := 1073741824
def KEY_CPAD_DOWN : Nat := 2147483648
def KEY_UP : Nat := KEY_DUP ||| KEY_CPAD_UP
def KEY_DOWN : Nat := KEY_DDOWN ||| KEY_CPAD_DOWN
def KEY_LEFT : Nat := KEY_DLEFT ||| KEY_CPAD_LEFT
def KEY_RIGHT : Nat := KEY_DRIGHT ||| KEY_CPAD_RIGHT

/-- The C condition `k & mask` (non-zero is true). -/
def keyTest (k mask : Nat) : Bool := (k &&& mask) != 0

/-- The four trigger buttons. -/
inductive Btn where
  | L | R | ZL | ZR
  deriving DecidableEq, Repr

/-- Key mask of a trigger button. -/
def Btn.key : Btn → Nat
  | .L => KEY_L
  | .R => KEY_R
  | .ZL => KEY_ZL
  | .ZR => KEY_ZR

/-- R and ZR skip to the next file, L and ZL to the previous one. -/
def Btn.isNext : Btn → Bool
  | .L => false
  | .R => true
  | .ZL => false
  | .ZR => true

/-- The call site of a `changeFile` in the loop. -/
inductive Site where
  /-- A on a file entry (main.c:741). -/
  | openFile
  /-- The triple-press block of a trigger button (main.c:774, 809, 842, 873). -/
  | skip (b : Btn)
  /-- The end-of-track advance (main.c:899). -/
  | autoAdvance
  deriving DecidableEq, Repr

/-- A call made by one frame whose effect lies outside the loop's variables. -/
inductive Event where
  | togglePlayback
  | showControls
  /-- The call `chdir("..")`. -/
  | chdirUp
  /-- The call `chdir(dirList.directories[idx])`. -/
  | chdir (idx : Int)
  /-- The call `changeFile(dirList.files[idx], &playbackInfo)`. -/
  | changeFile (site : Site) (idx : Int)
  /-- The call `listDir(from, MAX_LIST, select, dirList)`. -/
  | listDir (from_ select : Int)
  /-- The call `err_print("Unable to list directory.")`. -/
  | errPrint
  deriving DecidableEq, Repr

/-- The variables of `main` that live across frames, and `emitted`, the
events of the frame that ran last. -/
structure State where
  fileMax : Int
  fileNum : Int
  from_ : Int
  error : Int
  dirList : DirList
  keyLComboPressed : Bool
  keyRComboPressed : Bool
  keyZLComboPressed : Bool
  keyZRComboPressed : Bool
  lPressTime : Nat
  rPressTime : Nat
  lPressCount : List Nat
  rPressCount : List Nat
  lPressIdx : Nat
  rPressIdx : Nat
  zlPressTime : Nat
  zrPressTime : Nat
  zlPressCount : List Nat
  zrPressCount : List Nat
  zlPressIdx : Nat
  zrPressIdx : Nat
  lastSkipTime : Nat
  prevPosition : List Int
  prevFrom : List Int
  mill : Nat
  emitted : List Event
  deriving DecidableEq, Repr

/-- The inputs of one frame: the three key masks of `hidScanInput`, the value
`osGetTime()` returns during the frame (one reading per frame), what
`isPlaying()` returns, what the filesystem answers if
the frame reads a directory, and the value the playback thread wrote into the
shared `error` variable since the previous frame, if any. -/
structure Frame where
  kDown : Nat
  kHeld : Nat
  kUp : Nat
  time : Nat
  isPlaying : Bool
  fs : FsResult
  errorWrite : Option Int
  deriving DecidableEq, Repr

/-- Last press time of a button (`lPressTime`, ...). -/
def State.pressTime (s : State) : Btn → Nat
  | .L => s.lPressTime
  | .R => s.rPressTime
  | .ZL => s.zlPressTime
  | .ZR => s.zrPressTime

/-- Press history of a button (`lPressCount`, ...). -/
def State.pressCount (s : State) : Btn → List Nat
  | .L => s.lPressCount
  | .R => s.rPressCount
  | .ZL => s.zlPressCount
  | .ZR => s.zrPressCount

/-- Write index of a button's history (`lPressIdx`, ...). -/
def State.pressIdx (s : State) : Btn → Nat
  | .L => s.lPressIdx
  | .R => s.rPressIdx
  | .ZL => s.zlPressIdx
  | .ZR => s.zrPressIdx

/-- Appends an event to the frame's events. -/
def State.emit (s : State) (e : Event) : State := { s with emitted := s.emitted ++ [e] }

/-- The reset `xPressIdx = 0; memset(xPressCount, 0, sizeof(xPressCount));`
of the history of one button. -/
def State.resetHist (s : State) : Btn → State
  | .L => { s with lPressIdx := 0, lPressCount := List.replicate MAX_PRESSES 0 }
  | .R => { s with rPressIdx := 0, rPressCount := List.replicate MAX_PRESSES 0 }
  | .ZL => { s with zlPressIdx := 0, zlPressCount := List.replicate MAX_PRESSES 0 }
  | .ZR => { s with zrPressIdx := 0, zrPressCount := List.replicate MAX_PRESSES 0 }

/-- The body of `if (kDown & KEY_x)` in main.c:422-455: record the press. -/
def State.pressDown (s : State) (t : Nat) : Btn → State
  | .L => { s with lPressTime := t, lPressCount := s.lPressCount.set s.lPressIdx t,
                   lPressIdx := (s.lPressIdx + 1) % MAX_PRESSES }
  | .R => { s with rPressTime := t, rPressCount := s.rPressCount.set s.rPressIdx t,
                   rPressIdx := (s.rPressIdx + 1) % MAX_PRESSES }
  | .ZL => { s with zlPressTime := t, zlPressCount := s.zlPressCount.set s.zlPressIdx t,
                    zlPressIdx := (s.zlPressIdx + 1) % MAX_PRESSES }
  | .ZR => { s with zrPressTime := t, zrPressCount := s.zrPressCount.set s.zrPressIdx t,
                    zrPressIdx := (s.zrPressIdx + 1) % MAX_PRESSES }

/-- The body of `if (kUp & KEY_x)` in main.c:434-465: clear the press time and
the button's combo flag. -/
def State.release (s : State) : Btn → State
  | .L => { s with lPressTime := 0, keyLComboPressed := false }
  | .R => { s with rPressTime := 0, keyRComboPressed := false }
  | .ZL => { s with zlPressTime := 0, keyZLComboPressed := false }
  | .ZR => { s with zrPressTime := 0, keyZRComboPressed := false }

/-- The call `if(listDir(from, MAX_LIST, fileNum, dirList) < 0) err_print(...)`
that redraws the listing. -/
def State.render (c : Consts) (s : State) : State :=
  let s1 := s.emit (Event.listDir s.from_ s.fileNum)
  if (listDir s.from_ c.MAX_LIST s.fileNum s.dirList).1 < 0 then s1.emit Event.errPrint else s1

/-! ## The main loop: one frame -/

/-- The press-time tracking of main.c:421-465, in source order. -/
def trackPresses (f : Frame) (s : State) : State :=
  let s := if keyTest f.kDown KEY_L then s.pressDown f.time .L else s
  let s := if keyTest f.kDown KEY_R then s.pressDown f.time .R else s
  let s := if keyTest f.kUp KEY_L then s.release .L else s
  let s := if keyTest f.kUp KEY_R then s.release .R else s
  let s := if keyTest f.kDown KEY_ZL then s.pressDown f.time .ZL else s
  let s := if keyTest f.kDown KEY_ZR then s.pressDown f.time .ZR else s
  let s := if keyTest f.kUp KEY_ZL then s.release .ZL else s
  let s := if keyTest f.kUp KEY_ZR then s.release .ZR else s
  s

/-- The pause/play body shared by the four combo branches (main.c:489-505,
525-537, 551-566, 586-598), after the `isPlaying()` test: toggle, set the
combo flags, reset both histories of the pair. `z` selects the ZL/ZR pair,
`second` says whether the flag of the pair's second button is set too. -/
def togglePause (z second : Bool) (s : State) : State :=
  let s := s.emit Event.togglePlayback
  let s := if z then { s with keyZLComboPressed := true } else { s with keyLComboPressed := true }
  let s := if second then
      (if z then { s with keyZRComboPressed := true } else { s with keyRComboPressed := true })
    else s
  if z then (s.resetHist .ZL).resetHist .ZR else (s.resetHist .L).resetHist .R

/-- The block `if(kHeld & KEY_L) { ... }` of main.c:481-518. `some` is the state at the
`continue`, `none` means the frame goes on. -/
def comboL (f : Frame) (s : State) : Option State :=
  if keyTest f.kHeld KEY_L then
    if keyTest f.kDown (KEY_R ||| KEY_UP) then
      if f.isPlaying = false then some s
      else some (togglePause false (keyTest KEY_R f.kDown) s)
    else if keyTest f.kDown KEY_LEFT then
      some { s.emit Event.showControls with keyLComboPressed := true }
    else none
  else none

/-- The block `if ((kHeld & KEY_R) && (kDown & KEY_L)) { ... }` of
main.c:520-540. -/
def comboR (f : Frame) (s : State) : Option State :=
  if keyTest f.kHeld KEY_R && keyTest f.kDown KEY_L then
    if f.isPlaying = false then some s
    else some (togglePause false true s)
  else none

/-- The block `if(kHeld & KEY_ZL) { ... }` of main.c:543-579. -/
def comboZL (f : Frame) (s : State) : Option State :=
  if keyTest f.kHeld KEY_ZL then
    if keyTest f.kDown (KEY_ZR ||| KEY_UP) then
      if f.isPlaying = false then some s
      else some (togglePause true (keyTest KEY_ZR f.kDown) s)
    else if keyTest f.kDown KEY_LEFT then
      some { s.emit Event.showControls with keyZLComboPressed := true }
    else none
  else none

/-- The block `if ((kHeld & KEY_ZR) && (kDown & KEY_ZL)) { ... }` of
main.c:581-601. -/
def comboZR (f : Frame) (s : State) : Option State :=
  if keyTest f.kHeld KEY_ZR && keyTest f.kDown KEY_ZL then
    if f.isPlaying = false then some s
    else some (togglePause true true s)
  else none

/-- The combo detection of main.c:481-601: the first branch that ends the
frame, if any. -/
def combos (f : Frame) (s : State) : Option State :=
  match comboL f s with
  | some r => some r
  | none =>
    match comboR f s with
    | some r => some r
    | none =>
      match comboZL f s with
      | some r => some r
      | none => comboZR f s

/-- The condition of the four cursor-movement blocks:
`kDown & KEY || ((kHeld & KEY) && (osGetTime() - mill > 500))`. -/
def moveKey (f : Frame) (s : State) (key : Nat) : Bool :=
  keyTest f.kDown key || (keyTest f.kHeld key && decide (u64sub f.time s.mill > 500))

/-- Up (main.c:603-615). -/
def moveUp (c : Consts) (f : Frame) (s : State) : State :=
  if moveKey f s KEY_UP && decide (s.fileNum > 0) then
    let s := { s with fileNum := s.fileNum - 1 }
    let s := if s.fileMax - s.fileNum > c.MAX_LIST - 2 ∧ s.from_ ≠ 0
      then { s with from_ := s.from_ - 1 } else s
    s.render c
  else s

/-- Down (main.c:617-629). -/
def moveDown (c : Consts) (f : Frame) (s : State) : State :=
  if moveKey f s KEY_DOWN && decide (s.fileNum < s.fileMax) then
    let s := { s with fileNum := s.fileNum + 1 }
    let s := if s.fileNum ≥ c.MAX_LIST ∧ s.fileMax - s.fileNum ≥ 0 ∧
        s.from_ < s.fileMax - c.MAX_LIST
      then { s with from_ := s.from_ + 1 } else s
    s.render c
  else s

/-- Left (main.c:631-652); `/` on `int` truncates toward zero. -/
def moveLeft (c : Consts) (f : Frame) (s : State) : State :=
  if moveKey f s KEY_LEFT && decide (s.fileNum > 0) then
    let skip := Int.tdiv c.MAX_LIST 2
    let skip := if s.fileNum < skip then s.fileNum else skip
    let s := { s with fileNum := s.fileNum - skip }
    let s := if s.fileMax - s.fileNum > c.MAX_LIST - 2 ∧ s.from_ ≠ 0
      then
        let s := { s with from_ := s.from_ - skip }
        if s.from_ < 0 then { s with from_ := 0 } else s
      else s
    s.render c
  else s

/-- Right (main.c:654-675). -/
def moveRight (c : Consts) (f : Frame) (s : State) : State :=
  if moveKey f s KEY_RIGHT && decide (s.fileNum < s.fileMax) then
    let skip := s.fileMax - s.fileNum
    let skip := if skip > Int.tdiv c.MAX_LIST 2 then Int.tdiv c.MAX_LIST 2 else skip
    let s := { s with fileNum := s.fileNum + skip }
    let s := if s.fileNum ≥ c.MAX_LIST ∧ s.fileMax - s.fileNum ≥ 0 ∧
        s.from_ < s.fileMax - c.MAX_LIST
      then
        let s := { s with from_ := s.from_ + skip }
        if s.from_ > s.fileMax - c.MAX_LIST then { s with from_ := s.fileMax - c.MAX_LIST } else s
      else s
    s.render c
  else s

/-- The cursor movement of main.c:603-675: the four blocks in source order. -/
def moveCursor (c : Consts) (f : Frame) (s : State) : State :=
  moveRight c f (moveLeft c f (moveDown c f (moveUp c f s)))

/-- The loop `for (i = 0; i < MAX_DIRECTORIES-1; i++) a[i] = a[i+1];` followed
by `a[MAX_DIRECTORIES-1] = 0` (main.c:690-696). -/
def shiftDown (n : Nat) (a : List Int) : List Int :=
  ((List.range (n - 1)).foldl (fun a i => a.set i (a.getD (i + 1) 0)) a).set (n - 1) 0

/-- The loop `for (i = MAX_DIRECTORIES-1; i > 0; i--) a[i] = a[i-1];` followed
by `a[0] = old` (main.c:724-729). -/
def shiftUp (n : Nat) (old : Int) (a : List Int) : List Int :=
  (((List.range (n - 1)).reverse.map (· + 1)).foldl (fun a i => a.set i (a.getD (i - 1) 0)) a).set 0 old

/-- Leaving the directory (the body of main.c:681-702). -/
def leaveDir (c : Consts) (f : Frame) (s : State) : State :=
  let s := s.emit Event.chdirUp
  let r := getDir f.fs s.dirList
  let s := { s with dirList := r.1, fileMax := r.2 }
  let s := { s with fileNum := s.prevPosition.getD 0 0, from_ := s.prevFrom.getD 0 0 }
  let s := { s with prevPosition := shiftDown c.MAX_DIRECTORIES s.prevPosition,
                    prevFrom := shiftDown c.MAX_DIRECTORIES s.prevFrom }
  s.render c

/-- Entering the selected directory (the body of main.c:706-732). -/
def enterDir (c : Consts) (f : Frame) (s : State) : State :=
  let s := s.emit (Event.chdir (s.fileNum - 1))
  let r := getDir f.fs s.dirList
  let s := { s with dirList := r.1, fileMax := r.2 }
  let oldFileNum := s.fileNum
  let oldFrom := s.from_
  let s := { s with fileNum := 0, from_ := 0 }
  let s1 := s.emit (Event.listDir s.from_ s.fileNum)
  if (listDir s.from_ c.MAX_LIST s.fileNum s.dirList).1 < 0 then s1.emit Event.errPrint
  else
    { s1 with prevPosition := shiftUp c.MAX_DIRECTORIES oldFileNum s1.prevPosition,
              prevFrom := shiftUp c.MAX_DIRECTORIES oldFrom s1.prevFrom }

/-- The B and A handling of main.c:681-745. `some` is the state at the
`continue`, `none` means the frame goes on. -/
def navigate (c : Consts) (f : Frame) (s : State) : Option State :=
  if keyTest f.kDown KEY_B || (keyTest f.kDown KEY_A && (decide (s.from_ = 0) && decide (s.fileNum = 0))) then
    some (leaveDir c f s)
  else if keyTest f.kDown KEY_A then
    if s.dirList.dirNum ≥ s.fileNum then some (enterDir c f s)
    else if s.dirList.dirNum < s.fileNum then
      let s := s.emit (Event.changeFile Site.openFile (s.fileNum - s.dirList.dirNum - 1))
      some { s with error := 0 }
    else none
  else none

/-- The cursor move of a skip: forward for R/ZR (main.c:764-770, 833-838),
backward for L/ZL (main.c:799-805, 864-869). -/
def skipMove (c : Consts) (b : Btn) (now : Nat) (s : State) : State :=
  if b.isNext then
    if s.fileNum < s.fileMax ∧ s.dirList.dirNum < s.fileNum + 1 then
      let s := { s with fileNum := s.fileNum + 1 }
      let s := if s.fileNum ≥ c.MAX_LIST ∧ s.fileMax - s.fileNum ≥ 0 ∧
          s.from_ < s.fileMax - c.MAX_LIST
        then { s with from_ := s.from_ + 1 } else s
      { s with lastSkipTime := now }
    else s
  else
    if s.fileNum > 1 ∧ s.dirList.dirNum < s.fileNum - 1 then
      let s := { s with fileNum := s.fileNum - 1 }
      let s := if s.fileMax - s.fileNum > c.MAX_LIST - 2 ∧ s.from_ ≠ 0
        then { s with from_ := s.from_ - 1 } else s
      { s with lastSkipTime := now }
    else s

/-- The body of `if (now - lastSkipTime > 1000)` in a triple-press block:
move, `changeFile`, `error = 0`, `listDir`, reset the button's history. -/
def skipAccept (c : Consts) (b : Btn) (now : Nat) (s : State) : State :=
  let s := skipMove c b now s
  let s := s.emit (Event.changeFile (Site.skip b) (s.fileNum - s.dirList.dirNum - 1))
  let s := { s with error := 0 }
  let s := s.render c
  s.resetHist b

/-- One iteration of the `for (i = 0; i < MAX_PRESSES; i++)` loop of a
triple-press block, on the loop's variables and the frame's `count`. -/
def skipIter (c : Consts) (b : Btn) (now : Nat) (p : State × Int) (i : Nat) : State × Int :=
  if u64sub (p.1.pressTime b) ((p.1.pressCount b).getD i 0) ≤ 500 then
    let count := p.2 + 1
    if count = (MAX_PRESSES : Int) then
      if u64sub now p.1.lastSkipTime > 1000 then (skipAccept c b now p.1, count)
      else (p.1, count)
    else (p.1, count)
  else p

/-- One triple-press block (main.c:753-786, 788-820, 822-852, 854-883). -/
def skipBlock (c : Consts) (f : Frame) (b : Btn) (p : State × Int) : State × Int :=
  if keyTest f.kHeld b.key && decide (p.1.pressTime b ≠ 0) then
    (List.range MAX_PRESSES).foldl (skipIter c b f.time) p
  else p

/-- The four triple-press blocks in source order (ZR, ZL, R, L); `count`
starts at 0 once per frame (main.c:419) and is shared by the four blocks. -/
def skipBlocks (c : Consts) (f : Frame) (s : State) : State × Int :=
  skipBlock c f .L (skipBlock c f .R (skipBlock c f .ZL (skipBlock c f .ZR (s, 0))))

/-- The end-of-track advance of main.c:885-904. -/
def autoAdvance (c : Consts) (s : State) : State :=
  if s.error = -1 then
    if s.fileNum ≥ s.fileMax ∨ s.dirList.dirNum ≥ s.fileNum then { s with error := 0 }
    else
      let s := { s with fileNum := s.fileNum + 1 }
      let s := s.emit (Event.changeFile Site.autoAdvance (s.fileNum - s.dirList.dirNum - 1))
      let s := { s with error := 0 }
      s.render c
  else s

/-- The start of a frame in the model: no event emitted yet, and the value the
playback thread wrote into `error`, if any, has arrived. -/
def beginFrame (f : Frame) (s : State) : State :=
  let s := { s with emitted := [] }
  match f.errorWrite with
  | some e => { s with error := e }
  | none => s

/-- The statement `if(kDown) mill = osGetTime();` (main.c:478-479). -/
def setMill (f : Frame) (s : State) : State :=
  if f.kDown ≠ 0 then { s with mill := f.time } else s

/-- One iteration of `while(aptMainLoop())` (main.c:404-946): the state after
the frame and whether the loop was left through `break` (START). The progress
display of main.c:906-945 only prints and is left out. -/
def frame (c : Consts) (f : Frame) (s : State) : State × Bool :=
  let s := trackPresses f (beginFrame f s)
  if keyTest f.kDown KEY_START then (s, true)
  else
    let s := setMill f s
    match combos f s with
    | some r => (r, false)
    | none =>
      let s := moveCursor c f s
      match navigate c f s with
      | some r => (r, false)
      | none => (autoAdvance c (skipBlocks c f s).1, false)

/-- The loop over a list of frames: the state after each frame that ran, in
order. The loop ends with the list or at the first `break`. -/
def run (c : Consts) : List Frame → State → List State
  | [], _ => []
  | f :: fs, s =>
    let r := frame c f s
    if r.2 then [r.1] else r.1 :: run c fs r.1

/-- The variables of `main` when the loop is entered (main.c:307-394), given
the directory reads of `getDir` and of `getNumberFiles`. -/
def initState (c : Consts) (fs1 fs2 : FsResult) : State :=
  let r := getDir fs1 DirList.zero
  { fileMax := getNumberFiles fs2, fileNum := 0, from_ := 0, error := 0, dirList := r.1,
    keyLComboPressed := false, keyRComboPressed := false,
    keyZLComboPressed := false, keyZRComboPressed := false,
    lPressTime := 0, rPressTime := 0,
    lPressCount := List.replicate MAX_PRESSES 0, rPressCount := List.replicate MAX_PRESSES 0,
    lPressIdx := 0, rPressIdx := 0,
    zlPressTime := 0, zrPressTime := 0,
    zlPressCount := List.replicate MAX_PRESSES 0, zrPressCount := List.replicate MAX_PRESSES 0,
    zlPressIdx := 0, zrPressIdx := 0,
    lastSkipTime := 0,
    prevPosition := List.replicate c.MAX_DIRECTORIES 0,
    prevFrom := List.replicate c.MAX_DIRECTORIES 0,
    mill := 0,
    emitted := [Event.listDir 0 0] }

/-- Whether an event is a skip command: a `changeFile` issued by a
triple-press block. -/
def Event.isSkip : Event → Bool
  | .changeFile (.skip _) _ => true
  | _ => false

/-- Whether an event is a skip command issued by the block of button `b`. -/
def Event.isSkipOf (b : Btn) : Event → Bool
  | .changeFile (.skip b') _ => b' == b
  | _ => false

/-- The skip commands among the events of the frame that ran last. -/
def State.skips (s : State) : List Event := s.emitted.filter Event.isSkip

/-! ## Notions used by the statements -/

/-- A frame in which button `b` goes down and nothing else is down, held or released. -/
def Frame.isPress (f : Frame) (b : Btn) : Prop :=
  f.kDown = b.key ∧ f.kHeld = b.key ∧ f.kUp = 0

instance (f : Frame) (b : Btn) : Decidable (f.isPress b) := by
  unfold Frame.isPress; exact inferInstance

/-- The state after all frames of the list have run (none of them leaving the
loop). -/
def runEnd (c : Consts) (fs : List Frame) (s : State) : State :=
  fs.foldl (fun s f => (frame c f s).1) s

/-- The state of a press frame of `b` when the combo detection is reached:
the press is recorded and `mill` is the frame's time. -/
def pressed (f : Frame) (s : State) (b : Btn) : State :=
  { (beginFrame f s).pressDown f.time b with mill := f.time }

/-- Slot `i` of the history of `b` lies within 500 time-units of the button's
last press time (the test of main.c:757, 792, 826, 858). -/
def State.qual (s : State) (b : Btn) (i : Nat) : Prop :=
  u64sub (s.pressTime b) ((s.pressCount b).getD i 0) ≤ 500

instance (s : State) (b : Btn) (i : Nat) : Decidable (s.qual b i) := by
  unfold State.qual; exact inferInstance

/-- The triple-press block of `b` has nothing to accept: the button has no
press time, or one of the three slots does not qualify. -/
def State.noTriple (s : State) (b : Btn) : Prop :=
  s.pressTime b = 0 ∨ ¬ (s.qual b 0 ∧ s.qual b 1 ∧ s.qual b 2)


/-- The history of button `b` is empty: write index 0 and all three slots 0. -/
def State.histEmpty (s : State) (b : Btn) : Prop :=
  s.pressIdx b = 0 ∧ s.pressCount b = [0, 0, 0]

/-- One of the L/R branches of the combo detection (main.c:481-540) takes the
frame: L held with R, Up or Left going down, or R held with L going down. -/
def Frame.lrBranch (f : Frame) : Bool :=
  (keyTest f.kHeld KEY_L &&
    (keyTest f.kDown KEY_R || keyTest f.kDown KEY_UP || keyTest f.kDown KEY_LEFT)) ||
  (keyTest f.kHeld KEY_R && keyTest f.kDown KEY_L)

/-! ## Example data -/

/-- Example constants: 28 lines per screen, 3 levels of history. -/
def exConsts : Consts := { MAX_LIST := 28, MAX_DIRECTORIES := 3 }

/-- The example directory of the specification. -/
def exEntries : List DirEnt :=
  [⟨cstr ".git", true⟩, ⟨cstr "b.mp3", false⟩, ⟨cstr "A", true⟩, ⟨cstr "a.mp3", false⟩]

/-- The filesystem answers every read with the example directory. -/
def exFs : FsResult := FsResult.listing (cstr "sdmc:/MUSIC") exEntries true

/-- A frame with the given key masks and time, playback state `playing`, no
write of the playback thread. -/
def keyFrame (kDown kHeld kUp time : Nat) (playing : Bool) : Frame :=
  { kDown := kDown, kHeld := kHeld, kUp := kUp, time := time, isPlaying := playing,
    fs := exFs, errorWrite := none }

/-- The state reached from program start by pressing Down three times: the
cursor is on entry 3, the last file (`b.mp3`). -/
def exState : State :=
  ((run exConsts [keyFrame KEY_DDOWN KEY_DDOWN 0 600 false,
      keyFrame KEY_DDOWN KEY_DDOWN 0 700 false, keyFrame KEY_DDOWN KEY_DDOWN 0 800 false]
    (initState exConsts exFs exFs)).getLast?).getD (initState exConsts exFs exFs)

/-- The state reached from `exState` by pressing L at 1000, releasing it, and
pressing it again at 1100 (L is still held). -/
def exTwoPresses : State :=
  ((run exConsts [keyFrame KEY_L KEY_L 0 1000 false, keyFrame 0 0 KEY_L 1010 false,
      keyFrame KEY_L KEY_L 0 1100 false] exState).getLast?).getD exState

/-- The state reached from `exState` by pressing ZR at 1000, releasing it, and
pressing it again at 1100 (ZR is still held). -/
def exTwoZR : State :=
  ((run exConsts [keyFrame KEY_ZR KEY_ZR 0 1000 false, keyFrame 0 0 KEY_ZR 1010 false,
      keyFrame KEY_ZR KEY_ZR 0 1100 false] exState).getLast?).getD exState

/-- Eleven frames: R pressed and released six times, 20 time-units apart,
from 2000 to 2100 (the last press is not released). -/
def exSixPresses : List Frame :=
  [keyFrame KEY_R KEY_R 0 2000 false, keyFrame 0 0 KEY_R 2010 false,
   keyFrame KEY_R KEY_R 0 2020 false, keyFrame 0 0 KEY_R 2030 false,
   keyFrame KEY_R KEY_R 0 2040 false, keyFrame 0 0 KEY_R 2050 false,
   keyFrame KEY_R KEY_R 0 2060 false, keyFrame 0 0 KEY_R 2070 false,
   keyFrame KEY_R KEY_R 0 2080 false, keyFrame 0 0 KEY_R 2090 false,
   keyFrame KEY_R KEY_R 0 2100 false]

/-- The state of a frame when the combo detection is reached: presses and
releases are recorded and `mill` is updated. -/
def tracked (f : Frame) (s : State) : State :=
  setMill f (trackPresses f (beginFrame f s))

/-- The navigation history is well formed: both arrays have
`MAX_DIRECTORIES` elements. -/
def State.histOk (c : Consts) (s : State) : Prop :=
  s.prevPosition.length = c.MAX_DIRECTORIES ∧ s.prevFrom.length = c.MAX_DIRECTORIES

/-- A descent made from the cursor/offset pair `d.2`: the frame `d.1` runs in
the state whose cursor and scroll offset are `d.2`. -/
def descend (c : Consts) (s : State) (d : Frame × (Int × Int)) : State :=
  (frame c d.1 { s with fileNum := d.2.1, from_ := d.2.2 }).1

/-- A sequence of descents, first to last. -/
def descents (c : Consts) (ds : List (Frame × (Int × Int))) (s : State) : State :=
  ds.foldl (descend c) s

/-- Every step of `ds` enters a directory: A goes down while the cursor is on
a directory entry of the listing reached so far. -/
def descentsOk (c : Consts) : List (Frame × (Int × Int)) → State → Prop
  | [], _ => True
  | d :: rest, s =>
    d.1.kDown = KEY_A ∧ 1 ≤ d.2.1 ∧ d.2.1 ≤ s.dirList.dirNum ∧ descentsOk c rest (descend c s d)

/-- The state reached from program start by pressing Down once: the cursor is
on entry 1, the directory `A`. -/
def exOnDir : State :=
  ((run exConsts [keyFrame KEY_DDOWN KEY_DDOWN 0 600 false]
    (initState exConsts exFs exFs)).getLast?).getD (initState exConsts exFs exFs)

/-- Four descents into the directory `A` (cursor 1), made with the scroll
offsets 0, 1, 2, 3. -/
def exDescents : List (Frame × (Int × Int)) :=
  [(keyFrame KEY_A KEY_A 0 900 false, (1, 0)), (keyFrame KEY_A KEY_A 0 1000 false, (1, 1)),
   (keyFrame KEY_A KEY_A 0 1100 false, (1, 2)), (keyFrame KEY_A KEY_A 0 1200 false, (1, 3))]

/-- Four frames in which B goes down. -/
def exUps : List Frame :=
  [keyFrame KEY_B KEY_B 0 2000 false, keyFrame KEY_B KEY_B 0 2100 false,
   keyFrame KEY_B KEY_B 0 2200 false, keyFrame KEY_B KEY_B 0 2300 false]

/-- Example collaborators: `getFileType` rejects `bad.txt` with `errno = 2`
and accepts every other path; `threadCreate` returns handle 8; the session's
file buffer has 16 bytes. -/
def exEnv : Env :=
  { getFileType := fun p => if p = cstr "bad.txt" then some 2 else none,
    prio := 48, threadCreate := some 8, fileSize := 16 }

/-- Example world: playback thread 7 is playing `a.mp3`, 500 of 9000 samples
played. -/
def exWorld : World :=
  { thread := some 7,
    info := { file := cstr "a.mp3" ++ List.replicate 11 0, samples_total := 9000,
              samples_played := 500, samples_per_second := 44100 },
    error := 0, failEvent := false, errno := 0, console := [], ops := [] }

/-- The C string held in a buffer: the bytes before the first NUL. -/
def cString (buf : List Nat) : CStr := buf.takeWhile (fun x => x != 0)

/-- The state `exState` (cursor on the last file) when the playback thread has
reported the end of the track. -/
def exEnded : State := { exState with error := -1 }

/-- The start of `main` up to the loop (main.c:381-394): `none` is the jump to
`err`, taken when `getDir` or `listDir` returns a negative value; otherwise
the loop is entered with `initState`. -/
def mainStart (c : Consts) (fs1 fs2 : FsResult) : Option State :=
  if (getDir fs1 DirList.zero).2 < 0 then none
  else if (listDir 0 c.MAX_LIST 0 (getDir fs1 DirList.zero).1).1 < 0 then none
  else some (initState c fs1 fs2)

/-- What the thread calls made so far amount to: the threads created and not
yet joined, the threads created and not yet freed, and whether `stopPlayback`
was called since the last `threadCreate`. -/
structure ThreadView where
  running : List Nat
  unfreed : List Nat
  asked : Bool
  deriving DecidableEq, Repr

/-- No thread was ever created. -/
def ThreadView.start : ThreadView := { running := [], unfreed := [], asked := false }

/-- One thread call seen by a `ThreadView`; `none` when the call breaks the
discipline "create only when no thread is running or unfreed, join only after
asking to stop". A `threadCreate` that returns NULL creates nothing. -/
def ThreadView.step (v : ThreadView) : ThreadOp → Option ThreadView
  | .stopPlayback => some { v with asked := true }
  | .threadJoin t => if v.asked then some { v with running := v.running.erase t } else none
  | .threadFree t => some { v with unfreed := v.unfreed.erase t }
  | .threadCreate r _ =>
    if v.running = [] ∧ v.unfreed = [] then
      some { running := r.toList, unfreed := r.toList, asked := false }
    else none

/-- A list of thread calls replayed from a view, first to last. -/
def ThreadView.replay : ThreadView → List ThreadOp → Option ThreadView
  | v, [] => some v
  | v, op :: rest =>
    match v.step op with
    | some v' => v'.replay rest
    | none => none

/-- A sequence of `changeFile` calls, each with its own collaborators and
path, the session pointer non-NULL: the worlds after each call. -/
def runCalls : List (Env × Option CStr) → World → List World
  | [], _ => []
  | call :: rest, w =>
    match changeFile call.1 call.2 true w with
    | some r => r.2 :: runCalls rest r.2
    | none => []

/-- The thread variable of `changeFile` is the only thread there is: the calls
made so far respect the discipline, and the threads running and unfreed are
exactly the one the variable holds, if any. -/
def World.threadsOk (w : World) : Prop :=
  ∃ v, ThreadView.start.replay w.ops = some v ∧
    v.running = w.thread.toList ∧ v.unfreed = w.thread.toList

/-- A world in which no thread call has been made yet, as at program start. -/
def exStart : World := { exWorld with thread := none }

/-- Five calls: a playable path (thread 8), a rejected path, another playable
path (thread 9), a path too long for the 16-byte buffer, and NULL. -/
def exCalls : List (Env × Option CStr) :=
  [(exEnv, some (cstr "b.mp3")), (exEnv, some (cstr "bad.txt")),
   ({ exEnv with threadCreate := some 9 }, some (cstr "a.mp3")),
   (exEnv, some (cstr "a-very-long-file-name.mp3")), (exEnv, none)]

/-- The number of positions Left moves the cursor (main.c:635-638). -/
def leftSkip (c : Consts) (s : State) : Int :=
  if s.fileNum < Int.tdiv c.MAX_LIST 2 then s.fileNum else Int.tdiv c.MAX_LIST 2

/-- The number of positions Right moves the cursor (main.c:658-661). -/
def rightSkip (c : Consts) (s : State) : Int :=
  if s.fileMax - s.fileNum > Int.tdiv c.MAX_LIST 2 then Int.tdiv c.MAX_LIST 2
  else s.fileMax - s.fileNum

/-- The cursor is an entry of the listing: `0 ≤ fileNum ≤ fileMax`. -/
def State.cursorOk (s : State) : Prop := 0 ≤ s.fileNum ∧ s.fileNum ≤ s.fileMax

/-- Whether a printed line carries the cursor mark `>`. -/
def Line.isSelected : Line → Bool
  | .parent sel => sel
  | .dir sel _ => sel
  | .file sel _ => sel

/-- The line `listDir` prints for entry `j` of the combined index space:
a directory line for `j ≤ dirNum`, a file line otherwise. -/
def lineOf (select : Int) (d : DirList) (j : Int) : Line :=
  if d.dirNum ≥ j then Line.dir (select == j) (j - 1)
  else Line.file (select == j) (j - d.dirNum - 1)

/-- The array read of a printed line stays inside `directories` or `files`. -/
def Line.inBounds (d : DirList) : Line → Prop
  | .parent _ => True
  | .dir _ idx => 0 ≤ idx ∧ idx < d.directories.length
  | .file _ idx => 0 ≤ idx ∧ idx < d.files.length

/-- The counts of a listing are the lengths of its arrays, as `getDir` leaves
them. -/
def DirList.wf (d : DirList) : Prop :=
  d.dirNum = d.directories.length ∧ d.fileNum = d.files.length

/-- Whether the listing drawn for scroll offset `from_` shows the entry
`cursor` (as the marked line). -/
def cursorShown (c : Consts) (from_ cursor : Int) (d : DirList) : Bool :=
  (listDir from_ c.MAX_LIST cursor d).2.any Line.isSelected

/-- Example constants with a short screen: 4 lines, 3 levels of history. -/
def exSmall : Consts := { MAX_LIST := 4, MAX_DIRECTORIES := 3 }

/-- A directory of eight files and no subdirectory. -/
def exLongFs : FsResult :=
  FsResult.listing (cstr "sdmc:/MUSIC")
    [⟨cstr "t1", false⟩, ⟨cstr "t2", false⟩, ⟨cstr "t3", false⟩, ⟨cstr "t4", false⟩,
     ⟨cstr "t5", false⟩, ⟨cstr "t6", false⟩, ⟨cstr "t7", false⟩, ⟨cstr "t8", false⟩] true

/-- A frame in which Down goes down, in the directory of eight files. -/
def downFrame (time : Nat) : Frame :=
  { kDown := KEY_DDOWN, kHeld := KEY_DDOWN, kUp := 0, time := time, isPlaying := false,
    fs := exLongFs, errorWrite := none }

/-- The state reached from program start in the directory of eight files, on
the 4-line screen, by pressing Down four times: the cursor is on entry 4 and
the listing is scrolled by one. -/
def exScrolled : State :=
  ((run exSmall [downFrame 600, downFrame 700, downFrame 800, downFrame 900]
    (initState exSmall exLongFs exLongFs)).getLast?).getD (initState exSmall exLongFs exLongFs)

/-- Ten frames: L pressed and released three times (2000, 2020, 2040), then R
pressed and released twice (2840, 2940). -/
def exCooldown : List Frame :=
  [keyFrame KEY_L KEY_L 0 2000 false, keyFrame 0 0 KEY_L 2010 false,
   keyFrame KEY_L KEY_L 0 2020 false, keyFrame 0 0 KEY_L 2030 false,
   keyFrame KEY_L KEY_L 0 2040 false, keyFrame 0 0 KEY_L 2050 false,
   keyFrame KEY_R KEY_R 0 2840 false, keyFrame 0 0 KEY_R 2850 false,
   keyFrame KEY_R KEY_R 0 2940 false, keyFrame 0 0 KEY_R 2950 false]

/-- The state reached from `exState` (cursor on the last file) by the frames
of `exCooldown`: the third press of L was accepted at 2040 and moved the
cursor to entry 2, and R has been pressed twice since. -/
def exCooled : State :=
  ((run exConsts exCooldown exState).getLast?).getD exState

/-- Five frames: the key `k` pressed at 2000, 2020 and 2040, released in
between, the last press held. -/
def triplePress (k : Nat) : List Frame :=
  [keyFrame k k 0 2000 false, keyFrame 0 0 k 2010 false,
   keyFrame k k 0 2020 false, keyFrame 0 0 k 2030 false,
   keyFrame k k 0 2040 false]

/-- Example constants with a 3-line screen. -/
def exTiny : Consts := { MAX_LIST := 3, MAX_DIRECTORIES := 3 }

/-- A frame without keys in which the playback thread has written `-1` (end
of the track) into `error`, in the directory of eight files. -/
def endFrame (time : Nat) : Frame :=
  { kDown := 0, kHeld := 0, kUp := 0, time := time, isPlaying := false,
    fs := exLongFs, errorWrite := some (-1) }

/-- The state reached from program start in the directory of eight files, on
the 4-line screen, by pressing Down three times: the cursor is on entry 3, the
last line of the unscrolled window. -/
def exBottom : State :=
  ((run exSmall [downFrame 600, downFrame 700, downFrame 800]
    (initState exSmall exLongFs exLongFs)).getLast?).getD (initState exSmall exLongFs exLongFs)

/-- The cursor and the scroll offset as the cursor movements and the skips
leave them: the cursor is within `[0, fileMax]`; with offset 0 it is on one of
the entries `0 .. MAX_LIST - 1`; with a positive offset `from` (at most
`fileMax - MAX_LIST`) it is on one of the entries `from + 2 .. from + MAX_LIST - 1`,
or up to `from + MAX_LIST` when the offset is `fileMax - MAX_LIST`. -/
def State.windowOk (c : Consts) (s : State) : Prop :=
  0 ≤ s.fileNum ∧ s.fileNum ≤ s.fileMax ∧ 0 ≤ s.from_ ∧
  (s.from_ = 0 → s.fileNum ≤ c.MAX_LIST - 1) ∧
  (s.from_ ≠ 0 → s.from_ ≤ s.fileMax - c.MAX_LIST ∧ s.from_ + 2 ≤ s.fileNum ∧
    (s.fileNum ≤ s.from_ + c.MAX_LIST - 1 ∨ s.from_ = s.fileMax - c.MAX_LIST))

/-- The state reached from program start in the example directory (`A/`,
`a.mp3`, `b.mp3`), on the 3-line screen, by pressing Down three times. -/
def exLast : State :=
  ((run exTiny [keyFrame KEY_DDOWN KEY_DDOWN 0 600 false,
      keyFrame KEY_DDOWN KEY_DDOWN 0 700 false, keyFrame KEY_DDOWN KEY_DDOWN 0 800 false]
    (initState exTiny exFs exFs)).getLast?).getD (initState exTiny exFs exFs)

/-- A cursor operation other than the end-of-track advance: one of the four
movement blocks in some frame, or an accepted skip of some button. -/
inductive CursorOp where
  | up (f : Frame)
  | down (f : Frame)
  | left (f : Frame)
  | right (f : Frame)
  | skip (b : Btn) (now : Nat)

/-- The effect of a cursor operation on the state. -/
def CursorOp.apply (c : Consts) : CursorOp → State → State
  | .up f, s => moveUp c f s
  | .down f, s => moveDown c f s
  | .left f, s => moveLeft c f s
  | .right f, s => moveRight c f s
  | .skip b now, s => skipAccept c b now s

/-- Frame `f` is left to button `b`: no other trigger button goes down or is
held, START does not go down, and, for L and ZL while held, neither Up nor
Left goes down (L+Up, ZL+Up, L+Left and ZL+Left are shortcuts of the combo
detection). Every other key may be down, held or released. -/
def Frame.clearOf (f : Frame) (b : Btn) : Prop :=
  (∀ b' ∈ [Btn.L, Btn.R, Btn.ZL, Btn.ZR], b' ≠ b →
    keyTest f.kDown b'.key = false ∧ keyTest f.kHeld b'.key = false) ∧
  keyTest f.kDown KEY_START = false ∧
  (b.isNext = false → keyTest f.kHeld b.key = true →
    keyTest f.kDown KEY_UP = false ∧ keyTest f.kDown KEY_LEFT = false)

/-- A frame in which button `b` goes down (and is held, not released), left
to `b`. -/
def Frame.pressOf (f : Frame) (b : Btn) : Prop :=
  keyTest f.kDown b.key = true ∧ keyTest f.kHeld b.key = true ∧
  keyTest f.kUp b.key = false ∧ f.clearOf b

/-- A frame in which button `b` does not go down, left to `b`: `b` may be
kept held, be released or be idle. -/
def Frame.quietOf (f : Frame) (b : Btn) : Prop :=
  keyTest f.kDown b.key = false ∧ f.clearOf b

instance (f : Frame) (b : Btn) : Decidable (f.clearOf b) := by
  unfold Frame.clearOf; exact inferInstance

instance (f : Frame) (b : Btn) : Decidable (f.pressOf b) := by
  unfold Frame.pressOf; exact inferInstance

instance (f : Frame) (b : Btn) : Decidable (f.quietOf b) := by
  unfold Frame.quietOf; exact inferInstance

/-- What the triple-press block of button `b` reads: the last press time, the
history, the write index, and the time of the last skip. -/
def State.hist (s : State) (b : Btn) : Nat × List Nat × Nat × Nat :=
  (s.pressTime b, s.pressCount b, s.pressIdx b, s.lastSkipTime)

/-- A byte with capital letters read as small ones: `A`..`Z` (65..90) count
as `a`..`z` (97..122), every other byte as itself. -/
def foldCase (x : Nat) : Nat := if 65 ≤ x ∧ x ≤ 90 then x - 65 + 97 else x

/-- Dictionary order on byte strings: the first position at which the two
strings differ decides, and a string comes before its extensions. -/
def lexLe : List Nat → List Nat → Bool
  | [], _ => true
  | _ :: _, [] => false
  | a :: as, b :: bs => decide (a < b) || (decide (a = b) && lexLe as bs)

/-- Non-decreasing case-insensitive order of two names, in the words of the
specification: dictionary order of the names with capital letters read as
small ones. Stated without reference to `strcasecmp`. -/
def caseInsensitiveLe (a b : CStr) : Prop := lexLe (a.map foldCase) (b.map foldCase) = true

instance : DecidableRel caseInsensitiveLe := fun a b => by
  unfold caseInsensitiveLe; exact inferInstance

/-- A directory with names in both cases: files `b.mp3`, `C.mp3`, `a.mp3`,
directories `Zed`, `alpha`. -/
def exMixed : List DirEnt :=
  [⟨cstr "b.mp3", false⟩, ⟨cstr "Zed", true⟩, ⟨cstr "C.mp3", false⟩, ⟨cstr "alpha", true⟩,
   ⟨cstr "a.mp3", false⟩]

instance (d : DirList) : Decidable d.wf := by
  unfold DirList.wf; exact inferInstance

set_option maxRecDepth 4000

/-! ## Basic facts -/

theorem lor_eq_zero (a b : Nat) : a ||| b = 0 ↔ a = 0 ∧ b = 0 := by
  constructor
  · intro h
    constructor
    · apply Nat.eq_of_testBit_eq
      intro i
      have := congrArg (fun n => n.testBit i) h
      simp [Nat.testBit_or] at this
      simp [this.1]
    · apply Nat.eq_of_testBit_eq
      intro i
      have := congrArg (fun n => n.testBit i) h
      simp [Nat.testBit_or] at this
      simp [this.2]
  · rintro ⟨rfl, rfl⟩
    rfl

theorem keyTest_or (k a b : Nat) : keyTest k (a ||| b) = (keyTest k a || keyTest k b) := by
  unfold keyTest
  rw [Nat.and_or_distrib_left]
  rw [Bool.eq_iff_iff]
  simp [lor_eq_zero]
  tauto

theorem listDirLoop_nonneg (from_ max select : Int) (d : DirList) :
    ∀ (fuel : Nat) (fileNum listed : Int) (out : List Line), 0 ≤ listed →
      0 ≤ (listDirLoop from_ max select d fuel fileNum listed out).1 := by
  intro fuel
  induction fuel with
  | zero => intro _ _ _ h; simpa [listDirLoop] using h
  | succ n ih =>
    intro fileNum listed out h
    simp only [listDirLoop]
    split_ifs <;> first
      | exact ih _ _ _ h
      | exact ih _ _ _ (by omega)
      | exact h
      | (show 0 ≤ listed + 1; omega)

theorem listDir_nonneg (from_ max select : Int) (d : DirList) :
    0 ≤ (listDir from_ max select d).1 := by
  unfold listDir
  split_ifs
  · exact listDirLoop_nonneg _ _ _ _ _ _ _ _ (by norm_num)
  · exact listDirLoop_nonneg _ _ _ _ _ _ _ _ (le_refl _)

theorem render_eq (c : Consts) (s : State) :
    s.render c = s.emit (Event.listDir s.from_ s.fileNum) := by
  have h := listDir_nonneg s.from_ c.MAX_LIST s.fileNum s.dirList
  simp [State.render, not_lt.mpr h]

theorem frame_press (c : Consts) (f : Frame) (s : State) (b : Btn) (h : f.isPress b) :
    frame c f s =
      (autoAdvance c (skipBlock c f b (pressed f s b, 0)).1, false) := by
  obtain ⟨hd, hh, hu⟩ := h
  cases b <;>
  simp +decide [pressed, frame, setMill, trackPresses, hd, hh, hu, Btn.key, combos, comboL, comboR, comboZL, comboZR,
    moveCursor, moveUp, moveDown, moveLeft, moveRight, moveKey, navigate, skipBlocks, skipBlock,
    KEY_L, KEY_R, KEY_ZL, KEY_ZR, KEY_START, KEY_UP, KEY_DOWN, KEY_LEFT, KEY_RIGHT, KEY_A, KEY_B,
    KEY_DUP, KEY_DDOWN, KEY_DLEFT, KEY_DRIGHT, KEY_CPAD_UP, KEY_CPAD_DOWN, KEY_CPAD_LEFT, KEY_CPAD_RIGHT, keyTest]

theorem range_MAX_PRESSES : List.range MAX_PRESSES = [0, 1, 2] := by decide

theorem autoAdvance_keep (c : Consts) (s : State) (b : Btn) :
    (autoAdvance c s).pressTime b = s.pressTime b ∧
    (autoAdvance c s).pressCount b = s.pressCount b ∧
    (autoAdvance c s).pressIdx b = s.pressIdx b ∧
    (autoAdvance c s).lastSkipTime = s.lastSkipTime ∧
    (autoAdvance c s).skips = s.skips := by
  unfold autoAdvance
  split_ifs <;> cases b <;>
    simp [State.pressTime, State.pressCount, State.pressIdx, render_eq, State.emit, State.skips,
      Event.isSkip]

theorem skipIter_no (c : Consts) (b : Btn) (now : Nat) (p : State × Int) (i : Nat)
    (h : ¬ p.1.qual b i) : skipIter c b now p i = p := by
  unfold State.qual at h
  unfold skipIter
  rw [if_neg h]

theorem skipIter_count (c : Consts) (b : Btn) (now : Nat) (p : State × Int) (i : Nat)
    (h : p.1.qual b i) (hc : p.2 + 1 ≠ 3) : skipIter c b now p i = (p.1, p.2 + 1) := by
  unfold State.qual at h
  unfold skipIter
  rw [if_pos h]
  simp only [MAX_PRESSES]
  rw [if_neg (by simpa using hc)]

theorem skipIter_hit (c : Consts) (b : Btn) (now : Nat) (p : State × Int) (i : Nat)
    (h : p.1.qual b i) (hc : p.2 + 1 = 3) (hcool : u64sub now p.1.lastSkipTime > 1000) :
    skipIter c b now p i = (skipAccept c b now p.1, p.2 + 1) := by
  unfold State.qual at h
  unfold skipIter
  rw [if_pos h]
  simp only [MAX_PRESSES]
  rw [if_pos (by simpa using hc), if_pos hcool]

theorem skipBlock_miss (c : Consts) (f : Frame) (b : Btn) (s : State)
    (h : ¬ (s.qual b 0 ∧ s.qual b 1 ∧ s.qual b 2)) :
    (skipBlock c f b (s, 0)).1 = s := by
  unfold skipBlock
  split_ifs
  · rw [range_MAX_PRESSES]
    simp only [List.foldl_cons, List.foldl_nil]
    by_cases h0 : s.qual b 0
    · rw [skipIter_count c b f.time (s, 0) 0 h0 (by norm_num)]
      by_cases h1 : s.qual b 1
      · rw [skipIter_count c b f.time _ 1 h1 (by norm_num)]
        have h2 : ¬ s.qual b 2 := fun h2 => h ⟨h0, h1, h2⟩
        rw [skipIter_no c b f.time _ 2 h2]
      · rw [skipIter_no c b f.time _ 1 h1]
        by_cases h2 : s.qual b 2
        · rw [skipIter_count c b f.time _ 2 h2 (by norm_num)]
        · rw [skipIter_no c b f.time _ 2 h2]
    · rw [skipIter_no c b f.time _ 0 h0]
      by_cases h1 : s.qual b 1
      · rw [skipIter_count c b f.time _ 1 h1 (by norm_num)]
        by_cases h2 : s.qual b 2
        · rw [skipIter_count c b f.time _ 2 h2 (by norm_num)]
        · rw [skipIter_no c b f.time _ 2 h2]
      · rw [skipIter_no c b f.time _ 1 h1]
        by_cases h2 : s.qual b 2
        · rw [skipIter_count c b f.time _ 2 h2 (by norm_num)]
        · rw [skipIter_no c b f.time _ 2 h2]
  · rfl

theorem skipBlock_hit (c : Consts) (f : Frame) (b : Btn) (s : State)
    (hheld : keyTest f.kHeld b.key = true) (ht : s.pressTime b ≠ 0)
    (h0 : s.qual b 0) (h1 : s.qual b 1) (h2 : s.qual b 2)
    (hcool : u64sub f.time s.lastSkipTime > 1000) :
    (skipBlock c f b (s, 0)).1 = skipAccept c b f.time s := by
  unfold skipBlock
  rw [if_pos (by simp [hheld, ht]), range_MAX_PRESSES]
  simp only [List.foldl_cons, List.foldl_nil]
  rw [skipIter_count c b f.time (s, 0) 0 h0 (by norm_num),
    skipIter_count c b f.time _ 1 h1 (by norm_num),
    skipIter_hit c b f.time _ 2 h2 (by norm_num) hcool]

theorem skipMove_keep (c : Consts) (b b' : Btn) (now : Nat) (s : State) :
    (skipMove c b now s).pressTime b' = s.pressTime b' ∧
    (skipMove c b now s).pressCount b' = s.pressCount b' ∧
    (skipMove c b now s).pressIdx b' = s.pressIdx b' ∧
    (skipMove c b now s).emitted = s.emitted ∧
    (skipMove c b now s).dirList = s.dirList := by
  unfold skipMove
  cases b' <;> simp only [State.pressTime, State.pressCount, State.pressIdx] <;>
    split_ifs <;> simp

theorem skipAccept_hist (c : Consts) (b : Btn) (now : Nat) (s : State) :
    (skipAccept c b now s).pressCount b = [0, 0, 0] ∧
    (skipAccept c b now s).pressIdx b = 0 ∧
    (skipAccept c b now s).pressTime b = s.pressTime b ∧
    (skipAccept c b now s).emitted = s.emitted ++
      [Event.changeFile (Site.skip b)
        ((skipMove c b now s).fileNum - s.dirList.dirNum - 1),
       Event.listDir (skipMove c b now s).from_ (skipMove c b now s).fileNum] := by
  have hk := skipMove_keep c b b now s
  obtain ⟨h1, h2, h3, h4, h5⟩ := hk
  cases b <;>
    simp_all [skipAccept, State.resetHist, State.pressCount, State.pressIdx, State.pressTime,
      render_eq, State.emit, MAX_PRESSES, List.replicate]


theorem keyTest_key_self (b : Btn) : keyTest b.key b.key = true := by
  cases b <;> decide

theorem pressed_view (f : Frame) (s : State) (b : Btn) :
    (pressed f s b).pressTime b = f.time ∧
    (pressed f s b).pressCount b =
      (s.pressCount b).set (s.pressIdx b) f.time ∧
    (pressed f s b).pressIdx b =
      (s.pressIdx b + 1) % MAX_PRESSES ∧
    (pressed f s b).lastSkipTime =
      s.lastSkipTime ∧
    (pressed f s b).emitted = [] := by
  cases b <;> cases hf : f.errorWrite <;>
    simp [pressed, beginFrame, hf, State.pressDown, State.pressTime, State.pressCount, State.pressIdx]

theorem skipBlock_zero (c : Consts) (f : Frame) (b : Btn) (s : State) (h : s.pressTime b = 0) :
    (skipBlock c f b (s, 0)).1 = s := by
  simp [skipBlock, h]

theorem skipBlock_noTriple (c : Consts) (f : Frame) (b : Btn) (s : State) (h : s.noTriple b) :
    (skipBlock c f b (s, 0)).1 = s := by
  rcases h with h | h
  · exact skipBlock_zero c f b s h
  · exact skipBlock_miss c f b s h

theorem noTriple_congr (s s' : State) (b : Btn) (h : s.noTriple b)
    (ht : s'.pressTime b = s.pressTime b ∨ s'.pressTime b = 0)
    (hc : s'.pressCount b = s.pressCount b) : s'.noTriple b := by
  rcases ht with ht | ht
  · unfold State.noTriple State.qual at h ⊢
    rw [ht, hc]
    exact h
  · exact Or.inl ht

theorem run_nil (c : Consts) (s : State) : run c [] s = [] := rfl

theorem run_cons (c : Consts) (f : Frame) (fs : List Frame) (s : State) :
    run c (f :: fs) s =
      if (frame c f s).2 then [(frame c f s).1]
      else (frame c f s).1 :: run c fs (frame c f s).1 := rfl

theorem noTriple_of_view (s : State) (b : Btn) (t : Nat) (l : List Nat)
    (ht : s.pressTime b = t) (hl : s.pressCount b = l)
    (h : ¬ (u64sub t (l.getD 0 0) ≤ 500 ∧ u64sub t (l.getD 1 0) ≤ 500 ∧
            u64sub t (l.getD 2 0) ≤ 500)) : s.noTriple b := by
  right
  unfold State.qual
  rw [ht, hl]
  exact h

/-! ## Combo detection -/

theorem tracked_emitted (f : Frame) (s : State) :
    (setMill f (trackPresses f (beginFrame f s))).emitted = [] := by
  have hb : (beginFrame f s).emitted = [] := by
    cases hf : f.errorWrite <;> simp [beginFrame, hf]
  have hp : ∀ (s : State) (t : Nat) (b : Btn), (s.pressDown t b).emitted = s.emitted := by
    intro s t b; cases b <;> rfl
  have hr : ∀ (s : State) (b : Btn), (s.release b).emitted = s.emitted := by
    intro s b; cases b <;> rfl
  simp only [setMill, trackPresses, apply_ite State.emitted, hp, hr, hb, ite_self]

theorem togglePause_hist (z second : Bool) (s : State) :
    (togglePause z second s).emitted = s.emitted ++ [Event.togglePlayback] ∧
    (z = false → (togglePause z second s).histEmpty .L ∧ (togglePause z second s).histEmpty .R) ∧
    (z = true → (togglePause z second s).histEmpty .ZL ∧ (togglePause z second s).histEmpty .ZR) := by
  cases z <;> cases second <;>
    simp [togglePause, State.histEmpty, State.resetHist, State.emit, State.pressIdx,
      State.pressCount, MAX_PRESSES, List.replicate]

/-- Whatever branch of the combo detection ends the frame, it emits no skip
command. -/
theorem combos_skips (f : Frame) (s r : State) (h : combos f s = some r)
    (he : s.emitted = []) : r.skips = [] := by
  have ht : ∀ z second, (togglePause z second s).skips = [] := by
    intro z second
    simp [State.skips, (togglePause_hist z second s).1, he, Event.isSkip]
  have hs : ∀ s' : State, s'.emitted = s.emitted ++ [Event.showControls] → s'.skips = [] := by
    intro s' h'
    simp [State.skips, h', he, Event.isSkip]
  have h0 : s.skips = [] := by simp [State.skips, he]
  have hL : ∀ r, comboL f s = some r → r.skips = [] := by
    intro r h
    unfold comboL at h
    split_ifs at h <;> simp at h <;> subst h <;>
      first | exact h0 | exact ht _ _ | exact hs _ (by simp [State.emit])
  have hR : ∀ r, comboR f s = some r → r.skips = [] := by
    intro r h
    unfold comboR at h
    split_ifs at h <;> simp at h <;> subst h <;>
      first | exact h0 | exact ht _ _
  have hZL : ∀ r, comboZL f s = some r → r.skips = [] := by
    intro r h
    unfold comboZL at h
    split_ifs at h <;> simp at h <;> subst h <;>
      first | exact h0 | exact ht _ _ | exact hs _ (by simp [State.emit])
  have hZR : ∀ r, comboZR f s = some r → r.skips = [] := by
    intro r h
    unfold comboZR at h
    split_ifs at h <;> simp at h <;> subst h <;>
      first | exact h0 | exact ht _ _
  unfold combos at h
  cases h1 : comboL f s with
  | some r1 => rw [h1] at h; simp at h; subst h; exact hL _ h1
  | none =>
    rw [h1] at h
    cases h2 : comboR f s with
    | some r2 => rw [h2] at h; simp at h; subst h; exact hR _ h2
    | none =>
      rw [h2] at h
      cases h3 : comboZL f s with
      | some r3 => rw [h3] at h; simp at h; subst h; exact hZL _ h3
      | none => rw [h3] at h; exact hZR _ h

theorem frame_of_combos (c : Consts) (f : Frame) (s r : State)
    (hs : keyTest f.kDown KEY_START = false)
    (h : combos f (setMill f (trackPresses f (beginFrame f s))) = some r) :
    frame c f s = (r, false) := by
  simp [frame, hs, h]

theorem keyTest_comm (a b : Nat) : keyTest a b = keyTest b a := by
  unfold keyTest
  rw [Nat.land_comm]

theorem combos_toggle_LR (f : Frame) (s : State) (hplay : f.isPlaying = true)
    (h : (keyTest f.kHeld KEY_L = true ∧ keyTest f.kDown KEY_R = true) ∨
         (keyTest f.kHeld KEY_R = true ∧ keyTest f.kDown KEY_L = true ∧
           ¬ (keyTest f.kHeld KEY_L = true ∧ keyTest f.kDown KEY_LEFT = true ∧
              keyTest f.kDown KEY_R = false ∧ keyTest f.kDown KEY_UP = false))) :
    ∃ second, combos f s = some (togglePause false second s) := by
  rcases h with ⟨hl, hr⟩ | ⟨hr, hl, hx⟩
  · exact ⟨true, by simp [combos, comboL, keyTest_or, hl, hr, hplay, keyTest_comm KEY_R f.kDown]⟩
  · cases h1 : keyTest f.kHeld KEY_L <;> cases h2 : keyTest f.kDown KEY_R <;>
      cases h3 : keyTest f.kDown KEY_UP <;> cases h4 : keyTest f.kDown KEY_LEFT <;>
      simp [h1, h2, h3, h4] at hx <;>
      simp [combos, comboL, comboR, keyTest_or, hl, hr, hplay, h1, h2, h3, h4,
        keyTest_comm KEY_R f.kDown]

theorem combos_toggle_Z (f : Frame) (s : State) (hplay : f.isPlaying = true)
    (hq : f.lrBranch = false)
    (h : (keyTest f.kHeld KEY_ZL = true ∧ keyTest f.kDown KEY_ZR = true) ∨
         (keyTest f.kHeld KEY_ZR = true ∧ keyTest f.kDown KEY_ZL = true ∧
           ¬ (keyTest f.kHeld KEY_ZL = true ∧ keyTest f.kDown KEY_LEFT = true ∧
              keyTest f.kDown KEY_ZR = false ∧ keyTest f.kDown KEY_UP = false))) :
    ∃ second, combos f s = some (togglePause true second s) := by
  have hL : comboL f s = none := by
    unfold Frame.lrBranch at hq
    cases h1 : keyTest f.kHeld KEY_L <;> cases h2 : keyTest f.kDown KEY_R <;>
      cases h3 : keyTest f.kDown KEY_UP <;> cases h4 : keyTest f.kDown KEY_LEFT <;>
      simp [h1, h2, h3, h4] at hq <;>
      simp [comboL, keyTest_or, h1, h2, h3, h4]
  have hR : comboR f s = none := by
    unfold Frame.lrBranch at hq
    cases h1 : keyTest f.kHeld KEY_R <;> cases h2 : keyTest f.kDown KEY_L <;>
      simp [h1, h2] at hq <;>
      simp [comboR, h1, h2]
  rcases h with ⟨hl, hr⟩ | ⟨hr, hl, hx⟩
  · exact ⟨true, by simp [combos, hL, hR, comboZL, keyTest_or, hl, hr, hplay, keyTest_comm KEY_ZR f.kDown]⟩
  · cases h1 : keyTest f.kHeld KEY_ZL <;> cases h2 : keyTest f.kDown KEY_ZR <;>
      cases h3 : keyTest f.kDown KEY_UP <;> cases h4 : keyTest f.kDown KEY_LEFT <;>
      simp [h1, h2, h3, h4] at hx <;>
      simp [combos, hL, hR, comboZL, comboZR, keyTest_or, hl, hr, hplay, h1, h2, h3, h4,
        keyTest_comm KEY_ZR f.kDown]

theorem combos_isSome (f : Frame) (s : State)
    (h : (keyTest f.kHeld KEY_L = true ∧ keyTest f.kDown KEY_R = true) ∨
         (keyTest f.kHeld KEY_R = true ∧ keyTest f.kDown KEY_L = true) ∨
         (keyTest f.kHeld KEY_ZL = true ∧ keyTest f.kDown KEY_ZR = true) ∨
         (keyTest f.kHeld KEY_ZR = true ∧ keyTest f.kDown KEY_ZL = true)) :
    ∃ r, combos f s = some r := by
  have key : ∀ o : Option State, (∃ r, o = some r) ∨ o = none := by
    intro o; cases o <;> simp
  unfold combos
  rcases key (comboL f s) with ⟨r1, h1⟩ | h1
  · exact ⟨r1, by rw [h1]⟩
  rcases key (comboR f s) with ⟨r2, h2⟩ | h2
  · exact ⟨r2, by rw [h1, h2]⟩
  rcases key (comboZL f s) with ⟨r3, h3⟩ | h3
  · exact ⟨r3, by rw [h1, h2, h3]⟩
  rcases key (comboZR f s) with ⟨r4, h4⟩ | h4
  · exact ⟨r4, by rw [h1, h2, h3, h4]⟩
  exfalso
  rcases h with ⟨hl, hr⟩ | ⟨hr, hl⟩ | ⟨hl, hr⟩ | ⟨hr, hl⟩
  · simp [comboL, keyTest_or, hl, hr] at h1
    split_ifs at h1
  · simp [comboR, hl, hr] at h2
    split_ifs at h2
  · simp [comboZL, keyTest_or, hl, hr] at h3
    split_ifs at h3
  · simp [comboZR, hl, hr] at h4
    split_ifs at h4

/-- C2 (as amended): a frame in which a pause combo is keyed (L held and R
down, R held and L down, ZL held and ZR down, ZR held and ZL down) never
emits a skip command. When the frame does not leave the loop, playback is
active and no earlier branch of the combo detection takes the frame, the
histories of both buttons of the pair are empty after the frame. -/
theorem combo_discards_presses (c : Consts) (f : Frame) (s : State) :
    ((keyTest f.kHeld KEY_L = true ∧ keyTest f.kDown KEY_R = true) ∨
      (keyTest f.kHeld KEY_R = true ∧ keyTest f.kDown KEY_L = true) ∨
      (keyTest f.kHeld KEY_ZL = true ∧ keyTest f.kDown KEY_ZR = true) ∨
      (keyTest f.kHeld KEY_ZR = true ∧ keyTest f.kDown KEY_ZL = true) →
        (frame c f s).1.skips = []) ∧
    (keyTest f.kDown KEY_START = false → f.isPlaying = true →
      (keyTest f.kHeld KEY_L = true → keyTest f.kDown KEY_R = true →
        (frame c f s).1.histEmpty .L ∧ (frame c f s).1.histEmpty .R) ∧
      (keyTest f.kHeld KEY_R = true → keyTest f.kDown KEY_L = true →
        ¬ (keyTest f.kHeld KEY_L = true ∧ keyTest f.kDown KEY_LEFT = true ∧
            keyTest f.kDown KEY_R = false ∧ keyTest f.kDown KEY_UP = false) →
        (frame c f s).1.histEmpty .L ∧ (frame c f s).1.histEmpty .R) ∧
      (keyTest f.kHeld KEY_ZL = true → keyTest f.kDown KEY_ZR = true → f.lrBranch = false →
        (frame c f s).1.histEmpty .ZL ∧ (frame c f s).1.histEmpty .ZR) ∧
      (keyTest f.kHeld KEY_ZR = true → keyTest f.kDown KEY_ZL = true → f.lrBranch = false →
        ¬ (keyTest f.kHeld KEY_ZL = true ∧ keyTest f.kDown KEY_LEFT = true ∧
            keyTest f.kDown KEY_ZR = false ∧ keyTest f.kDown KEY_UP = false) →
        (frame c f s).1.histEmpty .ZL ∧ (frame c f s).1.histEmpty .ZR)) := by
  constructor
  · intro h
    cases hs : keyTest f.kDown KEY_START
    · obtain ⟨r, hr⟩ := combos_isSome f (setMill f (trackPresses f (beginFrame f s))) h
      rw [frame_of_combos c f s r hs hr]
      exact combos_skips f _ r hr (tracked_emitted f s)
    · have he := tracked_emitted f s
      have hm : (trackPresses f (beginFrame f s)).emitted = [] := by
        unfold setMill at he
        split_ifs at he
        · exact he
        · exact he
      simp [frame, hs, State.skips, hm]
  · intro hs hplay
    refine ⟨?_, ?_, ?_, ?_⟩
    · intro hl hr
      obtain ⟨second, h⟩ := combos_toggle_LR f (setMill f (trackPresses f (beginFrame f s)))
        hplay (Or.inl ⟨hl, hr⟩)
      rw [frame_of_combos c f s _ hs h]
      exact (togglePause_hist false second _).2.1 rfl
    · intro hr hl hx
      obtain ⟨second, h⟩ := combos_toggle_LR f (setMill f (trackPresses f (beginFrame f s)))
        hplay (Or.inr ⟨hr, hl, hx⟩)
      rw [frame_of_combos c f s _ hs h]
      exact (togglePause_hist false second _).2.1 rfl
    · intro hl hr hq
      obtain ⟨second, h⟩ := combos_toggle_Z f (setMill f (trackPresses f (beginFrame f s)))
        hplay hq (Or.inl ⟨hl, hr⟩)
      rw [frame_of_combos c f s _ hs h]
      exact (togglePause_hist true second _).2.2 rfl
    · intro hr hl hq hx
      obtain ⟨second, h⟩ := combos_toggle_Z f (setMill f (trackPresses f (beginFrame f s)))
        hplay hq (Or.inr ⟨hr, hl, hx⟩)
      rw [frame_of_combos c f s _ hs h]
      exact (togglePause_hist true second _).2.2 rfl

/-- C2, witness: after two presses of L, the combo frame (L held, R down,
playback active) empties both histories. -/
theorem combo_discards_presses_witness :
    (frame exConsts (keyFrame KEY_R (KEY_L ||| KEY_R) 0 1150 true) exTwoPresses).1.histEmpty .L ∧
    (frame exConsts (keyFrame KEY_R (KEY_L ||| KEY_R) 0 1150 true) exTwoPresses).1.histEmpty .R :=
  ((combo_discards_presses exConsts (keyFrame KEY_R (KEY_L ||| KEY_R) 0 1150 true)
    exTwoPresses).2 (by decide) rfl).1 (by decide) (by decide)

/-- C2, counterexample: with nothing playing, the frame in which L is held
and R goes down leaves both histories as they are (two presses of L, one of
R); after it a single further press of L emits a skip command. -/
theorem combo_idle_keeps_presses :
    keyTest (keyFrame KEY_R (KEY_L ||| KEY_R) 0 1150 false).kHeld KEY_L = true ∧
    keyTest (keyFrame KEY_R (KEY_L ||| KEY_R) 0 1150 false).kDown KEY_R = true ∧
    (frame exConsts (keyFrame KEY_R (KEY_L ||| KEY_R) 0 1150 false) exTwoPresses).1.lPressCount
      = [1000, 1100, 0] ∧
    (frame exConsts (keyFrame KEY_R (KEY_L ||| KEY_R) 0 1150 false) exTwoPresses).1.lPressIdx = 2 ∧
    (frame exConsts (keyFrame KEY_R (KEY_L ||| KEY_R) 0 1150 false) exTwoPresses).1.rPressCount
      = [1150, 0, 0] ∧
    (run exConsts
        [keyFrame 0 0 (KEY_L ||| KEY_R) 1160 false, keyFrame KEY_L KEY_L 0 1200 false]
        (frame exConsts (keyFrame KEY_R (KEY_L ||| KEY_R) 0 1150 false) exTwoPresses).1).map
      State.skips = [[], [Event.changeFile (Site.skip .L) 0]] := by
  decide

/-! ## `cmpstringp` is a total preorder; `getDir` -/

theorem tolower_eq_zero (x : Nat) : tolower x = 0 ↔ x = 0 := by
  unfold tolower
  by_cases h : 65 ≤ x ∧ x ≤ 90
  · rw [if_pos h]
    constructor <;> intro h' <;> omega
  · rw [if_neg h]

theorem strcasecmp_swap : ∀ a b : CStr, strcasecmp b a = - strcasecmp a b
  | [], [] => by simp [strcasecmp]
  | [], b :: _ => by simp [strcasecmp]
  | a :: _, [] => by simp [strcasecmp]
  | a :: as, b :: bs => by
    have ih := strcasecmp_swap as bs
    have h0 := tolower_eq_zero a
    have h1 := tolower_eq_zero b
    simp only [strcasecmp]
    split_ifs <;> omega

theorem cmpLe_total (a b : CStr) : cmpLe a b ∨ cmpLe b a := by
  unfold cmpLe cmpstringp
  rw [strcasecmp_swap a b]
  omega

theorem cmpLe_trans : ∀ a b c : CStr, cmpLe a b → cmpLe b c → cmpLe a c
  | [], _, [] => by intro _ _; simp [cmpLe, cmpstringp, strcasecmp]
  | [], _, z :: _ => by intro _ _; simp [cmpLe, cmpstringp, strcasecmp]
  | x :: xs, [], [] => by
    intro h _
    simpa [cmpLe, cmpstringp, strcasecmp] using h
  | x :: xs, [], z :: zs => by
    intro h _
    have hx : tolower x = 0 := by
      simp [cmpLe, cmpstringp, strcasecmp] at h
      exact h
    have h0 := tolower_eq_zero x
    simp only [cmpLe, cmpstringp, strcasecmp]
    split_ifs <;> omega
  | x :: xs, y :: ys, [] => by
    intro h1 h2
    have hy : tolower y = 0 := by
      simp [cmpLe, cmpstringp, strcasecmp] at h2
      exact h2
    have h0 := tolower_eq_zero y
    simp only [cmpLe, cmpstringp, strcasecmp] at h1 ⊢
    split_ifs at h1 <;> omega
  | x :: xs, y :: ys, z :: zs => by
    intro h1 h2
    have ih := cmpLe_trans xs ys zs
    have hx := tolower_eq_zero x
    have hy := tolower_eq_zero y
    have hz := tolower_eq_zero z
    simp only [cmpLe, cmpstringp, strcasecmp] at h1 h2 ih ⊢
    split_ifs at h1 h2 ⊢ <;> omega

instance : IsTotal CStr cmpLe := ⟨cmpLe_total⟩

instance : IsTrans CStr cmpLe := ⟨cmpLe_trans⟩

theorem readLoop_eq (entries : List DirEnt) : ∀ dirs files : List CStr,
    readLoop entries dirs files =
      (dirs ++ (entries.filter (fun e => !isHidden e && e.isDir)).map DirEnt.d_name,
       files ++ (entries.filter (fun e => !isHidden e && !e.isDir)).map DirEnt.d_name) := by
  induction entries with
  | nil => intro dirs files; simp [readLoop]
  | cons e rest ih =>
    intro dirs files
    cases hh : isHidden e <;> cases hd : e.isDir <;> simp [readLoop, hh, hd, ih]

theorem tolower_eq_foldCase (x : Nat) : tolower x = foldCase x := by
  unfold tolower foldCase
  split_ifs <;> omega

/-- On names without a NUL byte the order `qsort` sorts by is the
case-insensitive dictionary order. -/
theorem cmpLe_iff_caseInsensitiveLe : ∀ a b : CStr, 0 ∉ a → 0 ∉ b →
    (cmpLe a b ↔ caseInsensitiveLe a b)
  | [], [], _, _ => by simp [cmpLe, cmpstringp, strcasecmp, caseInsensitiveLe, lexLe]
  | [], b :: _, _, _ => by
    simp [cmpLe, cmpstringp, strcasecmp, caseInsensitiveLe, lexLe]
  | a :: _, [], ha, _ => by
    have h0 := tolower_eq_zero a
    have hne : a ≠ 0 := fun h => ha (by simp [h])
    simp only [cmpLe, cmpstringp, strcasecmp, caseInsensitiveLe, lexLe, List.map_cons,
      List.map_nil, Bool.false_eq_true, iff_false]
    omega
  | a :: as, b :: bs, ha, hb => by
    have ih := cmpLe_iff_caseInsensitiveLe as bs (fun h => ha (List.mem_cons_of_mem _ h))
      (fun h => hb (List.mem_cons_of_mem _ h))
    have hne : a ≠ 0 := fun h => ha (by simp [h])
    simp only [cmpLe, cmpstringp, caseInsensitiveLe] at ih
    simp only [cmpLe, cmpstringp, strcasecmp, caseInsensitiveLe, lexLe, List.map_cons,
      Bool.or_eq_true, Bool.and_eq_true, decide_eq_true_eq, ← tolower_eq_foldCase]
    by_cases h : tolower a = tolower b
    · simp only [h, ne_eq, not_true_eq_false, if_false, hne, lt_self_iff_false, false_or,
        true_and]
      rw [ih]
    · simp only [ne_eq, h, not_false_eq_true, if_true, false_and, or_false]
      omega

/-- C5: on a directory that can be read, `getDir` stores in `directories` the
names of the non-hidden entries of kind directory and in `files` the names of
the other non-hidden entries, each sequence a permutation of those names
sorted by `cmpstringp`; when the names are C strings (no NUL byte inside),
each sequence is in non-decreasing case-insensitive order, that is in
dictionary order with capital letters read as small ones (`caseInsensitiveLe`,
stated without `strcasecmp`); `dirNum` and `fileNum` are the two lengths and
the return value is their sum. For the entries `.git`, `b.mp3`, `A`
(directory), `a.mp3`, read in any order, the result is `directories = ["A"]`,
`files = ["a.mp3", "b.mp3"]`; for `b.mp3`, `Zed` (directory), `C.mp3`, `alpha`
(directory), `a.mp3`, read in any order, it is `directories = ["alpha", "Zed"]`,
`files = ["a.mp3", "b.mp3", "C.mp3"]`. -/
theorem getDir_partitions_and_sorts (wd : CStr) (entries : List DirEnt) (closeOk : Bool)
    (dirList : DirList) :
    List.Perm (getDir (FsResult.listing wd entries closeOk) dirList).1.directories
      ((entries.filter (fun e => !isHidden e && e.isDir)).map DirEnt.d_name) ∧
    List.Sorted cmpLe (getDir (FsResult.listing wd entries closeOk) dirList).1.directories ∧
    List.Perm (getDir (FsResult.listing wd entries closeOk) dirList).1.files
      ((entries.filter (fun e => !isHidden e && !e.isDir)).map DirEnt.d_name) ∧
    List.Sorted cmpLe (getDir (FsResult.listing wd entries closeOk) dirList).1.files ∧
    ((∀ e ∈ entries, 0 ∉ e.d_name) →
      List.Sorted caseInsensitiveLe
        (getDir (FsResult.listing wd entries closeOk) dirList).1.directories ∧
      List.Sorted caseInsensitiveLe
        (getDir (FsResult.listing wd entries closeOk) dirList).1.files) ∧
    (getDir (FsResult.listing wd entries closeOk) dirList).1.dirNum =
      (getDir (FsResult.listing wd entries closeOk) dirList).1.directories.length ∧
    (getDir (FsResult.listing wd entries closeOk) dirList).1.fileNum =
      (getDir (FsResult.listing wd entries closeOk) dirList).1.files.length ∧
    (getDir (FsResult.listing wd entries closeOk) dirList).2 =
      (getDir (FsResult.listing wd entries closeOk) dirList).1.dirNum +
      (getDir (FsResult.listing wd entries closeOk) dirList).1.fileNum ∧
    (∀ es : List DirEnt, List.Perm es exEntries →
      (getDir (FsResult.listing wd es closeOk) dirList).1.directories = [cstr "A"] ∧
      (getDir (FsResult.listing wd es closeOk) dirList).1.files =
        [cstr "a.mp3", cstr "b.mp3"]) ∧
    (∀ es : List DirEnt, List.Perm es exMixed →
      (getDir (FsResult.listing wd es closeOk) dirList).1.directories =
        [cstr "alpha", cstr "Zed"] ∧
      (getDir (FsResult.listing wd es closeOk) dirList).1.files =
        [cstr "a.mp3", cstr "b.mp3", cstr "C.mp3"]) := by
  have hr := readLoop_eq entries [] []
  simp only [List.nil_append] at hr
  have hpd : List.Perm (getDir (FsResult.listing wd entries closeOk) dirList).1.directories
      ((entries.filter (fun e => !isHidden e && e.isDir)).map DirEnt.d_name) := by
    simp only [getDir, qsort, hr]
    exact List.perm_insertionSort _ _
  have hpf : List.Perm (getDir (FsResult.listing wd entries closeOk) dirList).1.files
      ((entries.filter (fun e => !isHidden e && !e.isDir)).map DirEnt.d_name) := by
    simp only [getDir, qsort, hr]
    exact List.perm_insertionSort _ _
  have hsd : List.Sorted cmpLe
      (getDir (FsResult.listing wd entries closeOk) dirList).1.directories := by
    simp only [getDir, qsort]
    exact List.sorted_insertionSort _ _
  have hsf : List.Sorted cmpLe
      (getDir (FsResult.listing wd entries closeOk) dirList).1.files := by
    simp only [getDir, qsort]
    exact List.sorted_insertionSort _ _
  refine ⟨hpd, hsd, hpf, hsf, ?_, ?_, ?_, ?_, ?_, ?_⟩
  · intro hnul
    have hmem : ∀ (p : DirEnt → Bool) (x : CStr),
        x ∈ (entries.filter p).map DirEnt.d_name → 0 ∉ x := by
      intro p x hx
      obtain ⟨e, he, rfl⟩ := List.mem_map.mp hx
      exact hnul e (List.mem_of_mem_filter he)
    constructor
    · exact List.Pairwise.imp_of_mem (fun {a b} ha hb hab =>
        (cmpLe_iff_caseInsensitiveLe a b (hmem _ a (hpd.subset ha))
          (hmem _ b (hpd.subset hb))).mp hab) hsd
    · exact List.Pairwise.imp_of_mem (fun {a b} ha hb hab =>
        (cmpLe_iff_caseInsensitiveLe a b (hmem _ a (hpf.subset ha))
          (hmem _ b (hpf.subset hb))).mp hab) hsf
  · simp only [getDir, qsort, List.length_insertionSort]
  · simp only [getDir, qsort, List.length_insertionSort]
  · simp only [getDir]
    omega
  · intro es hes
    have key : ∀ es ∈ exEntries.permutations',
        qsort (readLoop es [] []).1 = [cstr "A"] ∧
        qsort (readLoop es [] []).2 = [cstr "a.mp3", cstr "b.mp3"] := by decide
    exact key es (List.mem_permutations'.mpr hes)
  · intro es hes
    have key : ∀ es ∈ exMixed.permutations',
        qsort (readLoop es [] []).1 = [cstr "alpha", cstr "Zed"] ∧
        qsort (readLoop es [] []).2 = [cstr "a.mp3", cstr "b.mp3", cstr "C.mp3"] := by
      decide
    exact key es (List.mem_permutations'.mpr hes)

/-- C5, witness: the example directory of the specification, and the
directory with names in both cases read in the order `b.mp3`, `Zed`, `C.mp3`,
`alpha`, `a.mp3`; its names hold no NUL byte, and the two results are in
case-insensitive order. -/
theorem getDir_partitions_and_sorts_witness :
    ((getDir exFs DirList.zero).1.directories = [cstr "A"] ∧
     (getDir exFs DirList.zero).1.files = [cstr "a.mp3", cstr "b.mp3"]) ∧
    ((getDir (FsResult.listing (cstr "sdmc:/MUSIC") exMixed true) DirList.zero).1.directories =
        [cstr "alpha", cstr "Zed"] ∧
     (getDir (FsResult.listing (cstr "sdmc:/MUSIC") exMixed true) DirList.zero).1.files =
        [cstr "a.mp3", cstr "b.mp3", cstr "C.mp3"]) ∧
    (∀ e ∈ exMixed, 0 ∉ e.d_name) ∧
    (List.Sorted caseInsensitiveLe
      (getDir (FsResult.listing (cstr "sdmc:/MUSIC") exMixed true) DirList.zero).1.directories ∧
     List.Sorted caseInsensitiveLe
      (getDir (FsResult.listing (cstr "sdmc:/MUSIC") exMixed true) DirList.zero).1.files) :=
  ⟨(getDir_partitions_and_sorts (cstr "sdmc:/MUSIC") exEntries true DirList.zero).2.2.2.2.2.2.2.2.1
      exEntries (List.Perm.refl _),
   (getDir_partitions_and_sorts (cstr "sdmc:/MUSIC") exMixed true DirList.zero).2.2.2.2.2.2.2.2.2
      exMixed (List.Perm.refl _),
   by decide,
   (getDir_partitions_and_sorts (cstr "sdmc:/MUSIC") exMixed true DirList.zero).2.2.2.2.1
      (by decide)⟩

/-! ## The shared `count` and the cooldown at the end of the listing -/

/-- C3, the code at the failing input: ZR has been pressed twice and is held;
L goes down once at 1200. When the triple-press blocks are reached the
history of L holds this one press only (slots 1 and 2 are empty and do not
qualify), yet the block of L emits the skip command and moves the cursor back
from entry 3 to entry 2: the two qualifying slots of ZR were counted in the
shared `count`. -/
theorem shared_count_skips_through_other_button :
    (trackPresses (keyFrame KEY_L (KEY_L ||| KEY_ZR) 0 1200 false)
      (beginFrame (keyFrame KEY_L (KEY_L ||| KEY_ZR) 0 1200 false) exTwoZR)).lPressCount
        = [1200, 0, 0] ∧
    ¬ (trackPresses (keyFrame KEY_L (KEY_L ||| KEY_ZR) 0 1200 false)
      (beginFrame (keyFrame KEY_L (KEY_L ||| KEY_ZR) 0 1200 false) exTwoZR)).qual .L 1 ∧
    exTwoZR.fileNum = 3 ∧
    (frame exConsts (keyFrame KEY_L (KEY_L ||| KEY_ZR) 0 1200 false) exTwoZR).1.skips
      = [Event.changeFile (Site.skip .L) 0] ∧
    (frame exConsts (keyFrame KEY_L (KEY_L ||| KEY_ZR) 0 1200 false) exTwoZR).1.fileNum = 2 := by
  decide

/-- C4, the code at the failing input: with the cursor on the last file, R
pressed six times at 2000, 2020, ..., 2100. The third and the sixth press
each issue `changeFile` from the triple-press block of R, 60 time-units
apart; `lastSkipTime` is never updated. -/
theorem skip_at_last_file_skips_cooldown :
    exState.fileNum = exState.fileMax ∧
    (run exConsts exSixPresses exState).map (fun s => (s.skips, s.lastSkipTime)) =
      [([], 0), ([], 0), ([], 0), ([], 0), ([Event.changeFile (Site.skip .R) 1], 0), ([], 0),
       ([], 0), ([], 0), ([], 0), ([], 0), ([Event.changeFile (Site.skip .R) 1], 0)] := by
  decide

/-! ## The navigation history -/

theorem shiftUp_fold_get (k : Nat) : ∀ (a : List Int) (j : Nat), k < a.length →
    (((List.range k).reverse.map (· + 1)).foldl (fun a i => a.set i (a.getD (i - 1) 0)) a)[j]? =
      if 1 ≤ j ∧ j ≤ k then a[j - 1]? else a[j]? := by
  induction k with
  | zero =>
    intro a j _
    rw [if_neg (by omega)]
    rfl
  | succ k ih =>
    intro a j hk
    rw [List.range_succ, List.reverse_append]
    simp only [List.reverse_cons, List.reverse_nil, List.nil_append, List.singleton_append,
      List.map_cons, List.foldl_cons]
    rw [ih _ j (by simp; omega)]
    simp only [Nat.add_sub_cancel, List.getElem?_set, List.getD_eq_getElem?_getD]
    have hak : a[k]? = some (a[k]?.getD 0) := by
      rw [List.getElem?_eq_getElem (show k < a.length by omega)]
      rfl
    split_ifs <;> first
      | rfl
      | (exfalso; omega)
      | (rename_i h1 h2 h3; subst h2; rw [Nat.add_sub_cancel]; exact hak.symm)

theorem shiftUp_eq (n : Nat) (old : Int) (a : List Int) (h : a.length = n) :
    shiftUp n old a = (old :: a).take n := by
  cases n with
  | zero => simp [shiftUp, List.length_eq_zero.mp h]
  | succ m =>
    apply List.ext_getElem?
    intro j
    unfold shiftUp
    simp only [Nat.add_sub_cancel, List.getElem?_set, List.getElem?_take]
    have hlen : ∀ (l : List Nat) (b : List Int),
        (l.foldl (fun a i => a.set i (a.getD (i - 1) 0)) b).length = b.length := by
      intro l
      induction l with
      | nil => intro b; rfl
      | cons x xs ih => intro b; simp only [List.foldl_cons]; rw [ih]; simp
    rw [hlen]
    cases j with
    | zero => simp [h]
    | succ i =>
      rw [if_neg (by omega), shiftUp_fold_get m a (i + 1) (by omega)]
      simp only [Nat.add_sub_cancel, List.getElem?_cons_succ]
      by_cases hi : i + 1 ≤ m
      · rw [if_pos ⟨by omega, hi⟩, if_pos (by omega)]
      · rw [if_neg (by omega), if_neg (by omega)]
        exact List.getElem?_eq_none (by omega)

theorem shiftDown_fold_get (k : Nat) : ∀ (a : List Int) (j : Nat), k < a.length →
    ((List.range k).foldl (fun a i => a.set i (a.getD (i + 1) 0)) a)[j]? =
      if j < k then a[j + 1]? else a[j]? := by
  induction k with
  | zero =>
    intro a j _
    rw [if_neg (by omega)]
    rfl
  | succ k ih =>
    intro a j hk
    have hlen : ((List.range k).foldl (fun a i => a.set i (a.getD (i + 1) 0)) a).length
        = a.length := by
      generalize List.range k = l
      induction l generalizing a with
      | nil => rfl
      | cons x xs ih2 => simp only [List.foldl_cons]; rw [ih2]; simp; simpa using hk
    rw [List.range_succ, List.foldl_append]
    simp only [List.foldl_cons, List.foldl_nil, List.getElem?_set]
    have hg : ((List.range k).foldl (fun a i => a.set i (a.getD (i + 1) 0)) a).getD (k + 1) 0
        = a[k + 1]?.getD 0 := by
      rw [List.getD_eq_getElem?_getD, ih a (k + 1) (by omega), if_neg (by omega)]
    rw [hlen, hg, ih a j (by omega)]
    have hak : a[k + 1]? = some (a[k + 1]?.getD 0) := by
      rw [List.getElem?_eq_getElem hk]
      rfl
    split_ifs <;> first
      | rfl
      | (exfalso; omega)
      | (rename_i h1 h2 h3; subst h1; exact hak.symm)

theorem shiftDown_eq (n : Nat) (a : List Int) (h : a.length = n) :
    shiftDown n a = (a.drop 1 ++ [0]).take n := by
  cases n with
  | zero => simp [shiftDown, List.length_eq_zero.mp h]
  | succ m =>
    apply List.ext_getElem?
    intro j
    unfold shiftDown
    have hlen : ∀ (l : List Nat) (b : List Int),
        (l.foldl (fun a i => a.set i (a.getD (i + 1) 0)) b).length = b.length := by
      intro l
      induction l with
      | nil => intro b; rfl
      | cons x xs ih => intro b; simp only [List.foldl_cons]; rw [ih]; simp
    simp only [Nat.add_sub_cancel, List.getElem?_set, List.getElem?_take]
    rw [hlen, shiftDown_fold_get m a j (by omega)]
    by_cases hj : j < m
    · rw [if_neg (by omega), if_pos hj, if_pos (by omega), List.getElem?_append_left (by simp; omega)]
      simp
    · by_cases hj2 : j = m
      · subst hj2
        rw [if_pos rfl, if_pos (by omega), if_pos (by omega),
          List.getElem?_append_right (by simp; omega)]
        simp [h]
      · rw [if_neg (by omega), if_neg hj, if_neg (by omega)]
        exact List.getElem?_eq_none (by omega)


theorem u64sub_self (t : Nat) : u64sub t t = 0 := by
  unfold u64sub U64
  omega

theorem tracked_nav (f : Frame) (s : State) :
    (tracked f s).fileNum = s.fileNum ∧ (tracked f s).from_ = s.from_ ∧
    (tracked f s).fileMax = s.fileMax ∧ (tracked f s).dirList = s.dirList ∧
    (tracked f s).prevPosition = s.prevPosition ∧ (tracked f s).prevFrom = s.prevFrom ∧
    (f.kDown ≠ 0 → (tracked f s).mill = f.time) := by
  have hb : (beginFrame f s).fileNum = s.fileNum ∧ (beginFrame f s).from_ = s.from_ ∧
      (beginFrame f s).fileMax = s.fileMax ∧ (beginFrame f s).dirList = s.dirList ∧
      (beginFrame f s).prevPosition = s.prevPosition ∧ (beginFrame f s).prevFrom = s.prevFrom := by
    cases hf : f.errorWrite <;> simp [beginFrame, hf]
  obtain ⟨b1, b2, b3, b4, b5, b6⟩ := hb
  have hp : ∀ (s : State) (t : Nat) (b : Btn),
      (s.pressDown t b).fileNum = s.fileNum ∧ (s.pressDown t b).from_ = s.from_ ∧
      (s.pressDown t b).fileMax = s.fileMax ∧ (s.pressDown t b).dirList = s.dirList ∧
      (s.pressDown t b).prevPosition = s.prevPosition ∧ (s.pressDown t b).prevFrom = s.prevFrom := by
    intro s t b; cases b <;> simp [State.pressDown]
  have hr : ∀ (s : State) (b : Btn),
      (s.release b).fileNum = s.fileNum ∧ (s.release b).from_ = s.from_ ∧
      (s.release b).fileMax = s.fileMax ∧ (s.release b).dirList = s.dirList ∧
      (s.release b).prevPosition = s.prevPosition ∧ (s.release b).prevFrom = s.prevFrom := by
    intro s b; cases b <;> simp [State.release]
  refine ⟨?_, ?_, ?_, ?_, ?_, ?_, ?_⟩
  · simp only [tracked, setMill, trackPresses, apply_ite State.fileNum, (hp _ _ _).1, (hr _ _).1,
      b1, ite_self]
  · simp only [tracked, setMill, trackPresses, apply_ite State.from_, (hp _ _ _).2.1,
      (hr _ _).2.1, b2, ite_self]
  · simp only [tracked, setMill, trackPresses, apply_ite State.fileMax, (hp _ _ _).2.2.1,
      (hr _ _).2.2.1, b3, ite_self]
  · simp only [tracked, setMill, trackPresses, apply_ite State.dirList, (hp _ _ _).2.2.2.1,
      (hr _ _).2.2.2.1, b4, ite_self]
  · simp only [tracked, setMill, trackPresses, apply_ite State.prevPosition, (hp _ _ _).2.2.2.2.1,
      (hr _ _).2.2.2.2.1, b5, ite_self]
  · simp only [tracked, setMill, trackPresses, apply_ite State.prevFrom, (hp _ _ _).2.2.2.2.2,
      (hr _ _).2.2.2.2.2, b6, ite_self]
  · intro h
    simp [tracked, setMill, h]

theorem moveCursor_id (c : Consts) (f : Frame) (s : State) (hm : s.mill = f.time)
    (hu : keyTest f.kDown KEY_UP = false) (hd : keyTest f.kDown KEY_DOWN = false)
    (hl : keyTest f.kDown KEY_LEFT = false) (hr : keyTest f.kDown KEY_RIGHT = false) :
    moveCursor c f s = s := by
  simp [moveCursor, moveUp, moveDown, moveLeft, moveRight, moveKey, hm, hu, hd, hl, hr,
    u64sub_self]

theorem combos_none (f : Frame) (s : State)
    (h1 : keyTest f.kDown KEY_L = false) (h2 : keyTest f.kDown KEY_R = false)
    (h3 : keyTest f.kDown KEY_ZL = false) (h4 : keyTest f.kDown KEY_ZR = false)
    (h5 : keyTest f.kDown KEY_UP = false) (h6 : keyTest f.kDown KEY_LEFT = false) :
    combos f s = none := by
  simp [combos, comboL, comboR, comboZL, comboZR, keyTest_or, h1, h2, h3, h4, h5, h6]

theorem frame_enter (c : Consts) (f : Frame) (s : State) (hA : f.kDown = KEY_A)
    (hdir : s.fileNum ≤ s.dirList.dirNum) (hsel : ¬ (s.from_ = 0 ∧ s.fileNum = 0)) :
    frame c f s = (enterDir c f (tracked f s), false) := by
  obtain ⟨n1, n2, n3, n4, n5, n6, n7⟩ := tracked_nav f s
  have hm := n7 (by rw [hA]; decide)
  have hc : combos f (tracked f s) = none :=
    combos_none f _ (by rw [hA]; decide) (by rw [hA]; decide) (by rw [hA]; decide)
      (by rw [hA]; decide) (by rw [hA]; decide) (by rw [hA]; decide)
  have hmv : moveCursor c f (tracked f s) = tracked f s :=
    moveCursor_id c f _ hm (by rw [hA]; decide) (by rw [hA]; decide) (by rw [hA]; decide)
      (by rw [hA]; decide)
  have hs : keyTest f.kDown KEY_START = false := by rw [hA]; decide
  have hB : keyTest f.kDown KEY_B = false := by rw [hA]; decide
  have hAA : keyTest f.kDown KEY_A = true := by rw [hA]; decide
  have hnav : navigate c f (tracked f s) = some (enterDir c f (tracked f s)) := by
    unfold navigate
    rw [n1, n2, n4]
    simp [hB, hAA, hdir]
    intro h1 h2
    exact absurd ⟨h1, h2⟩ hsel
  show frame c f s = _
  unfold frame
  simp only [hs, Bool.false_eq_true, if_false]
  change (match combos f (tracked f s) with
    | some r => (r, false)
    | none => match navigate c f (moveCursor c f (tracked f s)) with
      | some r => (r, false)
      | none => (autoAdvance c (skipBlocks c f (moveCursor c f (tracked f s))).1, false)) = _
  rw [hc, hmv, hnav]

theorem frame_leave (c : Consts) (f : Frame) (s : State)
    (h : f.kDown = KEY_B ∨ (f.kDown = KEY_A ∧ s.from_ = 0 ∧ s.fileNum = 0)) :
    frame c f s = (leaveDir c f (tracked f s), false) := by
  obtain ⟨n1, n2, n3, n4, n5, n6, n7⟩ := tracked_nav f s
  have hk : f.kDown = KEY_A ∨ f.kDown = KEY_B := by
    rcases h with h | h
    · exact Or.inr h
    · exact Or.inl h.1
  have hm := n7 (by rcases hk with h | h <;> rw [h] <;> decide)
  have hc : combos f (tracked f s) = none := by
    apply combos_none <;> rcases hk with h | h <;> rw [h] <;> decide
  have hmv : moveCursor c f (tracked f s) = tracked f s := by
    apply moveCursor_id c f _ hm <;> rcases hk with h | h <;> rw [h] <;> decide
  have hs : keyTest f.kDown KEY_START = false := by
    rcases hk with h | h <;> rw [h] <;> decide
  have hnav : navigate c f (tracked f s) = some (leaveDir c f (tracked f s)) := by
    unfold navigate
    rw [n1, n2]
    rcases h with h | ⟨h, h1, h2⟩
    · have hB : keyTest f.kDown KEY_B = true := by rw [h]; decide
      simp [hB]
    · have hA : keyTest f.kDown KEY_A = true := by rw [h]; decide
      simp [hA, h1, h2]
  unfold frame
  simp only [hs, Bool.false_eq_true, if_false]
  change (match combos f (tracked f s) with
    | some r => (r, false)
    | none => match navigate c f (moveCursor c f (tracked f s)) with
      | some r => (r, false)
      | none => (autoAdvance c (skipBlocks c f (moveCursor c f (tracked f s))).1, false)) = _
  rw [hc, hmv, hnav]

theorem enterDir_nav (c : Consts) (f : Frame) (s : State) (h : s.histOk c) :
    (enterDir c f s).fileNum = 0 ∧ (enterDir c f s).from_ = 0 ∧
    (enterDir c f s).prevPosition = (s.fileNum :: s.prevPosition).take c.MAX_DIRECTORIES ∧
    (enterDir c f s).prevFrom = (s.from_ :: s.prevFrom).take c.MAX_DIRECTORIES ∧
    (enterDir c f s).dirList = (getDir f.fs s.dirList).1 := by
  have hn := listDir_nonneg 0 c.MAX_LIST 0 (getDir f.fs s.dirList).1
  simp only [enterDir, State.emit, not_lt.mpr hn, if_false]
  exact ⟨trivial, trivial, shiftUp_eq _ _ _ h.1, shiftUp_eq _ _ _ h.2, trivial⟩

theorem leaveDir_nav (c : Consts) (f : Frame) (s : State) (h : s.histOk c) :
    (leaveDir c f s).fileNum = s.prevPosition.getD 0 0 ∧
    (leaveDir c f s).from_ = s.prevFrom.getD 0 0 ∧
    (leaveDir c f s).prevPosition = (s.prevPosition.drop 1 ++ [0]).take c.MAX_DIRECTORIES ∧
    (leaveDir c f s).prevFrom = (s.prevFrom.drop 1 ++ [0]).take c.MAX_DIRECTORIES := by
  simp only [leaveDir, render_eq, State.emit]
  exact ⟨trivial, trivial, shiftDown_eq _ _ h.1, shiftDown_eq _ _ h.2⟩

/-- C6: with the cursor on a directory entry (`1 ≤ fileNum ≤ dirNum`), any
scroll offset and any content of the history, the frame in which A goes down
enters the directory (cursor and offset become 0), and a following frame in
which B goes down, or A goes down again (the cursor is on `..`), restores the
cursor and the scroll offset that were active before entering. -/
theorem enter_then_up_restores (c : Consts) (s : State) (fA fUp : Frame)
    (hN : 0 < c.MAX_DIRECTORIES) (hh : s.histOk c)
    (hcur : 1 ≤ s.fileNum ∧ s.fileNum ≤ s.dirList.dirNum)
    (hA : fA.kDown = KEY_A) (hUp : fUp.kDown = KEY_B ∨ fUp.kDown = KEY_A) :
    (frame c fA s).2 = false ∧
    ((frame c fA s).1.fileNum, (frame c fA s).1.from_) = (0, 0) ∧
    (frame c fUp (frame c fA s).1).2 = false ∧
    ((frame c fUp (frame c fA s).1).1.fileNum, (frame c fUp (frame c fA s).1).1.from_) =
      (s.fileNum, s.from_) := by
  obtain ⟨n1, n2, n3, n4, n5, n6, n7⟩ := tracked_nav fA s
  have hok : (tracked fA s).histOk c := by
    unfold State.histOk
    rw [n5, n6]
    exact hh
  obtain ⟨e1, e2, e3, e4, e5⟩ := enterDir_nav c fA (tracked fA s) hok
  have hfA := frame_enter c fA s hA hcur.2 (by omega)
  rw [hfA]
  simp only [e1, e2, true_and]
  obtain ⟨m1, m2, m3, m4, m5, m6, m7⟩ := tracked_nav fUp (enterDir c fA (tracked fA s))
  have hok2 : (tracked fUp (enterDir c fA (tracked fA s))).histOk c := by
    unfold State.histOk
    rw [m5, m6, e3, e4]
    simp only [List.length_take, List.length_cons]
    have := hok.1
    have := hok.2
    omega
  obtain ⟨l1, l2, l3, l4⟩ := leaveDir_nav c fUp _ hok2
  have hfUp := frame_leave c fUp (enterDir c fA (tracked fA s))
    (by rcases hUp with h | h
        · exact Or.inl h
        · exact Or.inr ⟨h, e2, e1⟩)
  rw [hfUp]
  refine ⟨rfl, ?_⟩
  simp only [l1, l2, m5, m6, e3, e4, n1, n2, n5, n6]
  obtain ⟨k, hk⟩ : ∃ k, c.MAX_DIRECTORIES = k + 1 := ⟨c.MAX_DIRECTORIES - 1, by omega⟩
  rw [hk]
  simp

/-- C6, witness: entering the directory `A` of the example listing from cursor
1, then pressing B. -/
theorem enter_then_up_restores_witness :
    (frame exConsts (keyFrame KEY_A KEY_A 0 900 false) exOnDir).2 = false ∧
    ((frame exConsts (keyFrame KEY_A KEY_A 0 900 false) exOnDir).1.fileNum,
      (frame exConsts (keyFrame KEY_A KEY_A 0 900 false) exOnDir).1.from_) = (0, 0) ∧
    (frame exConsts (keyFrame KEY_B KEY_B 0 1000 false)
      (frame exConsts (keyFrame KEY_A KEY_A 0 900 false) exOnDir).1).2 = false ∧
    ((frame exConsts (keyFrame KEY_B KEY_B 0 1000 false)
        (frame exConsts (keyFrame KEY_A KEY_A 0 900 false) exOnDir).1).1.fileNum,
      (frame exConsts (keyFrame KEY_B KEY_B 0 1000 false)
        (frame exConsts (keyFrame KEY_A KEY_A 0 900 false) exOnDir).1).1.from_) =
      (exOnDir.fileNum, exOnDir.from_) :=
  enter_then_up_restores exConsts exOnDir (keyFrame KEY_A KEY_A 0 900 false)
    (keyFrame KEY_B KEY_B 0 1000 false) (by decide) ⟨by decide, by decide⟩
    ⟨by decide, by decide⟩ rfl (Or.inl rfl)

theorem take_append_take (n : Nat) (A B : List Int) :
    (A ++ B.take n).take n = (A ++ B).take n := by
  apply List.ext_getElem?
  intro i
  simp only [List.getElem?_take]
  by_cases hi : i < n
  · rw [if_pos hi, if_pos hi]
    by_cases hA : i < A.length
    · rw [List.getElem?_append_left hA, List.getElem?_append_left hA]
    · rw [List.getElem?_append_right (by omega), List.getElem?_append_right (by omega),
        List.getElem?_take, if_pos (by omega)]
  · rw [if_neg hi, if_neg hi]

theorem descend_nav (c : Consts) (s : State) (d : Frame × (Int × Int)) (hh : s.histOk c)
    (hA : d.1.kDown = KEY_A) (h1 : 1 ≤ d.2.1) (h2 : d.2.1 ≤ s.dirList.dirNum) :
    (descend c s d).prevPosition = (d.2.1 :: s.prevPosition).take c.MAX_DIRECTORIES ∧
    (descend c s d).prevFrom = (d.2.2 :: s.prevFrom).take c.MAX_DIRECTORIES ∧
    (descend c s d).histOk c := by
  obtain ⟨n1, n2, n3, n4, n5, n6, n7⟩ :=
    tracked_nav d.1 ({ s with fileNum := d.2.1, from_ := d.2.2 } : State)
  have hok : (tracked d.1 ({ s with fileNum := d.2.1, from_ := d.2.2 } : State)).histOk c := by
    unfold State.histOk
    rw [n5, n6]
    exact hh
  obtain ⟨e1, e2, e3, e4, e5⟩ := enterDir_nav c d.1 _ hok
  have hf := frame_enter c d.1 ({ s with fileNum := d.2.1, from_ := d.2.2 } : State) hA h2
    (by simp only [not_and]; intro _; omega)
  unfold descend
  rw [hf]
  simp only [e3, e4, n1, n2, n5, n6]
  refine ⟨trivial, trivial, ?_⟩
  unfold State.histOk
  rw [e3, e4]
  simp only [List.length_take, List.length_cons, n5, n6]
  have := hh.1
  have := hh.2
  omega

theorem descents_nav (c : Consts) : ∀ (ds : List (Frame × (Int × Int))) (s : State),
    s.histOk c → descentsOk c ds s →
    (descents c ds s).prevPosition =
      ((ds.reverse.map (fun d => d.2.1)) ++ s.prevPosition).take c.MAX_DIRECTORIES ∧
    (descents c ds s).prevFrom =
      ((ds.reverse.map (fun d => d.2.2)) ++ s.prevFrom).take c.MAX_DIRECTORIES ∧
    (descents c ds s).histOk c := by
  intro ds
  induction ds with
  | nil =>
    intro s hh _
    refine ⟨?_, ?_, hh⟩
    · simp [descents, List.take_of_length_le (le_of_eq hh.1)]
    · simp [descents, List.take_of_length_le (le_of_eq hh.2)]
  | cons d rest ih =>
    intro s hh hok
    obtain ⟨hA, h1, h2, hrest⟩ := hok
    obtain ⟨d1, d2, d3⟩ := descend_nav c s d hh hA h1 h2
    obtain ⟨i1, i2, i3⟩ := ih (descend c s d) d3 hrest
    have hds : descents c (d :: rest) s = descents c rest (descend c s d) := rfl
    rw [hds]
    refine ⟨?_, ?_, i3⟩
    · rw [i1, d1, take_append_take]
      simp
    · rw [i2, d2, take_append_take]
      simp

theorem shifted_getD (n : Nat) (a : List Int) (h : a.length = n) (i : Nat) :
    ((a.drop 1 ++ [0]).take n).getD i 0 = a.getD (i + 1) 0 := by
  simp only [List.getD_eq_getElem?_getD, List.getElem?_take]
  by_cases hi : i < n
  · rw [if_pos hi]
    by_cases hi2 : i + 1 < n
    · rw [List.getElem?_append_left (by simp; omega)]
      simp
    · rw [List.getElem?_append_right (by simp; omega),
        List.getElem?_eq_none (show a.length ≤ i + 1 by omega)]
      have : i - (List.drop 1 a).length = 0 := by simp; omega
      rw [this]
      rfl
  · rw [if_neg hi, List.getElem?_eq_none (show a.length ≤ i + 1 by omega)]

theorem ascents_nav (c : Consts) : ∀ (ups : List Frame) (s : State),
    s.histOk c → (∀ f ∈ ups, f.kDown = KEY_B) →
    (run c ups s).map (fun s => (s.fileNum, s.from_)) =
      (List.range ups.length).map
        (fun i => (s.prevPosition.getD i 0, s.prevFrom.getD i 0)) := by
  intro ups
  induction ups with
  | nil => intro s _ _; rfl
  | cons f rest ih =>
    intro s hh hB
    obtain ⟨n1, n2, n3, n4, n5, n6, n7⟩ := tracked_nav f s
    have hok : (tracked f s).histOk c := by
      unfold State.histOk
      rw [n5, n6]
      exact hh
    obtain ⟨l1, l2, l3, l4⟩ := leaveDir_nav c f _ hok
    have hf := frame_leave c f s (Or.inl (hB f (List.mem_cons_self _ _)))
    have hok2 : (leaveDir c f (tracked f s)).histOk c := by
      unfold State.histOk
      rw [l3, l4]
      simp only [List.length_take, List.length_append, List.length_drop, List.length_singleton]
      have := hok.1
      have := hok.2
      omega
    rw [run_cons, hf]
    simp only [Bool.false_eq_true, if_false, List.map_cons, List.length_cons]
    rw [ih _ hok2 (fun g hg => hB g (List.mem_cons_of_mem _ hg)), List.range_succ_eq_map]
    simp only [List.map_cons, List.map_map, l1, l2, n5, n6]
    congr 1
    apply List.map_congr_left
    intro i _
    simp only [Function.comp, l3, l4, n5, n6, shifted_getD _ _ hh.1, shifted_getD _ _ hh.2]

/-- C7: after `d > MAX_DIRECTORIES` consecutive descents made from the
cursor/offset pairs `p_1, ..., p_d`, ascending `d` times (B) restores
`p_d, p_(d-1), ..., p_(d-MAX_DIRECTORIES+1)` on the first `MAX_DIRECTORIES`
ascents and `(0, 0)` on each of the remaining `d - MAX_DIRECTORIES` ascents. -/
theorem deep_descent_history_is_bounded (c : Consts) (s : State)
    (ds : List (Frame × (Int × Int))) (ups : List Frame)
    (hh : s.histOk c) (hok : descentsOk c ds s)
    (hd : c.MAX_DIRECTORIES < ds.length) (hlen : ups.length = ds.length)
    (hB : ∀ f ∈ ups, f.kDown = KEY_B) :
    (run c ups (descents c ds s)).map (fun s => (s.fileNum, s.from_)) =
      (ds.reverse.take c.MAX_DIRECTORIES).map Prod.snd ++
        List.replicate (ds.length - c.MAX_DIRECTORIES) (0, 0) := by
  obtain ⟨h1, h2, h3⟩ := descents_nav c ds s hh hok
  rw [ascents_nav c ups _ h3 hB, h1, h2, hlen]
  apply List.ext_getElem?
  intro i
  have hmin : c.MAX_DIRECTORIES ⊓ ds.length = c.MAX_DIRECTORIES := by
    simp only [inf_eq_left]; omega
  simp only [List.getElem?_map, List.getD_eq_getElem?_getD,
    List.getElem?_take, List.getElem?_append, List.length_map, List.length_take,
    List.length_reverse, List.getElem?_replicate, hmin]
  by_cases hi : i < ds.length
  · rw [List.getElem?_range hi]
    by_cases hiN : i < c.MAX_DIRECTORIES
    · have hi2 : i < ds.reverse.length := by simp; exact hi
      have hr : ds.reverse[i]? = some ds.reverse[i] := List.getElem?_eq_getElem hi2
      simp only [hiN, hi, if_true, hr, Option.map_some', Option.getD_some]
    · simp only [hiN, if_false, Option.map_some', Option.getD_none]
      rw [if_pos (by omega)]
  · rw [List.getElem?_eq_none (by simp; omega)]
    simp only [Option.map_none']
    rw [if_neg (by omega), if_neg (by omega)]

/-- C7, witness: four descents into `A` with three levels of history; the
fourth ascent finds the frame of the first descent evicted. -/
theorem deep_descent_history_is_bounded_witness :
    (run exConsts exUps (descents exConsts exDescents exOnDir)).map
      (fun s => (s.fileNum, s.from_)) = [(1, 3), (1, 2), (1, 1), (0, 0)] :=
  deep_descent_history_is_bounded exConsts exOnDir exDescents exUps
    ⟨by decide, by decide⟩
    ⟨rfl, by decide, by decide, rfl, by decide, by decide, rfl, by decide, by decide,
      rfl, by decide, by decide, trivial⟩
    (by decide) (by decide) (by decide)

/-! ## `changeFile` -/

/-- C8 (as amended): when a prior playback thread `t` exists and the path is
NULL or passes the file-type check, `changeFile` returns with the prior thread
told to stop, joined and released, in this order, before anything else is done
to threads. -/
theorem changeFile_stops_prior_thread (env : Env) (ep_file : Option CStr) (hasInfo : Bool)
    (w : World) (t : Nat) (ht : w.thread = some t)
    (hpath : ep_file = none ∨ ∃ p, ep_file = some p ∧ env.getFileType p = none) :
    ∃ ret w' rest, changeFile env ep_file hasInfo w = some (ret, w') ∧
      w'.ops = w.ops ++ [ThreadOp.stopPlayback, ThreadOp.threadJoin t, ThreadOp.threadFree t]
        ++ rest ∧
      (∀ op ∈ rest, ∃ r prio, op = ThreadOp.threadCreate r prio) := by
  have hs : (stopThread w).ops =
      w.ops ++ [ThreadOp.stopPlayback, ThreadOp.threadJoin t, ThreadOp.threadFree t] := by
    simp [stopThread, ht]
  rcases hpath with rfl | ⟨p, rfl, hp⟩
  · exact ⟨0, stopThread w, [], by simp [changeFile, fileTypeError], by simp [hs], by simp⟩
  · cases hasInfo
    · exact ⟨0, stopThread w, [], by simp [changeFile, fileTypeError, hp], by simp [hs],
        by simp⟩
    · refine ⟨(startFile env p (stopThread w)).1, (startFile env p (stopThread w)).2,
        if (memccpy (stopThread w).info.file (p ++ [0]) 0 env.fileSize).2 = false then []
        else [ThreadOp.threadCreate env.threadCreate (env.prio - 1)],
        by simp [changeFile, fileTypeError, hp], ?_, ?_⟩
      · unfold startFile
        by_cases hm : (memccpy (stopThread w).info.file (p ++ [0]) 0 env.fileSize).2 = false
        · simp [hm, hs]
        · simp [hm, hs]
      · split_ifs <;> simp

/-- C8, witness: the prior thread 7 of the example world, path `b.mp3`. -/
theorem changeFile_stops_prior_thread_witness :
    ∃ ret w' rest, changeFile exEnv (some (cstr "b.mp3")) true exWorld = some (ret, w') ∧
      w'.ops = exWorld.ops ++
        [ThreadOp.stopPlayback, ThreadOp.threadJoin 7, ThreadOp.threadFree 7] ++ rest ∧
      (∀ op ∈ rest, ∃ r prio, op = ThreadOp.threadCreate r prio) :=
  changeFile_stops_prior_thread exEnv (some (cstr "b.mp3")) true exWorld 7 rfl
    (Or.inr ⟨cstr "b.mp3", rfl, by decide⟩)

/-- C8, counterexample: with the prior thread 7 playing, `changeFile` on the
rejected path `bad.txt` returns -1 and leaves thread 7 in place: no stop, no
join, no release. -/
theorem changeFile_rejected_keeps_prior_thread :
    exWorld.thread = some 7 ∧
    (changeFile exEnv (some (cstr "bad.txt")) true exWorld).map (fun r => r.1) = some (-1) ∧
    (changeFile exEnv (some (cstr "bad.txt")) true exWorld).map (fun r => r.2.thread)
      = some (some 7) ∧
    (changeFile exEnv (some (cstr "bad.txt")) true exWorld).map (fun r => r.2.ops)
      = some [] := by
  decide

/-- C9: `changeFile` with a NULL path while thread `t` is active stops, joins
and frees `t`, returns 0, makes no `threadCreate` call, and changes nothing
else: the session and the shared error code are as before. -/
theorem changeFile_null_only_stops (env : Env) (hasInfo : Bool) (w : World) (t : Nat)
    (ht : w.thread = some t) :
    changeFile env none hasInfo w =
      some (0, { w with
        thread := none,
        ops := w.ops ++ [ThreadOp.stopPlayback, ThreadOp.threadJoin t, ThreadOp.threadFree t] }) := by
  simp [changeFile, fileTypeError, stopThread, ht]

/-- C9, witness: the example world, where thread 7 is active. -/
theorem changeFile_null_only_stops_witness :
    changeFile exEnv none true exWorld =
      some (0, { exWorld with
        thread := none,
        ops := exWorld.ops ++
          [ThreadOp.stopPlayback, ThreadOp.threadJoin 7, ThreadOp.threadFree 7] }) :=
  changeFile_null_only_stops exEnv true exWorld 7 rfl

/-- C10: for a non-NULL path that `getFileType` rejects with `errno = e`,
`changeFile` sets the shared error code to `e`, raises the failure event,
returns -1 and changes nothing else: no thread call is made, the thread
variable and the session (file path, progress counters) are as before. -/
theorem changeFile_rejected_reports_error (env : Env) (p : CStr) (e : Int) (w : World)
    (hrej : env.getFileType p = some e) :
    changeFile env (some p) true w =
      some (-1, { w with errno := e, error := e, failEvent := true }) := by
  simp [changeFile, fileTypeError, hrej]

/-- C10, witness: the rejected path `bad.txt` in the example world. -/
theorem changeFile_rejected_reports_error_witness :
    changeFile exEnv (some (cstr "bad.txt")) true exWorld =
      some (-1, { exWorld with errno := 2, error := 2, failEvent := true }) :=
  changeFile_rejected_reports_error exEnv (cstr "bad.txt") 2 exWorld (by decide)

/-! ## `changeFile`: the session buffer -/

theorem memccpy_fits : ∀ (p dest : List Nat) (n : Nat), 0 ∉ p → p.length < n →
    memccpy dest (p ++ [0]) 0 n = (p ++ 0 :: dest.drop (p.length + 1), true) := by
  intro p
  induction p with
  | nil =>
    intro dest n _ hn
    obtain ⟨m, rfl⟩ : ∃ m, n = m + 1 := ⟨n - 1, by simp at hn; omega⟩
    cases dest <;> simp [memccpy]
  | cons x xs ih =>
    intro dest n h0 hn
    obtain ⟨m, rfl⟩ : ∃ m, n = m + 1 := ⟨n - 1, by simp at hn; omega⟩
    have hx : x ≠ 0 := fun h => h0 (by simp [h])
    have hxs : 0 ∉ xs := fun h => h0 (List.mem_cons_of_mem _ h)
    have hlen : xs.length < m := by simp at hn; omega
    have hi := ih dest.tail m hxs hlen
    have hi2 : memccpy dest.tail (xs.append [0]) 0 m =
        (xs ++ 0 :: List.drop (xs.length + 1) dest.tail, true) := hi
    simp only [List.cons_append, memccpy, hx, if_false]
    rw [hi2]
    simp [List.drop_tail]

theorem memccpy_overflow : ∀ (p dest : List Nat) (n : Nat), 0 ∉ p → n ≤ p.length →
    (memccpy dest (p ++ [0]) 0 n).2 = false := by
  intro p
  induction p with
  | nil =>
    intro dest n _ hn
    have : n = 0 := by simpa using hn
    subst this
    cases dest <;> rfl
  | cons x xs ih =>
    intro dest n h0 hn
    have hx : x ≠ 0 := fun h => h0 (by simp [h])
    have hxs : 0 ∉ xs := fun h => h0 (List.mem_cons_of_mem _ h)
    cases n with
    | zero => cases dest <;> rfl
    | succ m =>
      have hlen : m ≤ xs.length := by simp at hn; omega
      have hi := ih dest.tail m hxs hlen
      simp only [List.cons_append, memccpy, hx, if_false]
      exact hi

theorem cString_copy (p rest : List Nat) (h0 : 0 ∉ p) : cString (p ++ 0 :: rest) = p := by
  unfold cString
  induction p with
  | nil => simp
  | cons x xs ih =>
    have hx : x ≠ 0 := fun h => h0 (by simp [h])
    have hxs : 0 ∉ xs := fun h => h0 (List.mem_cons_of_mem _ h)
    have hb : (x != 0) = true := by simpa using hx
    simp only [List.cons_append, List.takeWhile, hb]
    exact congrArg (List.cons x) (ih hxs)

/-- C11: for a playable path (a C string, the session pointer non-NULL),
`changeFile` fails, returning -1 without any `threadCreate` call, if and only
if the path with its terminator does not fit the session's file buffer
(`length ≥ sizeof(file)`). When it fits, the call returns 0, the buffer holds
the path exactly, the three progress counters are zero, and exactly one
`threadCreate` call is made, whose result becomes the playback thread. -/
theorem changeFile_fits_or_fails (env : Env) (p : CStr) (w : World)
    (hplay : env.getFileType p = none) (hnul : 0 ∉ p) :
    ∃ ret w', changeFile env (some p) true w = some (ret, w') ∧
      ((ret = -1 ∧ w'.thread = none ∧ w'.ops = (stopThread w).ops) ↔
        env.fileSize ≤ p.length) ∧
      (p.length < env.fileSize →
        ret = 0 ∧ cString w'.info.file = p ∧
        w'.info.samples_total = 0 ∧ w'.info.samples_played = 0 ∧
        w'.info.samples_per_second = 0 ∧
        w'.ops = (stopThread w).ops ++
          [ThreadOp.threadCreate env.threadCreate (env.prio - 1)] ∧
        w'.thread = env.threadCreate) := by
  have hst : (stopThread w).thread = none := by
    unfold stopThread
    cases h : w.thread <;> simp [h]
  refine ⟨(startFile env p (stopThread w)).1, (startFile env p (stopThread w)).2,
    by simp [changeFile, fileTypeError, hplay], ?_, ?_⟩
  · by_cases hfit : p.length < env.fileSize
    · have hm := memccpy_fits p (stopThread w).info.file env.fileSize hnul hfit
      simp only [startFile, hm]
      simp
      omega
    · have hm := memccpy_overflow p (stopThread w).info.file env.fileSize hnul (by omega)
      simp only [startFile, hm]
      simp [hst]
      omega
  · intro hfit
    have hm := memccpy_fits p (stopThread w).info.file env.fileSize hnul hfit
    simp only [startFile, hm]
    simp [cString_copy p _ hnul]

/-- C11, witness: `b.mp3` (5 bytes) and the 16-byte buffer of the example. -/
theorem changeFile_fits_or_fails_witness :
    ∃ ret w', changeFile exEnv (some (cstr "b.mp3")) true exWorld = some (ret, w') ∧
      ((ret = -1 ∧ w'.thread = none ∧ w'.ops = (stopThread exWorld).ops) ↔
        exEnv.fileSize ≤ (cstr "b.mp3").length) ∧
      ((cstr "b.mp3").length < exEnv.fileSize →
        ret = 0 ∧ cString w'.info.file = cstr "b.mp3" ∧
        w'.info.samples_total = 0 ∧ w'.info.samples_played = 0 ∧
        w'.info.samples_per_second = 0 ∧
        w'.ops = (stopThread exWorld).ops ++
          [ThreadOp.threadCreate exEnv.threadCreate (exEnv.prio - 1)] ∧
        w'.thread = exEnv.threadCreate) :=
  changeFile_fits_or_fails exEnv (cstr "b.mp3") exWorld (by decide) (by decide)

/-! ## End-of-track advance and skip moves -/

/-- C12: when `error == -1` reaches the end-of-track step in a state with
`fileMax = dirNum + number of files` and `0 ≤ fileNum ≤ fileMax`: if the
cursor is on the last entry or not on a file, the cursor stays, no
`changeFile` is issued (nothing is emitted at all) and `error` becomes 0;
otherwise the cursor advances by exactly one and `changeFile` is issued with
the index `fileNum - dirNum - 1`, which lies within `files`. -/
theorem autoAdvance_in_bounds (c : Consts) (s : State) (herr : s.error = -1)
    (hmax : s.fileMax = s.dirList.dirNum + s.dirList.files.length)
    (hcur : 0 ≤ s.fileNum ∧ s.fileNum ≤ s.fileMax) :
    ((s.fileNum = s.fileMax ∨ s.fileNum ≤ s.dirList.dirNum) →
      (autoAdvance c s).fileNum = s.fileNum ∧ (autoAdvance c s).emitted = s.emitted ∧
      (autoAdvance c s).error = 0) ∧
    (¬ (s.fileNum = s.fileMax ∨ s.fileNum ≤ s.dirList.dirNum) →
      (autoAdvance c s).fileNum = s.fileNum + 1 ∧
      (autoAdvance c s).error = 0 ∧
      (autoAdvance c s).emitted = s.emitted ++
        [Event.changeFile Site.autoAdvance ((autoAdvance c s).fileNum - s.dirList.dirNum - 1),
         Event.listDir s.from_ (s.fileNum + 1)] ∧
      0 ≤ (autoAdvance c s).fileNum - s.dirList.dirNum - 1 ∧
      (autoAdvance c s).fileNum - s.dirList.dirNum - 1 < s.dirList.files.length) := by
  constructor
  · intro h
    have hc : s.fileNum ≥ s.fileMax ∨ s.dirList.dirNum ≥ s.fileNum := by omega
    simp [autoAdvance, herr, hc]
  · intro h
    have hc : ¬ (s.fileNum ≥ s.fileMax ∨ s.dirList.dirNum ≥ s.fileNum) := by omega
    simp only [autoAdvance, herr, hc, if_true, if_false, render_eq, State.emit]
    refine ⟨trivial, trivial, by simp, ?_, ?_⟩ <;> omega

/-- C12, witness: the sentinel arrives while the cursor is on the last file. -/
theorem autoAdvance_in_bounds_witness :
    (autoAdvance exConsts exEnded).fileNum = exEnded.fileNum ∧
    (autoAdvance exConsts exEnded).emitted = exEnded.emitted ∧
    (autoAdvance exConsts exEnded).error = 0 :=
  (autoAdvance_in_bounds exConsts exEnded (by decide) (by decide)
    ⟨by decide, by decide⟩).1 (Or.inl (by decide))

theorem skipMove_cursor (c : Consts) (b : Btn) (now : Nat) (s : State)
    (hcur : 0 ≤ s.fileNum ∧ s.fileNum ≤ s.fileMax) :
    (skipMove c b now s).fileMax = s.fileMax ∧
    s.fileNum - 1 ≤ (skipMove c b now s).fileNum ∧
    (skipMove c b now s).fileNum ≤ s.fileNum + 1 ∧
    ((skipMove c b now s).fileNum ≠ s.fileNum →
      s.dirList.dirNum < (skipMove c b now s).fileNum ∧ 1 ≤ (skipMove c b now s).fileNum ∧
      (skipMove c b now s).fileNum ≤ s.fileMax) := by
  unfold skipMove
  cases b.isNext
  · by_cases h : s.fileNum > 1 ∧ s.dirList.dirNum < s.fileNum - 1
    · simp only [Bool.false_eq_true, if_false, h, and_self, if_true]
      split_ifs <;> simp <;> omega
    · simp only [Bool.false_eq_true, if_false, h, if_false]
      simp
  · by_cases h : s.fileNum < s.fileMax ∧ s.dirList.dirNum < s.fileNum + 1
    · simp only [if_true, h, and_self]
      split_ifs <;> simp <;> omega
    · simp only [if_true, h, if_false]
      simp

theorem skipAccept_cursor (c : Consts) (b : Btn) (now : Nat) (s : State) :
    (skipAccept c b now s).fileNum = (skipMove c b now s).fileNum ∧
    (skipAccept c b now s).fileMax = (skipMove c b now s).fileMax ∧
    (skipAccept c b now s).dirList = s.dirList := by
  have hk := (skipMove_keep c b b now s).2.2.2.2
  cases b <;> simp [skipAccept, State.resetHist, render_eq, State.emit, hk]

/-- The loop's variables and the frame's `count` while the triple-press blocks
run: either nothing was accepted yet, or one skip was accepted and `count` has
passed `MAX_PRESSES` for the rest of the frame. -/
theorem skipIter_once (c : Consts) (now : Nat) (s : State) (b : Btn) (p : State × Int)
    (i : Nat)
    (h : p.1 = s ∨ (∃ b', p.1 = skipAccept c b' now s) ∧ 3 ≤ p.2) :
    (skipIter c b now p i).1 = s ∨
      (∃ b', (skipIter c b now p i).1 = skipAccept c b' now s) ∧ 3 ≤ (skipIter c b now p i).2 := by
  unfold skipIter
  simp only [MAX_PRESSES, Nat.cast_ofNat]
  rcases h with h | ⟨h, h3⟩
  · split_ifs with h1 h2 h4
    · right
      exact ⟨⟨b, by rw [h]⟩, by show 3 ≤ p.2 + 1; omega⟩
    · left; exact h
    · left; exact h
    · left; exact h
  · right
    split_ifs with h1 h2 h4
    · exfalso; omega
    · exact ⟨h, by show 3 ≤ p.2 + 1; omega⟩
    · exact ⟨h, by show 3 ≤ p.2 + 1; omega⟩
    · exact ⟨h, h3⟩

theorem skipBlock_once (c : Consts) (f : Frame) (s : State) (b : Btn) (p : State × Int)
    (h : p.1 = s ∨ (∃ b', p.1 = skipAccept c b' f.time s) ∧ 3 ≤ p.2) :
    (skipBlock c f b p).1 = s ∨
      (∃ b', (skipBlock c f b p).1 = skipAccept c b' f.time s) ∧ 3 ≤ (skipBlock c f b p).2 := by
  unfold skipBlock
  split_ifs
  · rw [range_MAX_PRESSES]
    simp only [List.foldl_cons, List.foldl_nil]
    exact skipIter_once c f.time s b _ 2
      (skipIter_once c f.time s b _ 1 (skipIter_once c f.time s b p 0 h))
  · exact h

theorem skipBlocks_cases (c : Consts) (f : Frame) (s : State) :
    (skipBlocks c f s).1 = s ∨ ∃ b, (skipBlocks c f s).1 = skipAccept c b f.time s := by
  unfold skipBlocks
  have h := skipBlock_once c f s .L _ (skipBlock_once c f s .R _
    (skipBlock_once c f s .ZL _ (skipBlock_once c f s .ZR (s, 0) (Or.inl rfl))))
  rcases h with h | ⟨h, _⟩
  · exact Or.inl h
  · exact Or.inr h

/-- C13: in a state with `0 ≤ fileNum ≤ fileMax`, processing a triple-press
skip command (for any button and time), and likewise the four triple-press
blocks of any frame together, moves the cursor by at most one position; when
the cursor has moved, the new cursor is on a file entry (`dirNum < fileNum`),
at least 1 and at most `fileMax`. -/
theorem skip_lands_on_file (c : Consts) (s : State)
    (hcur : 0 ≤ s.fileNum ∧ s.fileNum ≤ s.fileMax) :
    (∀ (b : Btn) (now : Nat),
      s.fileNum - 1 ≤ (skipAccept c b now s).fileNum ∧
      (skipAccept c b now s).fileNum ≤ s.fileNum + 1 ∧
      ((skipAccept c b now s).fileNum ≠ s.fileNum →
        (skipAccept c b now s).dirList.dirNum < (skipAccept c b now s).fileNum ∧
        1 ≤ (skipAccept c b now s).fileNum ∧
        (skipAccept c b now s).fileNum ≤ (skipAccept c b now s).fileMax)) ∧
    (∀ f : Frame,
      s.fileNum - 1 ≤ (skipBlocks c f s).1.fileNum ∧
      (skipBlocks c f s).1.fileNum ≤ s.fileNum + 1 ∧
      ((skipBlocks c f s).1.fileNum ≠ s.fileNum →
        (skipBlocks c f s).1.dirList.dirNum < (skipBlocks c f s).1.fileNum ∧
        1 ≤ (skipBlocks c f s).1.fileNum ∧
        (skipBlocks c f s).1.fileNum ≤ (skipBlocks c f s).1.fileMax)) := by
  have key : ∀ (b : Btn) (now : Nat),
      s.fileNum - 1 ≤ (skipAccept c b now s).fileNum ∧
      (skipAccept c b now s).fileNum ≤ s.fileNum + 1 ∧
      ((skipAccept c b now s).fileNum ≠ s.fileNum →
        (skipAccept c b now s).dirList.dirNum < (skipAccept c b now s).fileNum ∧
        1 ≤ (skipAccept c b now s).fileNum ∧
        (skipAccept c b now s).fileNum ≤ (skipAccept c b now s).fileMax) := by
    intro b now
    obtain ⟨a1, a2, a3⟩ := skipAccept_cursor c b now s
    obtain ⟨m1, m2, m3, m4⟩ := skipMove_cursor c b now s hcur
    rw [a1, a2, a3, m1]
    exact ⟨m2, m3, m4⟩
  refine ⟨key, ?_⟩
  intro f
  rcases skipBlocks_cases c f s with h | ⟨b, h⟩
  · rw [h]
    exact ⟨by omega, by omega, fun h' => absurd rfl h'⟩
  · rw [h]
    exact key b f.time

/-- C13, witness: a skip through L from the last file of the example listing. -/
theorem skip_lands_on_file_witness :
    exState.fileNum - 1 ≤ (skipAccept exConsts .L 5000 exState).fileNum ∧
    (skipAccept exConsts .L 5000 exState).fileNum ≤ exState.fileNum + 1 ∧
    ((skipAccept exConsts .L 5000 exState).fileNum ≠ exState.fileNum →
      (skipAccept exConsts .L 5000 exState).dirList.dirNum <
        (skipAccept exConsts .L 5000 exState).fileNum ∧
      1 ≤ (skipAccept exConsts .L 5000 exState).fileNum ∧
      (skipAccept exConsts .L 5000 exState).fileNum ≤
        (skipAccept exConsts .L 5000 exState).fileMax) :=
  (skip_lands_on_file exConsts exState ⟨by decide, by decide⟩).1 .L 5000

/-! ## At most one skip command per frame -/

theorem emit_skips (s : State) (e : Event) (h : e.isSkip = false) :
    (s.emit e).skips = s.skips := by
  simp [State.skips, State.emit, h]

theorem render_skips (c : Consts) (s : State) : (s.render c).skips = s.skips := by
  rw [render_eq]
  exact emit_skips s _ rfl

theorem moveCursor_skips (c : Consts) (f : Frame) (s : State) :
    (moveCursor c f s).skips = s.skips := by
  have hu : ∀ s : State, (moveUp c f s).skips = s.skips := by
    intro s
    unfold moveUp
    split_ifs
    all_goals simp only [render_skips]
    all_goals (try split_ifs)
    all_goals rfl
  have hd : ∀ s : State, (moveDown c f s).skips = s.skips := by
    intro s
    unfold moveDown
    split_ifs
    all_goals simp only [render_skips]
    all_goals (try split_ifs)
    all_goals rfl
  have hl : ∀ s : State, (moveLeft c f s).skips = s.skips := by
    intro s
    unfold moveLeft
    split_ifs
    all_goals simp only [render_skips]
    all_goals (try split_ifs)
    all_goals rfl
  have hr : ∀ s : State, (moveRight c f s).skips = s.skips := by
    intro s
    unfold moveRight
    split_ifs
    all_goals simp only [render_skips]
    all_goals (try split_ifs)
    all_goals rfl
  unfold moveCursor
  rw [hr, hl, hd, hu]

theorem navigate_skips (c : Consts) (f : Frame) (s r : State) (h : navigate c f s = some r) :
    r.skips = s.skips := by
  have hn := listDir_nonneg 0 c.MAX_LIST 0 (getDir f.fs s.dirList).1
  unfold navigate at h
  split_ifs at h <;> simp at h <;> subst h
  · simp [leaveDir, render_eq, State.emit, State.skips, Event.isSkip]
  · simp [enterDir, State.emit, State.skips, Event.isSkip, not_lt.mpr hn]
  · simp [State.emit, State.skips, Event.isSkip]

theorem skipBlocks_skips (c : Consts) (f : Frame) (s : State) :
    (skipBlocks c f s).1.skips = s.skips ∨
      ∃ b idx, (skipBlocks c f s).1.skips = s.skips ++ [Event.changeFile (Site.skip b) idx] := by
  rcases skipBlocks_cases c f s with h | ⟨b, h⟩
  · left; rw [h]
  · right
    refine ⟨b, (skipMove c b f.time s).fileNum - s.dirList.dirNum - 1, ?_⟩
    rw [h]
    simp only [State.skips, (skipAccept_hist c b f.time s).2.2.2]
    simp [Event.isSkip]

theorem frame_of_navigate (c : Consts) (f : Frame) (s r : State)
    (hs : keyTest f.kDown KEY_START = false) (hc : combos f (tracked f s) = none)
    (hn : navigate c f (moveCursor c f (tracked f s)) = some r) :
    frame c f s = (r, false) := by
  unfold tracked at hc hn
  simp [frame, hs, hc, hn]

theorem frame_of_blocks (c : Consts) (f : Frame) (s : State)
    (hs : keyTest f.kDown KEY_START = false) (hc : combos f (tracked f s) = none)
    (hn : navigate c f (moveCursor c f (tracked f s)) = none) :
    frame c f s = (autoAdvance c (skipBlocks c f (moveCursor c f (tracked f s))).1, false) := by
  unfold tracked at hc hn ⊢
  simp [frame, hs, hc, hn]

theorem frame_of_start (c : Consts) (f : Frame) (s : State)
    (hs : keyTest f.kDown KEY_START = true) :
    frame c f s = (trackPresses f (beginFrame f s), true) := by
  simp [frame, hs]

/-- C20: whatever is held and whatever the press histories are, one frame
emits at most one skip command: `changeFile` is issued by at most one of the
four triple-press blocks, at most once. -/
theorem one_skip_per_frame (c : Consts) (f : Frame) (s : State) :
    (frame c f s).1.skips.length ≤ 1 := by
  have he : (tracked f s).emitted = [] := tracked_emitted f s
  have h0 : (tracked f s).skips = [] := by
    simp [State.skips, he]
  cases hs : keyTest f.kDown KEY_START with
  | true =>
    have hm : (trackPresses f (beginFrame f s)).emitted = [] := by
      unfold tracked setMill at he
      split_ifs at he <;> exact he
    rw [frame_of_start c f s hs]
    simp [State.skips, hm]
  | false =>
    cases hc : combos f (tracked f s) with
    | some r =>
      rw [frame_of_combos c f s r hs hc, combos_skips f _ r hc he]
      simp
    | none =>
      cases hn : navigate c f (moveCursor c f (tracked f s)) with
      | some r =>
        rw [frame_of_navigate c f s r hs hc hn, navigate_skips c f _ r hn, moveCursor_skips, h0]
        simp
      | none =>
        rw [frame_of_blocks c f s hs hc hn]
        show (autoAdvance c _).skips.length ≤ 1
        rw [(autoAdvance_keep c _ .L).2.2.2.2]
        rcases skipBlocks_skips c f (moveCursor c f (tracked f s)) with h | ⟨b, idx, h⟩
        · rw [h, moveCursor_skips, h0]
          simp
        · rw [h, moveCursor_skips, h0]
          simp

/-! ## `getDir` on failure; one playback thread -/

/-- C14, the code at the failing input: `getDir` never returns a negative
value. When `getcwd` or `opendir` fails it returns 0, the value it returns
for a readable empty directory, and `main` enters the loop instead of jumping
to `err`. -/
theorem getDir_failure_is_not_negative :
    (∀ (fs : FsResult) (d : DirList), 0 ≤ (getDir fs d).2) ∧
    (∀ d : DirList, (getDir FsResult.cwdFail d).2 = 0) ∧
    (∀ (wd : CStr) (d : DirList), (getDir (FsResult.openFail wd) d).2 = 0) ∧
    (∀ (wd : CStr) (ok : Bool) (d : DirList), (getDir (FsResult.listing wd [] ok) d).2 = 0) ∧
    (∀ (c : Consts) (fs2 : FsResult),
      mainStart c FsResult.cwdFail fs2 = some (initState c FsResult.cwdFail fs2)) := by
  refine ⟨?_, fun _ => rfl, fun _ _ => rfl, fun _ _ _ => rfl, ?_⟩
  · intro fs d
    cases fs with
    | cwdFail => simp [getDir]
    | openFail wd => simp [getDir]
    | listing wd entries ok =>
      simp only [getDir]
      omega
  · intro c fs2
    have h := listDir_nonneg 0 c.MAX_LIST 0 (getDir FsResult.cwdFail DirList.zero).1
    simp [mainStart, getDir]
    exact h

theorem replay_append : ∀ (ops1 ops2 : List ThreadOp) (v : ThreadView),
    v.replay (ops1 ++ ops2) = (v.replay ops1).bind (fun v' => v'.replay ops2) := by
  intro ops1
  induction ops1 with
  | nil => intro ops2 v; rfl
  | cons op rest ih =>
    intro ops2 v
    simp only [List.cons_append, ThreadView.replay]
    cases h : v.step op with
    | none => rfl
    | some v' => exact ih ops2 v'

theorem stopThread_ok (w : World) (h : w.threadsOk) :
    ∃ v, ThreadView.start.replay (stopThread w).ops = some v ∧
      v.running = [] ∧ v.unfreed = [] ∧ (stopThread w).thread = none := by
  obtain ⟨v, hv, hr, hu⟩ := h
  cases ht : w.thread with
  | none =>
    have hs : stopThread w = w := by simp [stopThread, ht]
    rw [ht] at hr hu
    rw [hs]
    exact ⟨v, hv, hr, hu, ht⟩
  | some t =>
    have hs : (stopThread w).ops =
        w.ops ++ [ThreadOp.stopPlayback, ThreadOp.threadJoin t, ThreadOp.threadFree t] ∧
        (stopThread w).thread = none := by
      simp [stopThread, ht]
    rw [ht] at hr hu
    simp only [Option.toList] at hr hu
    rw [hs.1]
    refine ⟨{ running := [], unfreed := [], asked := true }, ?_, rfl, rfl, hs.2⟩
    simp only [replay_append, hv, Option.bind]
    simp [ThreadView.replay, ThreadView.step, hr, hu]

theorem changeFile_ok (env : Env) (p : Option CStr) (w : World) (h : w.threadsOk) :
    ∃ ret w', changeFile env p true w = some (ret, w') ∧ w'.threadsOk := by
  cases hf : fileTypeError env p with
  | some e =>
    exact ⟨-1, { w with errno := e, error := e, failEvent := true },
      by simp [changeFile, hf], h⟩
  | none =>
    obtain ⟨v, hv, hr, hu, ht⟩ := stopThread_ok w h
    cases p with
    | none =>
      exact ⟨0, stopThread w, by simp [changeFile, hf], v, hv, (by rw [hr, ht]; rfl),
        (by rw [hu, ht]; rfl)⟩
    | some path =>
      refine ⟨(startFile env path (stopThread w)).1, (startFile env path (stopThread w)).2,
        by simp [changeFile, hf], ?_⟩
      by_cases hm : (memccpy (stopThread w).info.file (path ++ [0]) 0 env.fileSize).2 = false
      · have he : (startFile env path (stopThread w)).2.ops = (stopThread w).ops ∧
            (startFile env path (stopThread w)).2.thread = (stopThread w).thread := by
          simp [startFile, hm]
        exact ⟨v, (by rw [he.1]; exact hv), (by rw [hr, he.2, ht]; rfl),
          (by rw [hu, he.2, ht]; rfl)⟩
      · have he : (startFile env path (stopThread w)).2.ops = (stopThread w).ops ++
            [ThreadOp.threadCreate env.threadCreate (env.prio - 1)] ∧
            (startFile env path (stopThread w)).2.thread = env.threadCreate := by
          simp [startFile, hm]
        refine ⟨ThreadView.mk env.threadCreate.toList env.threadCreate.toList false,
          ?_, (by rw [he.2]), (by rw [he.2])⟩
        rw [he.1]
        simp only [replay_append, hv, Option.bind]
        simp [ThreadView.replay, ThreadView.step, hr, hu]

/-- C15: over every sequence of `changeFile` calls (NULL, playable, rejected
and over-long paths in any mix, each call with its own collaborators) made
from a world in which no thread call was made yet, every call returns, and
after each call the record of thread calls respects the discipline (a thread is
created only when every thread created before has been asked to stop, joined
and freed) and at most one playback thread is running, the one held by the
thread variable. -/
theorem at_most_one_thread (calls : List (Env × Option CStr)) (w0 : World)
    (hthread : w0.thread = none) (hops : w0.ops = []) :
    (runCalls calls w0).length = calls.length ∧
    ∀ w ∈ runCalls calls w0,
      ∃ v, ThreadView.start.replay w.ops = some v ∧ v.running = w.thread.toList ∧
        v.unfreed = w.thread.toList ∧ v.running.length ≤ 1 := by
  have h0 : w0.threadsOk := ⟨ThreadView.start, by rw [hops]; rfl, by rw [hthread]; rfl,
    by rw [hthread]; rfl⟩
  have key : ∀ (calls : List (Env × Option CStr)) (w : World), w.threadsOk →
      (runCalls calls w).length = calls.length ∧ ∀ w' ∈ runCalls calls w, w'.threadsOk := by
    intro calls
    induction calls with
    | nil => intro w _; exact ⟨rfl, by simp [runCalls]⟩
    | cons call rest ih =>
      intro w hw
      obtain ⟨ret, w', hc, hw'⟩ := changeFile_ok call.1 call.2 w hw
      obtain ⟨i1, i2⟩ := ih w' hw'
      have hr : runCalls (call :: rest) w = w' :: runCalls rest w' := by
        simp [runCalls, hc]
      rw [hr]
      refine ⟨by simp [i1], ?_⟩
      intro x hx
      rcases List.mem_cons.mp hx with rfl | hx
      · exact hw'
      · exact i2 x hx
  obtain ⟨k1, k2⟩ := key calls w0 h0
  refine ⟨k1, ?_⟩
  intro w hw
  obtain ⟨v, hv, hr, hu⟩ := k2 w hw
  refine ⟨v, hv, hr, hu, ?_⟩
  rw [hr]
  cases w.thread <;> simp

/-- C15, witness: five calls from program start: a playable path, a rejected
path, a second playable path, an over-long path and NULL. -/
theorem at_most_one_thread_witness :
    (runCalls exCalls exStart).length = exCalls.length ∧
    ∀ w ∈ runCalls exCalls exStart,
      ∃ v, ThreadView.start.replay w.ops = some v ∧ v.running = w.thread.toList ∧
        v.unfreed = w.thread.toList ∧ v.running.length ≤ 1 :=
  at_most_one_thread exCalls exStart rfl rfl

/-! ## Cursor movement -/

theorem moveUp_view (c : Consts) (f : Frame) (s : State) :
    (moveUp c f s).fileMax = s.fileMax ∧ (moveUp c f s).dirList = s.dirList ∧
    ((moveUp c f s).fileNum = s.fileNum ∧ (moveUp c f s).from_ = s.from_ ∨
     0 < s.fileNum ∧ (moveUp c f s).fileNum = s.fileNum - 1 ∧
      (moveUp c f s).from_ =
        if s.fileMax - (s.fileNum - 1) > c.MAX_LIST - 2 ∧ s.from_ ≠ 0 then s.from_ - 1
        else s.from_) := by
  unfold moveUp
  by_cases h : (moveKey f s KEY_UP && decide (s.fileNum > 0)) = true
  · have h2 : 0 < s.fileNum := by
      have h' := h
      simp at h'
      exact h'.2
    simp only [h, if_true, render_eq, State.emit]
    refine ⟨?_, ?_, Or.inr ⟨h2, ?_, ?_⟩⟩ <;> split_ifs <;> rfl
  · simp only [h, if_false]
    exact ⟨rfl, rfl, Or.inl ⟨rfl, rfl⟩⟩

theorem moveDown_view (c : Consts) (f : Frame) (s : State) :
    (moveDown c f s).fileMax = s.fileMax ∧ (moveDown c f s).dirList = s.dirList ∧
    ((moveDown c f s).fileNum = s.fileNum ∧ (moveDown c f s).from_ = s.from_ ∨
     s.fileNum < s.fileMax ∧ (moveDown c f s).fileNum = s.fileNum + 1 ∧
      (moveDown c f s).from_ =
        if s.fileNum + 1 ≥ c.MAX_LIST ∧ s.fileMax - (s.fileNum + 1) ≥ 0 ∧
            s.from_ < s.fileMax - c.MAX_LIST then s.from_ + 1
        else s.from_) := by
  unfold moveDown
  by_cases h : (moveKey f s KEY_DOWN && decide (s.fileNum < s.fileMax)) = true
  · have h2 : s.fileNum < s.fileMax := by
      have h' := h
      simp at h'
      exact h'.2
    simp only [h, if_true, render_eq, State.emit]
    refine ⟨?_, ?_, Or.inr ⟨h2, ?_, ?_⟩⟩ <;> split_ifs <;> rfl
  · simp only [h, if_false]
    exact ⟨rfl, rfl, Or.inl ⟨rfl, rfl⟩⟩

theorem moveLeft_view (c : Consts) (f : Frame) (s : State) :
    (moveLeft c f s).fileMax = s.fileMax ∧ (moveLeft c f s).dirList = s.dirList ∧
    ((moveLeft c f s).fileNum = s.fileNum ∧ (moveLeft c f s).from_ = s.from_ ∨
     0 < s.fileNum ∧ (moveLeft c f s).fileNum = s.fileNum - leftSkip c s ∧
      (moveLeft c f s).from_ =
        if s.fileMax - (s.fileNum - leftSkip c s) > c.MAX_LIST - 2 ∧ s.from_ ≠ 0 then
          (if s.from_ - leftSkip c s < 0 then 0 else s.from_ - leftSkip c s)
        else s.from_) := by
  unfold moveLeft
  by_cases h : (moveKey f s KEY_LEFT && decide (s.fileNum > 0)) = true
  · have h2 : 0 < s.fileNum := by
      have h' := h
      simp at h'
      exact h'.2
    simp only [h, if_true, render_eq, State.emit]
    refine ⟨?_, ?_, Or.inr ⟨h2, ?_, ?_⟩⟩ <;> (try unfold leftSkip) <;> split_ifs <;> rfl
  · simp only [h, if_false]
    exact ⟨rfl, rfl, Or.inl ⟨rfl, rfl⟩⟩

theorem moveRight_view (c : Consts) (f : Frame) (s : State) :
    (moveRight c f s).fileMax = s.fileMax ∧ (moveRight c f s).dirList = s.dirList ∧
    ((moveRight c f s).fileNum = s.fileNum ∧ (moveRight c f s).from_ = s.from_ ∨
     s.fileNum < s.fileMax ∧ (moveRight c f s).fileNum = s.fileNum + rightSkip c s ∧
      (moveRight c f s).from_ =
        if s.fileNum + rightSkip c s ≥ c.MAX_LIST ∧ s.fileMax - (s.fileNum + rightSkip c s) ≥ 0 ∧
            s.from_ < s.fileMax - c.MAX_LIST then
          (if s.from_ + rightSkip c s > s.fileMax - c.MAX_LIST then s.fileMax - c.MAX_LIST
           else s.from_ + rightSkip c s)
        else s.from_) := by
  unfold moveRight
  by_cases h : (moveKey f s KEY_RIGHT && decide (s.fileNum < s.fileMax)) = true
  · have h2 : s.fileNum < s.fileMax := by
      have h' := h
      simp at h'
      exact h'.2
    simp only [h, if_true, render_eq, State.emit]
    refine ⟨?_, ?_, Or.inr ⟨h2, ?_, ?_⟩⟩ <;> (try unfold rightSkip) <;> split_ifs <;> rfl
  · simp only [h, if_false]
    exact ⟨rfl, rfl, Or.inl ⟨rfl, rfl⟩⟩

theorem skips_nonneg (c : Consts) (s : State) (hM : 0 < c.MAX_LIST) (h : s.cursorOk) :
    0 ≤ leftSkip c s ∧ leftSkip c s ≤ s.fileNum ∧
    0 ≤ rightSkip c s ∧ s.fileNum + rightSkip c s ≤ s.fileMax := by
  have ht : 0 ≤ Int.tdiv c.MAX_LIST 2 := Int.tdiv_nonneg (le_of_lt hM) (by norm_num)
  obtain ⟨h1, h2⟩ := h
  unfold leftSkip rightSkip
  refine ⟨?_, ?_, ?_, ?_⟩ <;> split_ifs <;> omega

/-- C16: with `MAX_LIST > 0` and the cursor within `[0, fileMax]`, each of the
four cursor-movement blocks (Up, Down, Left by `MAX_LIST / 2`, Right by
`MAX_LIST / 2`), whatever the frame's keys, and the four blocks run one after
the other in the same frame, leave `fileMax` as it is and the cursor within
`[0, fileMax]`. -/
theorem moves_keep_cursor_in_range (c : Consts) (f : Frame) (s : State)
    (hM : 0 < c.MAX_LIST) (h : s.cursorOk) :
    ((moveUp c f s).fileMax = s.fileMax ∧ (moveUp c f s).cursorOk) ∧
    ((moveDown c f s).fileMax = s.fileMax ∧ (moveDown c f s).cursorOk) ∧
    ((moveLeft c f s).fileMax = s.fileMax ∧ (moveLeft c f s).cursorOk) ∧
    ((moveRight c f s).fileMax = s.fileMax ∧ (moveRight c f s).cursorOk) ∧
    ((moveCursor c f s).fileMax = s.fileMax ∧ (moveCursor c f s).cursorOk) := by
  have hu : ∀ s : State, s.cursorOk →
      (moveUp c f s).fileMax = s.fileMax ∧ (moveUp c f s).cursorOk := by
    intro s h
    obtain ⟨v1, _, v3⟩ := moveUp_view c f s
    refine ⟨v1, ?_⟩
    unfold State.cursorOk at h ⊢
    rw [v1]
    rcases v3 with ⟨e, _⟩ | ⟨p, e, _⟩ <;> rw [e] <;> omega
  have hd : ∀ s : State, s.cursorOk →
      (moveDown c f s).fileMax = s.fileMax ∧ (moveDown c f s).cursorOk := by
    intro s h
    obtain ⟨v1, _, v3⟩ := moveDown_view c f s
    refine ⟨v1, ?_⟩
    unfold State.cursorOk at h ⊢
    rw [v1]
    rcases v3 with ⟨e, _⟩ | ⟨p, e, _⟩ <;> rw [e] <;> omega
  have hl : ∀ s : State, s.cursorOk →
      (moveLeft c f s).fileMax = s.fileMax ∧ (moveLeft c f s).cursorOk := by
    intro s h
    obtain ⟨v1, _, v3⟩ := moveLeft_view c f s
    obtain ⟨k1, k2, _, _⟩ := skips_nonneg c s hM h
    refine ⟨v1, ?_⟩
    unfold State.cursorOk at h ⊢
    rw [v1]
    rcases v3 with ⟨e, _⟩ | ⟨p, e, _⟩ <;> rw [e] <;> omega
  have hr : ∀ s : State, s.cursorOk →
      (moveRight c f s).fileMax = s.fileMax ∧ (moveRight c f s).cursorOk := by
    intro s h
    obtain ⟨v1, _, v3⟩ := moveRight_view c f s
    obtain ⟨_, _, k3, k4⟩ := skips_nonneg c s hM h
    refine ⟨v1, ?_⟩
    unfold State.cursorOk at h ⊢
    rw [v1]
    rcases v3 with ⟨e, _⟩ | ⟨p, e, _⟩ <;> rw [e] <;> omega
  refine ⟨hu s h, hd s h, hl s h, hr s h, ?_⟩
  unfold moveCursor
  obtain ⟨a1, a2⟩ := hu s h
  obtain ⟨b1, b2⟩ := hd _ a2
  obtain ⟨c1, c2⟩ := hl _ b2
  obtain ⟨d1, d2⟩ := hr _ c2
  exact ⟨by rw [d1, c1, b1, a1], d2⟩

/-- C16, witness: Up and Right keyed in the same frame on the last file of the
example listing. -/
theorem moves_keep_cursor_in_range_witness :
    (moveCursor exConsts (keyFrame (KEY_DUP ||| KEY_DRIGHT) (KEY_DUP ||| KEY_DRIGHT) 0 900 false)
      exState).fileMax = exState.fileMax ∧
    (moveCursor exConsts (keyFrame (KEY_DUP ||| KEY_DRIGHT) (KEY_DUP ||| KEY_DRIGHT) 0 900 false)
      exState).cursorOk :=
  (moves_keep_cursor_in_range exConsts
    (keyFrame (KEY_DUP ||| KEY_DRIGHT) (KEY_DUP ||| KEY_DRIGHT) 0 900 false) exState
    (by decide) ⟨by decide, by decide⟩).2.2.2.2

/-! ## `listDir` -/

/-- What the loop of `listDir` prints from counter `n` on: one line per entry
`j` with `n < j`, `from < j`, `j ≤ fileNum + dirNum`; `listed` grows by the
number of lines; when the stop point `max + from` lies ahead, no entry beyond
it is printed and at most `max + from - max(n, from)` lines are. -/
theorem listDirLoop_spec (from_ max select : Int) (d : DirList) :
    ∀ (fuel : Nat) (n listed : Int) (out : List Line), 0 ≤ n →
      ∃ new : List Line,
        listDirLoop from_ max select d fuel n listed out = (listed + new.length, out ++ new) ∧
        (∀ L ∈ new, ∃ j, n < j ∧ from_ < j ∧ j ≤ d.fileNum + d.dirNum ∧
          (n < max + from_ → from_ < max + from_ → j ≤ max + from_) ∧ L = lineOf select d j) ∧
        (n < max + from_ → from_ < max + from_ →
          (new.length : Int) ≤ max + from_ - (if n < from_ then from_ else n)) := by
  intro fuel
  induction fuel with
  | zero =>
    intro n listed out _
    refine ⟨[], by simp [listDirLoop], by simp, ?_⟩
    intro h1 h2
    split_ifs <;> simp <;> omega
  | succ k ih =>
    intro n listed out hn
    have hout : ∀ j : Int,
        (if d.dirNum < j then
          (if d.dirNum ≥ j then out ++ [Line.dir (select == j) (j - 1)] else out) ++
            [Line.file (select == j) (j - d.dirNum - 1)]
         else (if d.dirNum ≥ j then out ++ [Line.dir (select == j) (j - 1)] else out)) =
        out ++ [lineOf select d j] := by
      intro j
      unfold lineOf
      split_ifs <;> first | rfl | (exfalso; omega)
    simp only [listDirLoop]
    by_cases hT : d.fileNum + d.dirNum > n
    · rw [if_pos hT]
      by_cases hskip : n + 1 ≤ from_
      · rw [if_pos hskip]
        obtain ⟨new, e1, e2, e3⟩ := ih (n + 1) listed out (by omega)
        refine ⟨new, e1, ?_, ?_⟩
        · intro L hL
          obtain ⟨j, j1, j2, j3, j4, j5⟩ := e2 L hL
          exact ⟨j, by omega, j2, j3, fun a b => j4 (by omega) b, j5⟩
        · intro h1 h2
          have := e3 (by omega) h2
          split_ifs at this ⊢ <;> omega
      · rw [if_neg hskip, hout (n + 1)]
        by_cases hbrk : n + 1 = max + from_
        · rw [if_pos hbrk]
          refine ⟨[lineOf select d (n + 1)], by simp, ?_, ?_⟩
          · intro L hL
            simp only [List.mem_singleton] at hL
            exact ⟨n + 1, by omega, by omega, by omega, fun _ _ => by omega, hL⟩
          · intro h1 h2
            simp only [List.length_singleton, Nat.cast_one]
            split_ifs <;> omega
        · rw [if_neg hbrk]
          obtain ⟨new, e1, e2, e3⟩ :=
            ih (n + 1) (listed + 1) (out ++ [lineOf select d (n + 1)]) (by omega)
          refine ⟨lineOf select d (n + 1) :: new, ?_, ?_, ?_⟩
          · rw [e1]
            simp only [List.length_cons, Nat.cast_add, Nat.cast_one, List.append_assoc,
              List.singleton_append, Prod.mk.injEq, and_true]
            omega
          · intro L hL
            rcases List.mem_cons.mp hL with rfl | hL
            · exact ⟨n + 1, by omega, by omega, by omega, fun _ _ => by omega, rfl⟩
            · obtain ⟨j, j1, j2, j3, j4, j5⟩ := e2 L hL
              exact ⟨j, by omega, j2, j3, fun a b => j4 (by omega) b, j5⟩
          · intro h1 h2
            have := e3 (by omega) h2
            simp only [List.length_cons, Nat.cast_add, Nat.cast_one]
            split_ifs at this ⊢ <;> omega
    · rw [if_neg hT]
      refine ⟨[], by simp, by simp, ?_⟩
      intro h1 h2
      split_ifs <;> simp <;> omega

/-- With `from = 0` and `max = 1` the stop point `max + from` is 0 after
`max--`, which the counter (1, 2, ...) never equals: every iteration prints. -/
theorem listDirLoop_no_stop (select : Int) (d : DirList) :
    ∀ (fuel : Nat) (n listed : Int) (out : List Line), 0 ≤ n →
      (fuel = 0 ∨ n + fuel ≤ d.fileNum + d.dirNum) →
      (listDirLoop 0 0 select d fuel n listed out).1 = listed + fuel := by
  intro fuel
  induction fuel with
  | zero => intro n listed out _ _; simp [listDirLoop]
  | succ k ih =>
    intro n listed out hn h
    have hT : d.fileNum + d.dirNum > n := by
      rcases h with h | h
      · exact absurd h (Nat.succ_ne_zero k)
      · push_cast at h; omega
    simp only [listDirLoop]
    rw [if_pos hT, if_neg (by omega), if_neg (by omega), ih (n + 1) _ _ (by omega)]
    · push_cast; omega
    · rcases h with h | h
      · exact absurd h (Nat.succ_ne_zero k)
      · right; push_cast at h; omega

/-- The part of C18 that holds for every call: `listDir` returns the number of
lines it printed; on a listing whose counts are the lengths of its arrays every
line reads inside `directories` or `files`; and the number of lines is at most
`max` when `from > 0` or `max ≥ 2`. -/
theorem listDir_counts_lines (from_ max select : Int) (d : DirList) :
    (listDir from_ max select d).1 = (listDir from_ max select d).2.length ∧
    (d.wf → ∀ L ∈ (listDir from_ max select d).2, L.inBounds d) ∧
    (0 ≤ from_ → 0 < max → (from_ ≠ 0 ∨ 2 ≤ max) → (listDir from_ max select d).1 ≤ max) := by
  have hb : ∀ j : Int, 0 < j → j ≤ d.fileNum + d.dirNum → d.wf →
      (lineOf select d j).inBounds d := by
    intro j h0 h1 hw
    obtain ⟨w1, w2⟩ := hw
    unfold lineOf
    split_ifs <;> simp only [Line.inBounds] <;> omega
  unfold listDir
  by_cases h : from_ = 0
  · rw [if_pos h]
    obtain ⟨new, e1, e2, e3⟩ := listDirLoop_spec from_ (max - 1) select d
      (d.fileNum + d.dirNum).toNat 0 1 [Line.parent (select == 0)] le_rfl
    rw [e1]
    refine ⟨by simp; omega, ?_, ?_⟩
    · intro hw L hL
      rcases List.mem_append.mp hL with hL | hL
      · simp only [List.mem_singleton] at hL
        rw [hL]; trivial
      · obtain ⟨j, j1, _, j3, _, rfl⟩ := e2 L hL
        exact hb j j1 j3 hw
    · intro _ _ hm
      have := e3 (by omega) (by omega)
      simp only [] at this ⊢
      split_ifs at this <;> omega
  · rw [if_neg h]
    obtain ⟨new, e1, e2, e3⟩ := listDirLoop_spec from_ max select d
      (d.fileNum + d.dirNum).toNat 0 0 [] le_rfl
    rw [e1]
    refine ⟨by simp, ?_, ?_⟩
    · intro hw L hL
      simp only [List.nil_append] at hL
      obtain ⟨j, j1, _, j3, _, rfl⟩ := e2 L hL
      exact hb j j1 j3 hw
    · intro h0 hmax _
      have := e3 (by omega) (by omega)
      simp only [] at this ⊢
      split_ifs at this <;> omega

/-- C18, counterexample, `from = 0` and `max = 1`: for every listing and
every `select`, `listDir` prints the `..` line and then every entry of the
listing, and returns `1 + (fileNum + dirNum)`; on the example listing (`A/`,
`a.mp3`, `b.mp3`) it prints four lines and returns 4, which is more than
`max = 1`. -/
theorem listDir_max_one_lists_everything :
    (∀ (select : Int) (d : DirList),
      (listDir 0 1 select d).1 = 1 + ((d.fileNum + d.dirNum).toNat : Int) ∧
      ((listDir 0 1 select d).2.length : Int) = 1 + ((d.fileNum + d.dirNum).toNat : Int)) ∧
    listDir 0 1 0 (getDir exFs DirList.zero).1 =
      (4, [Line.parent true, Line.dir false 0, Line.file false 0, Line.file false 1]) ∧
    ¬ ((listDir 0 1 0 (getDir exFs DirList.zero).1).1 ≤ 1) := by
  refine ⟨?_, by decide, by decide⟩
  intro select d
  have hc := (listDir_counts_lines 0 1 select d).1
  have hn : (listDir 0 1 select d).1 = 1 + ((d.fileNum + d.dirNum).toNat : Int) := by
    unfold listDir
    rw [if_pos rfl]
    have h11 : (1 : Int) - 1 = 0 := by norm_num
    rw [h11]
    apply listDirLoop_no_stop select d _ 0 1 _ le_rfl
    by_cases hT : 0 ≤ d.fileNum + d.dirNum
    · right; rw [Int.toNat_of_nonneg hT]; omega
    · left; exact Int.toNat_eq_zero.mpr (by omega)
  exact ⟨hn, by rw [← hc, hn]⟩

/-- The lines of `listDir`: the `..` line when `from` is 0, then lines of
entries past `from`, each of them `lineOf` its entry. -/
theorem listDir_lines (from_ max select : Int) (d : DirList) :
    ∃ new : List Line,
      (listDir from_ max select d).2 =
        (if from_ = 0 then [Line.parent (select == 0)] else []) ++ new ∧
      ∀ L ∈ new, ∃ j, 0 < j ∧ from_ < j ∧ j ≤ d.fileNum + d.dirNum ∧ L = lineOf select d j := by
  unfold listDir
  by_cases h : from_ = 0
  · rw [if_pos h, if_pos h]
    obtain ⟨new, e1, e2, _⟩ := listDirLoop_spec from_ (max - 1) select d
      (d.fileNum + d.dirNum).toNat 0 1 [Line.parent (select == 0)] le_rfl
    refine ⟨new, by rw [e1], ?_⟩
    intro L hL
    obtain ⟨j, j1, j2, j3, _, j5⟩ := e2 L hL
    exact ⟨j, j1, j2, j3, j5⟩
  · rw [if_neg h, if_neg h]
    obtain ⟨new, e1, e2, _⟩ := listDirLoop_spec from_ max select d
      (d.fileNum + d.dirNum).toNat 0 0 [] le_rfl
    refine ⟨new, by rw [e1], ?_⟩
    intro L hL
    obtain ⟨j, j1, j2, j3, _, j5⟩ := e2 L hL
    exact ⟨j, j1, j2, j3, j5⟩

/-- C18 (amended): for every listing whose counts are the lengths of its
arrays (as `getDir` leaves them), every `from ≥ 0`, every `max > 0` with
`max ≥ 2` or `from > 0`, and every `select`: `listDir` returns exactly the
number of lines it produced, which are the `..` line when `from == 0` followed
by one line per entry printed (entries past `from`); this number is at most
`max`; and every entry it prints is read at an index inside `directories` or
`files`. -/
theorem listDir_count_within_max (from_ max select : Int) (d : DirList) (hw : d.wf)
    (hfrom : 0 ≤ from_) (hmax : 0 < max) (hdom : 2 ≤ max ∨ 0 < from_) :
    (listDir from_ max select d).1 = (listDir from_ max select d).2.length ∧
    (∃ new : List Line,
      (listDir from_ max select d).2 =
        (if from_ = 0 then [Line.parent (select == 0)] else []) ++ new ∧
      ∀ L ∈ new, ∃ j, 0 < j ∧ from_ < j ∧ j ≤ d.fileNum + d.dirNum ∧ L = lineOf select d j) ∧
    (listDir from_ max select d).1 ≤ max ∧
    ∀ L ∈ (listDir from_ max select d).2, L.inBounds d := by
  obtain ⟨h1, h2, h3⟩ := listDir_counts_lines from_ max select d
  exact ⟨h1, listDir_lines from_ max select d, h3 hfrom hmax (by omega), h2 hw⟩

/-- C18 (amended), witness: the example listing (`A/`, `a.mp3`, `b.mp3`) drawn
from offset 0 on two lines with the cursor on entry 1: `..` and `A/`. -/
theorem listDir_count_within_max_witness :
    (getDir exFs DirList.zero).1.wf ∧
    listDir 0 2 1 (getDir exFs DirList.zero).1 = (2, [Line.parent false, Line.dir true 0]) ∧
    (listDir 0 2 1 (getDir exFs DirList.zero).1).1 ≤ 2 ∧
    ∀ L ∈ (listDir 0 2 1 (getDir exFs DirList.zero).1).2,
      L.inBounds (getDir exFs DirList.zero).1 :=
  ⟨by decide, by decide,
    (listDir_count_within_max 0 2 1 (getDir exFs DirList.zero).1 (by decide) (by decide)
      (by decide) (by decide)).2.2.1,
    (listDir_count_within_max 0 2 1 (getDir exFs DirList.zero).1 (by decide) (by decide)
      (by decide) (by decide)).2.2.2⟩

/-! ## The scroll offset -/

/-- The window drawn for offset 0 on a screen of at least two lines holds the
entries `0 .. MAX_LIST - 1`. -/
theorem cursorShown_zero (c : Consts) (k : Int) (d : DirList) (hM : 2 ≤ c.MAX_LIST)
    (h : cursorShown c 0 k d = true) : k < c.MAX_LIST := by
  unfold cursorShown listDir at h
  rw [if_pos rfl] at h
  obtain ⟨new, e1, e2, _⟩ := listDirLoop_spec 0 (c.MAX_LIST - 1) k d
    (d.fileNum + d.dirNum).toNat 0 1 [Line.parent (k == 0)] le_rfl
  rw [e1] at h
  simp only [List.any_append, List.any_cons, List.any_nil, Line.isSelected, Bool.or_false,
    Bool.or_eq_true, List.any_eq_true] at h
  rcases h with h | ⟨L, hL, hs⟩
  · have : k = 0 := by simpa using h
    omega
  · obtain ⟨j, j1, j2, j3, j4, rfl⟩ := e2 L hL
    have hk : k = j := by
      unfold lineOf at hs
      split_ifs at hs <;> simpa [Line.isSelected] using hs
    have := j4 (by omega) (by omega)
    omega

theorem half_pos (c : Consts) (hM : 2 ≤ c.MAX_LIST) : 1 ≤ Int.tdiv c.MAX_LIST 2 := by
  rw [Int.tdiv_eq_ediv (by omega) (by norm_num)]
  omega

/-- C17, counterexample: on a 4-line screen in a directory of eight files,
after four presses of Down the cursor is on entry 4 and the offset is 1, so the
window shows entries 2 to 5. One more press of Down moves the cursor to entry
5, which the same window shows, and yet the offset becomes 2. -/
theorem down_scrolls_inside_window :
    exScrolled.fileNum = 4 ∧ exScrolled.from_ = 1 ∧
    (listDir exScrolled.from_ exSmall.MAX_LIST exScrolled.fileNum exScrolled.dirList).2 =
      [Line.file false 1, Line.file false 2, Line.file true 3, Line.file false 4] ∧
    cursorShown exSmall exScrolled.from_ exScrolled.fileNum exScrolled.dirList = true ∧
    (frame exSmall (downFrame 1000) exScrolled).1.fileNum = 5 ∧
    cursorShown exSmall exScrolled.from_ 5 exScrolled.dirList = true ∧
    (frame exSmall (downFrame 1000) exScrolled).1.from_ = 2 ∧
    (moveDown exSmall (downFrame 1000) exScrolled).from_ = 2 := by
  decide

/-- C17 (amended): on a screen of at least two lines and with `from ≥ 0`, for
each of the four cursor-movement blocks, whatever the frame's keys:
(1) when the offset is 0 and the new cursor is still inside the window drawn
for offset 0, the offset stays 0;
(2) Up and Left never raise the offset, lower it by no more than the cursor
moved and not below 0, and change it exactly when the cursor moved, the offset
was not 0 and more than `MAX_LIST - 2` entries lie between the new cursor and
`fileMax`;
(3) Down and Right never lower the offset, raise it by no more than the cursor
moved, and change it exactly when the cursor moved, the new cursor is at least
`MAX_LIST` and the offset was below `fileMax - MAX_LIST`. -/
theorem scroll_offset_follows_cursor (c : Consts) (f : Frame) (s : State)
    (hM : 2 ≤ c.MAX_LIST) (hfrom : 0 ≤ s.from_) :
    (∀ m ∈ [moveUp, moveDown, moveLeft, moveRight],
      s.from_ = 0 → cursorShown c 0 (m c f s).fileNum s.dirList = true →
        (m c f s).from_ = 0) ∧
    (∀ m ∈ [moveUp, moveLeft],
      (m c f s).from_ ≤ s.from_ ∧ 0 ≤ (m c f s).from_ ∧
      s.from_ - (m c f s).from_ ≤ s.fileNum - (m c f s).fileNum ∧
      ((m c f s).from_ ≠ s.from_ ↔
        (m c f s).fileNum ≠ s.fileNum ∧ s.from_ ≠ 0 ∧
          s.fileMax - (m c f s).fileNum > c.MAX_LIST - 2)) ∧
    (∀ m ∈ [moveDown, moveRight],
      s.from_ ≤ (m c f s).from_ ∧
      (m c f s).from_ - s.from_ ≤ (m c f s).fileNum - s.fileNum ∧
      ((m c f s).from_ ≠ s.from_ ↔
        (m c f s).fileNum ≠ s.fileNum ∧ (m c f s).fileNum ≥ c.MAX_LIST ∧
          s.from_ < s.fileMax - c.MAX_LIST)) := by
  have hh := half_pos c hM
  obtain ⟨_, _, vu⟩ := moveUp_view c f s
  obtain ⟨_, _, vd⟩ := moveDown_view c f s
  obtain ⟨_, _, vl⟩ := moveLeft_view c f s
  obtain ⟨_, _, vr⟩ := moveRight_view c f s
  have hls : 0 < s.fileNum → 1 ≤ leftSkip c s ∧ leftSkip c s ≤ s.fileNum := by
    intro h
    unfold leftSkip
    split_ifs <;> omega
  have hrs : s.fileNum < s.fileMax → 1 ≤ rightSkip c s ∧ s.fileNum + rightSkip c s ≤ s.fileMax := by
    intro h
    unfold rightSkip
    split_ifs <;> omega
  have up : (moveUp c f s).from_ ≤ s.from_ ∧ 0 ≤ (moveUp c f s).from_ ∧
      s.from_ - (moveUp c f s).from_ ≤ s.fileNum - (moveUp c f s).fileNum ∧
      ((moveUp c f s).from_ ≠ s.from_ ↔
        (moveUp c f s).fileNum ≠ s.fileNum ∧ s.from_ ≠ 0 ∧
          s.fileMax - (moveUp c f s).fileNum > c.MAX_LIST - 2) := by
    rcases vu with ⟨e1, e2⟩ | ⟨p, e1, e2⟩
    · rw [e1, e2]; simp; exact hfrom
    · rw [e1, e2]
      split_ifs with hc <;> refine ⟨by omega, by omega, by omega, ?_⟩ <;> constructor <;>
        intro h <;> omega
  have left : (moveLeft c f s).from_ ≤ s.from_ ∧ 0 ≤ (moveLeft c f s).from_ ∧
      s.from_ - (moveLeft c f s).from_ ≤ s.fileNum - (moveLeft c f s).fileNum ∧
      ((moveLeft c f s).from_ ≠ s.from_ ↔
        (moveLeft c f s).fileNum ≠ s.fileNum ∧ s.from_ ≠ 0 ∧
          s.fileMax - (moveLeft c f s).fileNum > c.MAX_LIST - 2) := by
    rcases vl with ⟨e1, e2⟩ | ⟨p, e1, e2⟩
    · rw [e1, e2]; simp; exact hfrom
    · obtain ⟨k1, k2⟩ := hls p
      rw [e1, e2]
      split_ifs with hc hn <;> refine ⟨by omega, by omega, by omega, ?_⟩ <;> constructor <;>
        intro h <;> omega
  have down : s.from_ ≤ (moveDown c f s).from_ ∧
      (moveDown c f s).from_ - s.from_ ≤ (moveDown c f s).fileNum - s.fileNum ∧
      ((moveDown c f s).from_ ≠ s.from_ ↔
        (moveDown c f s).fileNum ≠ s.fileNum ∧ (moveDown c f s).fileNum ≥ c.MAX_LIST ∧
          s.from_ < s.fileMax - c.MAX_LIST) := by
    rcases vd with ⟨e1, e2⟩ | ⟨p, e1, e2⟩
    · rw [e1, e2]; simp
    · rw [e1, e2]
      split_ifs with hc <;> refine ⟨by omega, by omega, ?_⟩ <;> constructor <;>
        intro h <;> omega
  have right : s.from_ ≤ (moveRight c f s).from_ ∧
      (moveRight c f s).from_ - s.from_ ≤ (moveRight c f s).fileNum - s.fileNum ∧
      ((moveRight c f s).from_ ≠ s.from_ ↔
        (moveRight c f s).fileNum ≠ s.fileNum ∧ (moveRight c f s).fileNum ≥ c.MAX_LIST ∧
          s.from_ < s.fileMax - c.MAX_LIST) := by
    rcases vr with ⟨e1, e2⟩ | ⟨p, e1, e2⟩
    · rw [e1, e2]; simp
    · obtain ⟨k1, k2⟩ := hrs p
      rw [e1, e2]
      split_ifs with hc hn <;> refine ⟨by omega, by omega, ?_⟩ <;> constructor <;>
        intro h <;> omega
  refine ⟨?_, ?_, ?_⟩
  · intro m hm h0 hs
    have hlt := cursorShown_zero c _ s.dirList hM hs
    simp only [List.mem_cons, List.mem_singleton, List.not_mem_nil, or_false] at hm
    rcases hm with rfl | rfl | rfl | rfl
    · have := up.1; have := up.2.1; omega
    · by_contra hne
      have := (down.2.2.mp (by rw [h0]; exact hne)).2.1
      omega
    · have := left.1; have := left.2.1; omega
    · by_contra hne
      have := (right.2.2.mp (by rw [h0]; exact hne)).2.1
      omega
  · intro m hm
    simp only [List.mem_cons, List.mem_singleton, List.not_mem_nil, or_false] at hm
    rcases hm with rfl | rfl
    · exact up
    · exact left
  · intro m hm
    simp only [List.mem_cons, List.mem_singleton, List.not_mem_nil, or_false] at hm
    rcases hm with rfl | rfl
    · exact down
    · exact right

/-- C17 (amended), at the scrolled example state with Down pressed: the offset
goes from 1 to 2 with the cursor (4 to 5). -/
theorem scroll_offset_follows_cursor_witness :
    (2 : Int) ≤ exSmall.MAX_LIST ∧ 0 ≤ exScrolled.from_ ∧
    exScrolled.from_ ≤ (moveDown exSmall (downFrame 1000) exScrolled).from_ ∧
    (moveDown exSmall (downFrame 1000) exScrolled).from_ - exScrolled.from_ ≤
      (moveDown exSmall (downFrame 1000) exScrolled).fileNum - exScrolled.fileNum :=
  ⟨by decide, by decide,
    ((scroll_offset_follows_cursor exSmall (downFrame 1000) exScrolled (by decide)
      (by decide)).2.2 moveDown (by simp)).1,
    ((scroll_offset_follows_cursor exSmall (downFrame 1000) exScrolled (by decide)
      (by decide)).2.2 moveDown (by simp)).2.1⟩

/-! ## The cooldown -/

theorem skipIter_cool (c : Consts) (b : Btn) (now : Nat) (p : State × Int) (i : Nat)
    (h : p.1.qual b i) (hc : p.2 + 1 = 3) (hcool : ¬ u64sub now p.1.lastSkipTime > 1000) :
    skipIter c b now p i = (p.1, p.2 + 1) := by
  unfold State.qual at h
  unfold skipIter
  rw [if_pos h]
  simp only [MAX_PRESSES]
  rw [if_pos (by simpa using hc), if_neg hcool]

theorem skipBlock_cool (c : Consts) (f : Frame) (b : Btn) (s : State)
    (h0 : s.qual b 0) (h1 : s.qual b 1) (h2 : s.qual b 2)
    (hcool : ¬ u64sub f.time s.lastSkipTime > 1000) :
    (skipBlock c f b (s, 0)).1 = s := by
  unfold skipBlock
  split_ifs
  · rw [range_MAX_PRESSES]
    simp only [List.foldl_cons, List.foldl_nil]
    rw [skipIter_count c b f.time (s, 0) 0 h0 (by norm_num),
      skipIter_count c b f.time _ 1 h1 (by norm_num),
      skipIter_cool c b f.time _ 2 h2 (by norm_num) hcool]
  · rfl

/-- C19, counterexample: the third press of L was accepted at 2040
(`lastSkipTime = 2040`, cursor on entry 2); R is then pressed at 2840, 2940 and
3040. At 3040 the three slots of R qualify, R is held and exactly 1000
time-units have elapsed since `lastSkipTime`, and no skip command is emitted.
The same press one time-unit later (3041) is accepted. -/
theorem skip_refused_at_exactly_1000 :
    exCooled.lastSkipTime = 2040 ∧ exCooled.fileNum = 2 ∧
    (pressed (keyFrame KEY_R KEY_R 0 3040 false) exCooled .R).rPressCount = [2840, 2940, 3040] ∧
    ((pressed (keyFrame KEY_R KEY_R 0 3040 false) exCooled .R).qual .R 0 ∧
     (pressed (keyFrame KEY_R KEY_R 0 3040 false) exCooled .R).qual .R 1 ∧
     (pressed (keyFrame KEY_R KEY_R 0 3040 false) exCooled .R).qual .R 2) ∧
    u64sub 3040 exCooled.lastSkipTime = 1000 ∧
    (frame exConsts (keyFrame KEY_R KEY_R 0 3040 false) exCooled).1.skips = [] ∧
    (frame exConsts (keyFrame KEY_R KEY_R 0 3040 false) exCooled).1.fileNum = 2 ∧
    (frame exConsts (keyFrame KEY_R KEY_R 0 3041 false) exCooled).1.skips =
      [Event.changeFile (Site.skip .R) 1] := by
  decide

/-- C19 (amended): when the triple-press block of button `b` is reached with
`count = 0`, the button held, a press time recorded and all three slots within
500 time-units of it, the skip is accepted if more than 1000 time-units have
elapsed since `lastSkipTime` (`now - lastSkipTime > 1000` in unsigned 64-bit
arithmetic) and the block does nothing if 1000 or fewer have elapsed. In a
frame in which `b` goes down and no other key is involved (`s` being the state
once the press is recorded), a skip command is emitted exactly when more than
1000 time-units have elapsed. -/
theorem skip_accepted_after_more_than_1000 (c : Consts) (f : Frame) (s : State) (b : Btn)
    (hheld : keyTest f.kHeld b.key = true) (ht : s.pressTime b ≠ 0)
    (hq : s.qual b 0 ∧ s.qual b 1 ∧ s.qual b 2) :
    (u64sub f.time s.lastSkipTime > 1000 →
      (skipBlock c f b (s, 0)).1 = skipAccept c b f.time s) ∧
    (u64sub f.time s.lastSkipTime ≤ 1000 → (skipBlock c f b (s, 0)).1 = s) ∧
    (∀ s0 : State, f.isPress b → s = pressed f s0 b →
      ((frame c f s0).1.skips ≠ [] ↔ u64sub f.time s0.lastSkipTime > 1000)) := by
  obtain ⟨h0, h1, h2⟩ := hq
  have hA : u64sub f.time s.lastSkipTime > 1000 →
      (skipBlock c f b (s, 0)).1 = skipAccept c b f.time s :=
    fun hc => skipBlock_hit c f b s hheld ht h0 h1 h2 hc
  have hB : u64sub f.time s.lastSkipTime ≤ 1000 → (skipBlock c f b (s, 0)).1 = s :=
    fun hc => skipBlock_cool c f b s h0 h1 h2 (not_lt.mpr hc)
  refine ⟨hA, hB, ?_⟩
  intro s0 hp hs
  obtain ⟨v1, v2, v3, v4, v5⟩ := pressed_view f s0 b
  rw [frame_press c f s0 b hp, ← hs, (autoAdvance_keep c _ b).2.2.2.2, ← v4, ← hs]
  have he : s.emitted = [] := by rw [hs]; exact v5
  by_cases hc : u64sub f.time s.lastSkipTime > 1000
  · rw [hA hc]
    obtain ⟨_, _, _, k4⟩ := skipAccept_hist c b f.time s
    simp only [State.skips, k4, he, hc, iff_true]
    simp [Event.isSkip]
  · rw [hB (not_lt.mp hc)]
    simp only [State.skips, he, hc, iff_false]
    simp

/-- C19 (amended), at the example: R pressed for the third time at 3041, one
time-unit after the cooldown of the skip accepted at 2040. -/
theorem skip_accepted_after_more_than_1000_witness :
    u64sub 3041 (pressed (keyFrame KEY_R KEY_R 0 3041 false) exCooled .R).lastSkipTime > 1000 ∧
    (skipBlock exConsts (keyFrame KEY_R KEY_R 0 3041 false) .R
      (pressed (keyFrame KEY_R KEY_R 0 3041 false) exCooled .R, 0)).1 =
      skipAccept exConsts .R 3041 (pressed (keyFrame KEY_R KEY_R 0 3041 false) exCooled .R) :=
  ⟨by decide,
    (skip_accepted_after_more_than_1000 exConsts (keyFrame KEY_R KEY_R 0 3041 false)
      (pressed (keyFrame KEY_R KEY_R 0 3041 false) exCooled .R) .R (by decide) (by decide)
      (by decide)).1 (by decide)⟩

/-! ## The index of a skip -/

/-- The cursor and the offset after the cursor step of a triple-press block
(main.c:764-770 for the forward buttons, 799-805 for the backward ones). -/
theorem skipMove_view (c : Consts) (b : Btn) (now : Nat) (s : State) :
    (skipMove c b now s).fileMax = s.fileMax ∧ (skipMove c b now s).dirList = s.dirList ∧
    (b.isNext = true →
      ((s.fileNum < s.fileMax ∧ s.dirList.dirNum < s.fileNum + 1) →
        (skipMove c b now s).fileNum = s.fileNum + 1 ∧
        (skipMove c b now s).from_ =
          if s.fileNum + 1 ≥ c.MAX_LIST ∧ s.fileMax - (s.fileNum + 1) ≥ 0 ∧
              s.from_ < s.fileMax - c.MAX_LIST then s.from_ + 1
          else s.from_) ∧
      (¬ (s.fileNum < s.fileMax ∧ s.dirList.dirNum < s.fileNum + 1) →
        (skipMove c b now s).fileNum = s.fileNum ∧ (skipMove c b now s).from_ = s.from_)) ∧
    (b.isNext = false →
      ((s.fileNum > 1 ∧ s.dirList.dirNum < s.fileNum - 1) →
        (skipMove c b now s).fileNum = s.fileNum - 1 ∧
        (skipMove c b now s).from_ =
          if s.fileMax - (s.fileNum - 1) > c.MAX_LIST - 2 ∧ s.from_ ≠ 0 then s.from_ - 1
          else s.from_) ∧
      (¬ (s.fileNum > 1 ∧ s.dirList.dirNum < s.fileNum - 1) →
        (skipMove c b now s).fileNum = s.fileNum ∧ (skipMove c b now s).from_ = s.from_)) := by
  unfold skipMove
  refine ⟨?_, ?_, ?_, ?_⟩
  · split_ifs <;> dsimp only <;> (try split_ifs) <;> rfl
  · split_ifs <;> dsimp only <;> (try split_ifs) <;> rfl
  · intro hb
    rw [if_pos hb]
    refine ⟨fun h => ?_, fun h => ?_⟩
    · rw [if_pos h]
      dsimp only
      split_ifs <;> exact ⟨rfl, rfl⟩
    · rw [if_neg h]
      exact ⟨rfl, rfl⟩
  · intro hb
    rw [if_neg (by simp [hb])]
    refine ⟨fun h => ?_, fun h => ?_⟩
    · rw [if_pos h]
      dsimp only
      split_ifs <;> exact ⟨rfl, rfl⟩
    · rw [if_neg h]
      exact ⟨rfl, rfl⟩

/-- The index a triple-press block passes to `dirList.files[...]`: within
`files` when the cursor is on a file, or when a forward skip leaves the last
directory entry (or `..` in a listing without directories) for the first
file; negative in every other case, where the cursor stays on `..` or on a
directory. -/
theorem skip_index_bounds (c : Consts) (b : Btn) (now : Nat) (s : State)
    (hmax : s.fileMax = s.dirList.dirNum + s.dirList.files.length)
    (hcur : 0 ≤ s.fileNum ∧ s.fileNum ≤ s.fileMax) :
    (skipAccept c b now s).emitted = s.emitted ++
      [Event.changeFile (Site.skip b) ((skipMove c b now s).fileNum - s.dirList.dirNum - 1),
       Event.listDir (skipMove c b now s).from_ (skipMove c b now s).fileNum] ∧
    ((s.dirList.dirNum < s.fileNum ∨
        (b.isNext = true ∧ s.fileNum = s.dirList.dirNum ∧ s.fileNum < s.fileMax)) →
      0 ≤ (skipMove c b now s).fileNum - s.dirList.dirNum - 1 ∧
      (skipMove c b now s).fileNum - s.dirList.dirNum - 1 < s.dirList.files.length) ∧
    (¬ (s.dirList.dirNum < s.fileNum ∨
        (b.isNext = true ∧ s.fileNum = s.dirList.dirNum ∧ s.fileNum < s.fileMax)) →
      (skipMove c b now s).fileNum = s.fileNum ∧
      (skipMove c b now s).fileNum - s.dirList.dirNum - 1 < 0) := by
  obtain ⟨_, _, vn, vp⟩ := skipMove_view c b now s
  refine ⟨(skipAccept_hist c b now s).2.2.2, ?_, ?_⟩
  · intro h
    cases hb : b.isNext
    · obtain ⟨v1, v2⟩ := vp hb
      simp only [hb, Bool.false_eq_true, false_and, or_false] at h
      by_cases hg : s.fileNum > 1 ∧ s.dirList.dirNum < s.fileNum - 1
      · rw [(v1 hg).1]; omega
      · rw [(v2 hg).1]; omega
    · obtain ⟨v1, v2⟩ := vn hb
      by_cases hg : s.fileNum < s.fileMax ∧ s.dirList.dirNum < s.fileNum + 1
      · rw [(v1 hg).1]; omega
      · rw [(v2 hg).1]; omega
  · intro h
    cases hb : b.isNext
    · obtain ⟨v1, v2⟩ := vp hb
      have hg : ¬ (s.fileNum > 1 ∧ s.dirList.dirNum < s.fileNum - 1) := by omega
      rw [(v2 hg).1]; omega
    · obtain ⟨v1, v2⟩ := vn hb
      simp only [hb, true_and] at h
      have hg : ¬ (s.fileNum < s.fileMax ∧ s.dirList.dirNum < s.fileNum + 1) := by omega
      rw [(v2 hg).1]; omega

/-- C21, the code at two failing inputs, on the listing `A/`, `a.mp3`,
`b.mp3` (`dirNum = 1`, two files, `fileMax = 3`). At program start the cursor
is on `..` (entry 0); three presses of R make the block of R issue `changeFile`
with `files[0 - 1 - 1]`, index -2. With the cursor on the directory `A` (entry
1), three presses of L make the block of L issue `changeFile` with
`files[1 - 1 - 1]`, index -1. In both cases the cursor has not moved. -/
theorem skip_off_file_reads_outside_files :
    (initState exConsts exFs exFs).fileNum = 0 ∧
    (initState exConsts exFs exFs).dirList.dirNum = 1 ∧
    (initState exConsts exFs exFs).dirList.files.length = 2 ∧
    (initState exConsts exFs exFs).fileMax = 3 ∧
    (run exConsts (triplePress KEY_R) (initState exConsts exFs exFs)).map State.skips =
      [[], [], [], [], [Event.changeFile (Site.skip .R) (-2)]] ∧
    (run exConsts (triplePress KEY_R) (initState exConsts exFs exFs)).map State.fileNum =
      [0, 0, 0, 0, 0] ∧
    exOnDir.fileNum = 1 ∧ exOnDir.dirList.dirNum = 1 ∧ exOnDir.dirList.files.length = 2 ∧
    exOnDir.fileMax = 3 ∧
    (run exConsts (triplePress KEY_L) exOnDir).map State.skips =
      [[], [], [], [], [Event.changeFile (Site.skip .L) (-1)]] ∧
    (run exConsts (triplePress KEY_L) exOnDir).map State.fileNum = [1, 1, 1, 1, 1] := by
  decide

/-! ## The cursor and the window -/

theorem lineOf_selected (k : Int) (d : DirList) : (lineOf k d k).isSelected = true := by
  unfold lineOf
  split_ifs <;> simp [Line.isSelected]

/-- Every entry `j` past the counter and past `from`, up to the stop point
`max + from` when that lies ahead, is printed by the loop of `listDir`, given
fuel for the remaining entries. -/
theorem listDirLoop_complete (from_ max select : Int) (d : DirList) (j : Int)
    (hj : j ≤ d.fileNum + d.dirNum) (hfj : from_ < j) :
    ∀ (fuel : Nat) (n listed : Int) (out : List Line), 0 ≤ n → n < j →
      d.fileNum + d.dirNum ≤ n + fuel →
      (max + from_ ≤ n ∨ max + from_ ≤ from_ ∨ j ≤ max + from_) →
      lineOf select d j ∈ (listDirLoop from_ max select d fuel n listed out).2 := by
  intro fuel
  induction fuel with
  | zero =>
    intro n listed out _ h1 h2 _
    simp only [Nat.cast_zero] at h2
    omega
  | succ k ih =>
    intro n listed out hn h1 h2 hstop
    have hout : ∀ i : Int,
        (if d.dirNum < i then
          (if d.dirNum ≥ i then out ++ [Line.dir (select == i) (i - 1)] else out) ++
            [Line.file (select == i) (i - d.dirNum - 1)]
         else (if d.dirNum ≥ i then out ++ [Line.dir (select == i) (i - 1)] else out)) =
        out ++ [lineOf select d i] := by
      intro i
      unfold lineOf
      split_ifs <;> first | rfl | (exfalso; omega)
    have hT : d.fileNum + d.dirNum > n := by omega
    push_cast at h2
    simp only [listDirLoop]
    rw [if_pos hT]
    by_cases hskip : n + 1 ≤ from_
    · rw [if_pos hskip]
      exact ih (n + 1) listed out (by omega) (by omega) (by omega) (by omega)
    · rw [if_neg hskip, hout (n + 1)]
      by_cases hbrk : n + 1 = max + from_
      · rw [if_pos hbrk]
        have : j = n + 1 := by omega
        rw [this]
        simp
      · rw [if_neg hbrk]
        by_cases hjn : j = n + 1
        · obtain ⟨new, e1, _, _⟩ := listDirLoop_spec from_ max select d k (n + 1) (listed + 1)
            (out ++ [lineOf select d (n + 1)]) (by omega)
          rw [e1, hjn]
          simp
        · exact ih (n + 1) _ _ (by omega) (by omega) (by omega) (by omega)

/-- The entries `listDir` shows as selected: with offset 0 the entries
`0 .. MAX_LIST - 1`, with a positive offset `from` the entries
`from + 1 .. from + MAX_LIST`, as far as the listing reaches. -/
theorem cursorShown_of_window (c : Consts) (from_ k : Int) (d : DirList)
    (hk : k ≤ d.fileNum + d.dirNum)
    (h : (from_ = 0 ∧ 0 ≤ k ∧ k ≤ c.MAX_LIST - 1) ∨
         (0 < from_ ∧ from_ + 1 ≤ k ∧ k ≤ from_ + c.MAX_LIST)) :
    cursorShown c from_ k d = true := by
  have hfuel : d.fileNum + d.dirNum ≤ 0 + ((d.fileNum + d.dirNum).toNat : Int) := by
    have := Int.self_le_toNat (d.fileNum + d.dirNum)
    omega
  unfold cursorShown listDir
  rw [List.any_eq_true]
  rcases h with ⟨h0, h1, h2⟩ | ⟨h0, h1, h2⟩
  · rw [if_pos h0]
    by_cases hz : k = 0
    · obtain ⟨new, e1, _, _⟩ := listDirLoop_spec from_ (c.MAX_LIST - 1) k d
        (d.fileNum + d.dirNum).toNat 0 1 [Line.parent (k == 0)] le_rfl
      refine ⟨Line.parent (k == 0), by rw [e1]; simp, ?_⟩
      simp [Line.isSelected, hz]
    · exact ⟨lineOf k d k,
        listDirLoop_complete from_ (c.MAX_LIST - 1) k d k hk (by omega) _ 0 1 _ le_rfl
          (by omega) hfuel (by omega),
        lineOf_selected k d⟩
  · rw [if_neg (by omega)]
    exact ⟨lineOf k d k,
      listDirLoop_complete from_ c.MAX_LIST k d k hk (by omega) _ 0 0 _ le_rfl
        (by omega) hfuel (by omega),
      lineOf_selected k d⟩

/-- A state that satisfies `windowOk` shows its cursor. -/
theorem windowOk_shown (c : Consts) (s : State)
    (hT : s.fileMax = s.dirList.fileNum + s.dirList.dirNum) (h : s.windowOk c) :
    cursorShown c s.from_ s.fileNum s.dirList = true := by
  obtain ⟨h1, h2, h3, h4, h5⟩ := h
  apply cursorShown_of_window c s.from_ s.fileNum s.dirList (by omega)
  by_cases h0 : s.from_ = 0
  · left; exact ⟨h0, h1, h4 h0⟩
  · right
    have := h5 h0
    omega

/-- On a screen of at least three lines, in a directory whose number of
entries `fileMax` is not `MAX_LIST`, Up and Down keep `windowOk`. -/
theorem windowOk_updown (c : Consts) (f : Frame) (s : State) (hM : 3 ≤ c.MAX_LIST)
    (hF : s.fileMax ≠ c.MAX_LIST) (h : s.windowOk c) :
    (moveUp c f s).windowOk c ∧ (moveDown c f s).windowOk c := by
  obtain ⟨u1, _, vu⟩ := moveUp_view c f s
  obtain ⟨d1, _, vd⟩ := moveDown_view c f s
  obtain ⟨h1, h2, h3, h4, h5⟩ := h
  refine ⟨?_, ?_⟩
  · unfold State.windowOk
    rw [u1]
    rcases vu with ⟨e1, e2⟩ | ⟨p, e1, e2⟩
    · rw [e1, e2]; exact ⟨h1, h2, h3, h4, h5⟩
    · rw [e1, e2]
      by_cases h0 : s.from_ = 0
      · have := h4 h0
        split_ifs <;> refine ⟨?_, ?_, ?_, ?_, ?_⟩ <;> omega
      · have := h5 h0
        split_ifs <;> refine ⟨?_, ?_, ?_, ?_, ?_⟩ <;> omega
  · unfold State.windowOk
    rw [d1]
    rcases vd with ⟨e1, e2⟩ | ⟨p, e1, e2⟩
    · rw [e1, e2]; exact ⟨h1, h2, h3, h4, h5⟩
    · rw [e1, e2]
      by_cases h0 : s.from_ = 0
      · have := h4 h0
        split_ifs <;> refine ⟨?_, ?_, ?_, ?_, ?_⟩ <;> omega
      · have := h5 h0
        split_ifs <;> refine ⟨?_, ?_, ?_, ?_, ?_⟩ <;> omega

/-- On a screen of at least three lines Left keeps `windowOk`. -/
theorem windowOk_left (c : Consts) (f : Frame) (s : State) (hM : 3 ≤ c.MAX_LIST)
    (h : s.windowOk c) : (moveLeft c f s).windowOk c := by
  have hh := half_pos c (by omega)
  have hh2 : 2 * Int.tdiv c.MAX_LIST 2 ≤ c.MAX_LIST := by
    rw [Int.tdiv_eq_ediv (by omega) (by norm_num)]
    omega
  obtain ⟨l1, _, vl⟩ := moveLeft_view c f s
  obtain ⟨h1, h2, h3, h4, h5⟩ := h
  have hls : 0 < s.fileNum → 1 ≤ leftSkip c s ∧ leftSkip c s ≤ s.fileNum ∧
      leftSkip c s ≤ Int.tdiv c.MAX_LIST 2 ∧
      (leftSkip c s = s.fileNum ∨ leftSkip c s = Int.tdiv c.MAX_LIST 2) := by
    intro h
    unfold leftSkip
    split_ifs <;> omega
  unfold State.windowOk
  rw [l1]
  rcases vl with ⟨e1, e2⟩ | ⟨p, e1, e2⟩
  · rw [e1, e2]; exact ⟨h1, h2, h3, h4, h5⟩
  · obtain ⟨k1, k2, k3, k4⟩ := hls p
    rw [e1, e2]
    by_cases h0 : s.from_ = 0
    · have := h4 h0
      split_ifs <;> refine ⟨?_, ?_, ?_, ?_, ?_⟩ <;> omega
    · have := h5 h0
      split_ifs <;> refine ⟨?_, ?_, ?_, ?_, ?_⟩ <;> omega

/-- On a screen of at least three lines, with `fileMax` other than `MAX_LIST`,
Right keeps `windowOk`. -/
theorem windowOk_right (c : Consts) (f : Frame) (s : State) (hM : 3 ≤ c.MAX_LIST)
    (hF : s.fileMax ≠ c.MAX_LIST) (h : s.windowOk c) : (moveRight c f s).windowOk c := by
  have hh := half_pos c (by omega)
  have hh2 : 2 * Int.tdiv c.MAX_LIST 2 ≤ c.MAX_LIST := by
    rw [Int.tdiv_eq_ediv (by omega) (by norm_num)]
    omega
  obtain ⟨r1, _, vr⟩ := moveRight_view c f s
  obtain ⟨h1, h2, h3, h4, h5⟩ := h
  have hrs : s.fileNum < s.fileMax → 1 ≤ rightSkip c s ∧
      s.fileNum + rightSkip c s ≤ s.fileMax ∧ rightSkip c s ≤ Int.tdiv c.MAX_LIST 2 ∧
      (rightSkip c s = s.fileMax - s.fileNum ∨ rightSkip c s = Int.tdiv c.MAX_LIST 2) := by
    intro h
    unfold rightSkip
    split_ifs <;> omega
  unfold State.windowOk
  rw [r1]
  rcases vr with ⟨e1, e2⟩ | ⟨p, e1, e2⟩
  · rw [e1, e2]; exact ⟨h1, h2, h3, h4, h5⟩
  · obtain ⟨k1, k2, k3, k4⟩ := hrs p
    rw [e1, e2]
    by_cases h0 : s.from_ = 0
    · have := h4 h0
      split_ifs <;> refine ⟨?_, ?_, ?_, ?_, ?_⟩ <;> omega
    · have := h5 h0
      split_ifs <;> refine ⟨?_, ?_, ?_, ?_, ?_⟩ <;> omega

/-- On a screen of at least three lines, with `fileMax` other than `MAX_LIST`,
the cursor step of a skip keeps `windowOk`. -/
theorem windowOk_skipMove (c : Consts) (b : Btn) (now : Nat) (s : State)
    (hM : 3 ≤ c.MAX_LIST) (hF : s.fileMax ≠ c.MAX_LIST) (h : s.windowOk c) :
    (skipMove c b now s).windowOk c := by
  obtain ⟨h1, h2, h3, h4, h5⟩ := h
  obtain ⟨s1, _, vn, vp⟩ := skipMove_view c b now s
  unfold State.windowOk
  rw [s1]
  cases hb : b.isNext
  · obtain ⟨v1, v2⟩ := vp hb
    by_cases hg : s.fileNum > 1 ∧ s.dirList.dirNum < s.fileNum - 1
    · rw [(v1 hg).1, (v1 hg).2]
      by_cases h0 : s.from_ = 0
      · have := h4 h0
        split_ifs <;> refine ⟨?_, ?_, ?_, ?_, ?_⟩ <;> omega
      · have := h5 h0
        split_ifs <;> refine ⟨?_, ?_, ?_, ?_, ?_⟩ <;> omega
    · rw [(v2 hg).1, (v2 hg).2]; exact ⟨h1, h2, h3, h4, h5⟩
  · obtain ⟨v1, v2⟩ := vn hb
    by_cases hg : s.fileNum < s.fileMax ∧ s.dirList.dirNum < s.fileNum + 1
    · rw [(v1 hg).1, (v1 hg).2]
      by_cases h0 : s.from_ = 0
      · have := h4 h0
        split_ifs <;> refine ⟨?_, ?_, ?_, ?_, ?_⟩ <;> omega
      · have := h5 h0
        split_ifs <;> refine ⟨?_, ?_, ?_, ?_, ?_⟩ <;> omega
    · rw [(v2 hg).1, (v2 hg).2]; exact ⟨h1, h2, h3, h4, h5⟩

theorem skipAccept_from (c : Consts) (b : Btn) (now : Nat) (s : State) :
    (skipAccept c b now s).from_ = (skipMove c b now s).from_ := by
  cases b <;> simp [skipAccept, State.resetHist, render_eq, State.emit]

/-- What one cursor operation other than the end-of-track advance keeps: the
listing, `fileMax`, and, on a screen of at least three lines with `fileMax`
other than `MAX_LIST`, `windowOk`. -/
theorem cursorOp_keeps (c : Consts) (o : CursorOp) (s : State) (hM : 3 ≤ c.MAX_LIST)
    (hF : s.fileMax ≠ c.MAX_LIST) (h : s.windowOk c) :
    (o.apply c s).fileMax = s.fileMax ∧ (o.apply c s).dirList = s.dirList ∧
    (o.apply c s).windowOk c := by
  cases o with
  | up f =>
    obtain ⟨v1, v2, _⟩ := moveUp_view c f s
    exact ⟨v1, v2, (windowOk_updown c f s hM hF h).1⟩
  | down f =>
    obtain ⟨v1, v2, _⟩ := moveDown_view c f s
    exact ⟨v1, v2, (windowOk_updown c f s hM hF h).2⟩
  | left f =>
    obtain ⟨v1, v2, _⟩ := moveLeft_view c f s
    exact ⟨v1, v2, windowOk_left c f s hM h⟩
  | right f =>
    obtain ⟨v1, v2, _⟩ := moveRight_view c f s
    exact ⟨v1, v2, windowOk_right c f s hM hF h⟩
  | skip b now =>
    obtain ⟨a1, a2, a3⟩ := skipAccept_cursor c b now s
    obtain ⟨m1, _, _, _⟩ := skipMove_view c b now s
    have hw := windowOk_skipMove c b now s hM hF h
    refine ⟨by show (skipAccept c b now s).fileMax = _; rw [a2, m1], a3, ?_⟩
    show (skipAccept c b now s).windowOk c
    unfold State.windowOk at hw ⊢
    rw [a1, a2, skipAccept_from]
    exact hw

/-- The part of C22 that holds: on a screen of at least three lines, in a
directory whose number of entries `fileMax` is not `MAX_LIST`, starting from
cursor 0 and offset 0, after every sequence of Up, Down, Left, Right and
accepted skips (no end-of-track advance) the cursor is one of the lines that
`listDir(from, MAX_LIST, fileNum)` shows. -/
theorem cursor_shown_without_autoAdvance (c : Consts) (ops : List CursorOp) (s : State)
    (hM : 3 ≤ c.MAX_LIST) (hF : s.fileMax ≠ c.MAX_LIST) (hmax : 0 ≤ s.fileMax)
    (hT : s.fileMax = s.dirList.fileNum + s.dirList.dirNum)
    (hcur : s.fileNum = 0) (hfrom : s.from_ = 0) :
    cursorShown c (ops.foldl (fun s o => o.apply c s) s).from_
      (ops.foldl (fun s o => o.apply c s) s).fileNum
      (ops.foldl (fun s o => o.apply c s) s).dirList = true := by
  have h0 : s.windowOk c := by
    unfold State.windowOk
    refine ⟨?_, ?_, ?_, ?_, ?_⟩ <;> omega
  have key : ∀ (ops : List CursorOp) (s : State), s.fileMax ≠ c.MAX_LIST →
      s.fileMax = s.dirList.fileNum + s.dirList.dirNum → s.windowOk c →
      (ops.foldl (fun s o => o.apply c s) s).fileMax =
        (ops.foldl (fun s o => o.apply c s) s).dirList.fileNum +
        (ops.foldl (fun s o => o.apply c s) s).dirList.dirNum ∧
      (ops.foldl (fun s o => o.apply c s) s).windowOk c := by
    intro ops
    induction ops with
    | nil => intro s _ hT h; exact ⟨hT, h⟩
    | cons o rest ih =>
      intro s hF hT h
      obtain ⟨k1, k2, k3⟩ := cursorOp_keeps c o s hM hF h
      simp only [List.foldl_cons]
      exact ih (o.apply c s) (by rw [k1]; exact hF) (by rw [k1, k2]; exact hT) k3
  obtain ⟨r1, r2⟩ := key ops s hF hT h0
  exact windowOk_shown c _ r1 r2

/-- The end-of-track advance from the last line of the unscrolled window: the
cursor moves to entry `MAX_LIST`, the offset stays 0, and the listing drawn
does not show the cursor. -/
theorem autoAdvance_past_window (c : Consts) (s : State) (hM : 2 ≤ c.MAX_LIST)
    (herr : s.error = -1) (hfrom : s.from_ = 0) (hcur : s.fileNum = c.MAX_LIST - 1)
    (hmax : s.fileNum < s.fileMax) (hfile : s.dirList.dirNum < s.fileNum) :
    (autoAdvance c s).fileNum = c.MAX_LIST ∧ (autoAdvance c s).from_ = 0 ∧
    cursorShown c (autoAdvance c s).from_ (autoAdvance c s).fileNum
      (autoAdvance c s).dirList = false := by
  have hc : ¬ (s.fileNum ≥ s.fileMax ∨ s.dirList.dirNum ≥ s.fileNum) := by omega
  have e1 : (autoAdvance c s).fileNum = c.MAX_LIST := by
    simp only [autoAdvance, herr, hc, if_true, if_false, render_eq, State.emit]
    omega
  have e2 : (autoAdvance c s).from_ = 0 := by
    simp only [autoAdvance, herr, hc, if_true, if_false, render_eq, State.emit]
    exact hfrom
  refine ⟨e1, e2, ?_⟩
  rw [e1, e2]
  by_contra hs
  have := cursorShown_zero c c.MAX_LIST _ hM (by simpa using hs)
  omega

/-- Down onto the last entry of a directory with exactly `MAX_LIST` entries:
the offset cannot grow (`from < fileMax - MAX_LIST` is `0 < 0`) and the window
of offset 0 ends at entry `MAX_LIST - 1`. -/
theorem moveDown_past_window (c : Consts) (f : Frame) (s : State) (hM : 2 ≤ c.MAX_LIST)
    (hkey : moveKey f s KEY_DOWN = true) (hfrom : s.from_ = 0)
    (hcur : s.fileNum = c.MAX_LIST - 1) (hmax : s.fileMax = c.MAX_LIST) :
    (moveDown c f s).fileNum = c.MAX_LIST ∧ (moveDown c f s).from_ = 0 ∧
    cursorShown c (moveDown c f s).from_ (moveDown c f s).fileNum
      (moveDown c f s).dirList = false := by
  have hg : (moveKey f s KEY_DOWN && decide (s.fileNum < s.fileMax)) = true := by
    simp [hkey]; omega
  have hn : ¬ (s.fileNum + 1 ≥ c.MAX_LIST ∧ s.fileMax - (s.fileNum + 1) ≥ 0 ∧
      s.from_ < s.fileMax - c.MAX_LIST) := by omega
  have e1 : (moveDown c f s).fileNum = c.MAX_LIST := by
    simp only [moveDown, hg, if_true, hn, if_false, render_eq, State.emit]
    omega
  have e2 : (moveDown c f s).from_ = 0 := by
    simp only [moveDown, hg, if_true, hn, if_false, render_eq, State.emit]
    exact hfrom
  refine ⟨e1, e2, ?_⟩
  rw [e1, e2]
  by_contra hs
  have := cursorShown_zero c c.MAX_LIST _ hM (by simpa using hs)
  omega

/-- C22, the code at two failing inputs. (1) On a 4-line screen in a
directory of eight files, three presses of Down from program start put the
cursor on entry 3, the last line of the window of offset 0. When a track then
ends (`error == -1`), the end-of-track step moves the cursor to entry 4 and
leaves the offset at 0: `listDir(0, 4, 4)` draws `..` and the entries 1 to 3,
none of them marked. (2) On a 3-line screen in the directory `A/`, `a.mp3`,
`b.mp3` (`fileMax = 3 = MAX_LIST`), three presses of Down from program start
put the cursor on entry 3 with offset 0, and the listing drawn does not show
it. -/
theorem cursor_leaves_window :
    exBottom.fileNum = 3 ∧ exBottom.from_ = 0 ∧ exBottom.fileMax = 8 ∧
    cursorShown exSmall exBottom.from_ exBottom.fileNum exBottom.dirList = true ∧
    (frame exSmall (endFrame 1000) exBottom).1.fileNum = 4 ∧
    (frame exSmall (endFrame 1000) exBottom).1.from_ = 0 ∧
    (frame exSmall (endFrame 1000) exBottom).1.emitted =
      [Event.changeFile Site.autoAdvance 3, Event.listDir 0 4] ∧
    (listDir 0 exSmall.MAX_LIST 4 (frame exSmall (endFrame 1000) exBottom).1.dirList).2 =
      [Line.parent false, Line.file false 0, Line.file false 1, Line.file false 2] ∧
    cursorShown exSmall (frame exSmall (endFrame 1000) exBottom).1.from_
      (frame exSmall (endFrame 1000) exBottom).1.fileNum
      (frame exSmall (endFrame 1000) exBottom).1.dirList = false ∧
    exLast.fileMax = 3 ∧ exLast.fileNum = 3 ∧ exLast.from_ = 0 ∧
    (listDir exLast.from_ exTiny.MAX_LIST exLast.fileNum exLast.dirList).2 =
      [Line.parent false, Line.dir false 0, Line.file false 0] ∧
    cursorShown exTiny exLast.from_ exLast.fileNum exLast.dirList = false := by
  decide

/-! ## Triple press with other keys in the frame -/

theorem clearOf_others (f : Frame) (b b' : Btn) (h : f.clearOf b) (hne : b' ≠ b) :
    keyTest f.kDown b'.key = false ∧ keyTest f.kHeld b'.key = false := by
  apply h.1 b' _ hne
  cases b' <;> simp

theorem hist_pressDown_ne (k : Bool) (s : State) (t : Nat) (b b' : Btn) (h : b' ≠ b) :
    (if k = true then s.pressDown t b' else s).hist b = s.hist b := by
  cases k
  · rfl
  · cases b <;> cases b' <;> first | exact absurd rfl h | rfl

theorem hist_release_ne (k : Bool) (s : State) (b b' : Btn) (h : b' ≠ b) :
    (if k = true then s.release b' else s).hist b = s.hist b := by
  cases k
  · rfl
  · cases b <;> cases b' <;> first | exact absurd rfl h | rfl

theorem hist_pressDown_self (s : State) (t : Nat) (b : Btn) :
    (s.pressDown t b).hist b =
      (t, (s.pressCount b).set (s.pressIdx b) t, (s.pressIdx b + 1) % MAX_PRESSES,
        s.lastSkipTime) := by
  cases b <;> rfl

theorem hist_release_self (s : State) (b : Btn) :
    (s.release b).hist b = (0, s.pressCount b, s.pressIdx b, s.lastSkipTime) := by
  cases b <;> rfl

theorem hist_beginFrame (f : Frame) (s : State) (b : Btn) :
    (beginFrame f s).hist b = s.hist b := by
  unfold beginFrame
  cases f.errorWrite <;> cases b <;> rfl

theorem hist_setMill (f : Frame) (s : State) (b : Btn) : (setMill f s).hist b = s.hist b := by
  unfold setMill
  split_ifs <;> cases b <;> rfl

theorem hist_pressDown_at (s x : State) (t : Nat) (b : Btn) (h : x.hist b = s.hist b) :
    (x.pressDown t b).hist b =
      (t, (s.pressCount b).set (s.pressIdx b) t, (s.pressIdx b + 1) % MAX_PRESSES,
        s.lastSkipTime) := by
  rw [hist_pressDown_self]
  simp only [State.hist, Prod.mk.injEq] at h
  rw [h.2.1, h.2.2.1, h.2.2.2]

theorem hist_release_at (s x : State) (k : Bool) (b : Btn) (h : x.hist b = s.hist b) :
    (if k = true then x.release b else x).hist b =
      (if k = true then 0 else s.pressTime b, s.pressCount b, s.pressIdx b,
        s.lastSkipTime) := by
  cases k
  · simpa [State.hist] using h
  · simp only [if_true, hist_release_self]
    simp only [State.hist, Prod.mk.injEq] at h
    rw [h.2.1, h.2.2.1, h.2.2.2]

/-- The history of `b` after the press tracking of a frame in which `b` goes
down and is not released, whatever the other keys are. -/
theorem trackPresses_press (f : Frame) (s : State) (b : Btn)
    (hd : keyTest f.kDown b.key = true) (hu : keyTest f.kUp b.key = false) :
    (trackPresses f s).hist b =
      (f.time, (s.pressCount b).set (s.pressIdx b) f.time, (s.pressIdx b + 1) % MAX_PRESSES,
        s.lastSkipTime) := by
  unfold trackPresses
  dsimp only
  cases b <;> simp only [Btn.key] at hd hu
  · rw [hist_release_ne _ _ _ _ (by decide), hist_release_ne _ _ _ _ (by decide),
      hist_pressDown_ne _ _ _ _ _ (by decide), hist_pressDown_ne _ _ _ _ _ (by decide),
      hist_release_ne _ _ _ _ (by decide), hu, if_neg (by decide),
      hist_pressDown_ne _ _ _ _ _ (by decide), hd, if_pos rfl, hist_pressDown_self]
  · rw [hist_release_ne _ _ _ _ (by decide), hist_release_ne _ _ _ _ (by decide),
      hist_pressDown_ne _ _ _ _ _ (by decide), hist_pressDown_ne _ _ _ _ _ (by decide),
      hu, if_neg (by decide), hist_release_ne _ _ _ _ (by decide), hd, if_pos rfl,
      hist_pressDown_at s]
    rw [hist_pressDown_ne _ _ _ _ _ (by decide)]
  · rw [hist_release_ne _ _ _ _ (by decide), hu, if_neg (by decide),
      hist_pressDown_ne _ _ _ _ _ (by decide), hd, if_pos rfl, hist_pressDown_at s]
    rw [hist_release_ne _ _ _ _ (by decide), hist_release_ne _ _ _ _ (by decide),
      hist_pressDown_ne _ _ _ _ _ (by decide), hist_pressDown_ne _ _ _ _ _ (by decide)]
  · rw [hu, if_neg (by decide), hist_release_ne _ _ _ _ (by decide), hd, if_pos rfl,
      hist_pressDown_at s]
    rw [hist_pressDown_ne _ _ _ _ _ (by decide),
      hist_release_ne _ _ _ _ (by decide), hist_release_ne _ _ _ _ (by decide),
      hist_pressDown_ne _ _ _ _ _ (by decide), hist_pressDown_ne _ _ _ _ _ (by decide)]

/-- The history of `b` after the press tracking of a frame in which `b` does
not go down: only a release changes it, and only the press time. -/
theorem trackPresses_quiet (f : Frame) (s : State) (b : Btn)
    (hd : keyTest f.kDown b.key = false) :
    (trackPresses f s).hist b =
      (if keyTest f.kUp b.key = true then 0 else s.pressTime b, s.pressCount b, s.pressIdx b,
        s.lastSkipTime) := by
  unfold trackPresses
  dsimp only
  cases b <;> simp only [Btn.key] at hd ⊢
  · rw [hist_release_ne _ _ _ _ (by decide), hist_release_ne _ _ _ _ (by decide),
      hist_pressDown_ne _ _ _ _ _ (by decide), hist_pressDown_ne _ _ _ _ _ (by decide),
      hist_release_ne _ _ _ _ (by decide), hist_release_at s]
    rw [hist_pressDown_ne _ _ _ _ _ (by decide), hd, if_neg (by decide)]
  · rw [hist_release_ne _ _ _ _ (by decide), hist_release_ne _ _ _ _ (by decide),
      hist_pressDown_ne _ _ _ _ _ (by decide), hist_pressDown_ne _ _ _ _ _ (by decide),
      hist_release_at s]
    rw [hist_release_ne _ _ _ _ (by decide), hd, if_neg (by decide),
      hist_pressDown_ne _ _ _ _ _ (by decide)]
  · rw [hist_release_ne _ _ _ _ (by decide), hist_release_at s]
    rw [hist_pressDown_ne _ _ _ _ _ (by decide), hd, if_neg (by decide),
      hist_release_ne _ _ _ _ (by decide), hist_release_ne _ _ _ _ (by decide),
      hist_pressDown_ne _ _ _ _ _ (by decide), hist_pressDown_ne _ _ _ _ _ (by decide)]
  · rw [hist_release_at s]
    rw [hist_release_ne _ _ _ _ (by decide), hd, if_neg (by decide),
      hist_pressDown_ne _ _ _ _ _ (by decide),
      hist_release_ne _ _ _ _ (by decide), hist_release_ne _ _ _ _ (by decide),
      hist_pressDown_ne _ _ _ _ _ (by decide), hist_pressDown_ne _ _ _ _ _ (by decide)]

theorem hist_fields (x s : State) (b : Btn) (h : x.hist b = s.hist b) :
    x.pressTime b = s.pressTime b ∧ x.pressCount b = s.pressCount b ∧
    x.pressIdx b = s.pressIdx b ∧ x.lastSkipTime = s.lastSkipTime := by
  simp only [State.hist, Prod.mk.injEq] at h
  exact h

theorem tracked_press (f : Frame) (s : State) (b : Btn)
    (hd : keyTest f.kDown b.key = true) (hu : keyTest f.kUp b.key = false) :
    (tracked f s).pressTime b = f.time ∧
    (tracked f s).pressCount b = (s.pressCount b).set (s.pressIdx b) f.time ∧
    (tracked f s).pressIdx b = (s.pressIdx b + 1) % MAX_PRESSES ∧
    (tracked f s).lastSkipTime = s.lastSkipTime := by
  have h : (tracked f s).hist b =
      (f.time, ((beginFrame f s).pressCount b).set ((beginFrame f s).pressIdx b) f.time,
        ((beginFrame f s).pressIdx b + 1) % MAX_PRESSES, (beginFrame f s).lastSkipTime) := by
    unfold tracked
    rw [hist_setMill, trackPresses_press f _ b hd hu]
  obtain ⟨_, k2, k3, k4⟩ := hist_fields _ _ b (hist_beginFrame f s b)
  rw [k2, k3, k4] at h
  simp only [State.hist, Prod.mk.injEq] at h
  exact h

theorem tracked_quiet (f : Frame) (s : State) (b : Btn)
    (hd : keyTest f.kDown b.key = false) :
    ((tracked f s).pressTime b = s.pressTime b ∨ (tracked f s).pressTime b = 0) ∧
    (tracked f s).pressCount b = s.pressCount b ∧
    (tracked f s).pressIdx b = s.pressIdx b ∧
    (tracked f s).lastSkipTime = s.lastSkipTime := by
  have h : (tracked f s).hist b =
      (if keyTest f.kUp b.key = true then 0 else (beginFrame f s).pressTime b,
        (beginFrame f s).pressCount b, (beginFrame f s).pressIdx b,
        (beginFrame f s).lastSkipTime) := by
    unfold tracked
    rw [hist_setMill, trackPresses_quiet f _ b hd]
  obtain ⟨k1, k2, k3, k4⟩ := hist_fields _ _ b (hist_beginFrame f s b)
  rw [k1, k2, k3, k4] at h
  simp only [State.hist, Prod.mk.injEq] at h
  refine ⟨?_, h.2.1, h.2.2.1, h.2.2.2⟩
  rw [h.1]
  split_ifs
  · right; rfl
  · left; rfl

theorem hist_render (c : Consts) (s : State) (b : Btn) : (s.render c).hist b = s.hist b := by
  rw [render_eq]
  cases b <;> rfl

/-- The cursor movements do not touch the press histories or the cooldown. -/
theorem moveCursor_hist (c : Consts) (f : Frame) (s : State) (b : Btn) :
    (moveCursor c f s).hist b = s.hist b := by
  have hu : ∀ s : State, (moveUp c f s).hist b = s.hist b := by
    intro s
    unfold moveUp
    split_ifs
    all_goals simp only [hist_render]
    all_goals (try split_ifs)
    all_goals (cases b <;> rfl)
  have hd : ∀ s : State, (moveDown c f s).hist b = s.hist b := by
    intro s
    unfold moveDown
    split_ifs
    all_goals simp only [hist_render]
    all_goals (try split_ifs)
    all_goals (cases b <;> rfl)
  have hl : ∀ s : State, (moveLeft c f s).hist b = s.hist b := by
    intro s
    unfold moveLeft
    split_ifs
    all_goals simp only [hist_render]
    all_goals (try split_ifs)
    all_goals (cases b <;> rfl)
  have hr : ∀ s : State, (moveRight c f s).hist b = s.hist b := by
    intro s
    unfold moveRight
    split_ifs
    all_goals simp only [hist_render]
    all_goals (try split_ifs)
    all_goals (cases b <;> rfl)
  unfold moveCursor
  rw [hr, hl, hd, hu]

/-- Leaving or entering a directory and opening a file do not touch the press
histories or the cooldown. -/
theorem navigate_hist (c : Consts) (f : Frame) (s r : State) (b : Btn)
    (h : navigate c f s = some r) : r.hist b = s.hist b := by
  have hn := listDir_nonneg 0 c.MAX_LIST 0 (getDir f.fs s.dirList).1
  unfold navigate at h
  split_ifs at h <;> simp at h <;> subst h
  · unfold leaveDir
    simp only [hist_render]
    cases b <;> rfl
  · unfold enterDir
    simp only [State.emit, not_lt.mpr hn, if_false]
    cases b <;> rfl
  · cases b <;> rfl

/-- In a frame left to `b` no branch of the combo detection fires. -/
theorem combos_clear (f : Frame) (s : State) (b : Btn) (h : f.clearOf b) :
    combos f s = none := by
  have h3 := h.2.2
  cases b
  · obtain ⟨r1, r2⟩ := clearOf_others f .L .R h (by decide)
    obtain ⟨z1, z2⟩ := clearOf_others f .L .ZL h (by decide)
    obtain ⟨y1, y2⟩ := clearOf_others f .L .ZR h (by decide)
    simp only [Btn.key] at r1 r2 z1 z2 y1 y2 h3
    cases hh : keyTest f.kHeld KEY_L
    · simp [combos, comboL, comboR, comboZL, comboZR, hh, r2, z2, y2]
    · obtain ⟨u1, u2⟩ := h3 rfl hh
      simp [combos, comboL, comboR, comboZL, comboZR, hh, r1, r2, z2, y2, keyTest_or, u1, u2]
  · obtain ⟨r1, r2⟩ := clearOf_others f .R .L h (by decide)
    obtain ⟨z1, z2⟩ := clearOf_others f .R .ZL h (by decide)
    obtain ⟨y1, y2⟩ := clearOf_others f .R .ZR h (by decide)
    simp only [Btn.key] at r1 r2 z1 z2 y1 y2
    simp [combos, comboL, comboR, comboZL, comboZR, r1, r2, z2, y2]
  · obtain ⟨r1, r2⟩ := clearOf_others f .ZL .L h (by decide)
    obtain ⟨z1, z2⟩ := clearOf_others f .ZL .R h (by decide)
    obtain ⟨y1, y2⟩ := clearOf_others f .ZL .ZR h (by decide)
    simp only [Btn.key] at r1 r2 z1 z2 y1 y2 h3
    cases hh : keyTest f.kHeld KEY_ZL
    · simp [combos, comboL, comboR, comboZL, comboZR, hh, r2, z2, y2]
    · obtain ⟨u1, u2⟩ := h3 rfl hh
      simp [combos, comboL, comboR, comboZL, comboZR, hh, r2, z2, y1, y2, keyTest_or, u1, u2]
  · obtain ⟨r1, r2⟩ := clearOf_others f .ZR .L h (by decide)
    obtain ⟨z1, z2⟩ := clearOf_others f .ZR .R h (by decide)
    obtain ⟨y1, y2⟩ := clearOf_others f .ZR .ZL h (by decide)
    simp only [Btn.key] at r1 r2 z1 z2 y1 y2
    simp [combos, comboL, comboR, comboZL, comboZR, r2, z2, y1, y2]

/-- In a frame left to `b` only the triple-press block of `b` can run. -/
theorem skipBlocks_clear (c : Consts) (f : Frame) (s : State) (b : Btn) (h : f.clearOf b) :
    (skipBlocks c f s).1 = (skipBlock c f b (s, 0)).1 := by
  cases b
  · obtain ⟨_, r2⟩ := clearOf_others f .L .R h (by decide)
    obtain ⟨_, z2⟩ := clearOf_others f .L .ZL h (by decide)
    obtain ⟨_, y2⟩ := clearOf_others f .L .ZR h (by decide)
    simp only [Btn.key] at r2 z2 y2
    simp [skipBlocks, skipBlock, Btn.key, r2, z2, y2]
  · obtain ⟨_, r2⟩ := clearOf_others f .R .L h (by decide)
    obtain ⟨_, z2⟩ := clearOf_others f .R .ZL h (by decide)
    obtain ⟨_, y2⟩ := clearOf_others f .R .ZR h (by decide)
    simp only [Btn.key] at r2 z2 y2
    simp [skipBlocks, skipBlock, Btn.key, r2, z2, y2]
  · obtain ⟨_, r2⟩ := clearOf_others f .ZL .L h (by decide)
    obtain ⟨_, z2⟩ := clearOf_others f .ZL .R h (by decide)
    obtain ⟨_, y2⟩ := clearOf_others f .ZL .ZR h (by decide)
    simp only [Btn.key] at r2 z2 y2
    simp [skipBlocks, skipBlock, Btn.key, r2, z2, y2]
  · obtain ⟨_, r2⟩ := clearOf_others f .ZR .L h (by decide)
    obtain ⟨_, z2⟩ := clearOf_others f .ZR .R h (by decide)
    obtain ⟨_, y2⟩ := clearOf_others f .ZR .ZL h (by decide)
    simp only [Btn.key] at r2 z2 y2
    simp [skipBlocks, skipBlock, Btn.key, r2, z2, y2]

theorem tracked_skips (f : Frame) (s : State) : (tracked f s).skips = [] := by
  have he : (tracked f s).emitted = [] := tracked_emitted f s
  simp [State.skips, he]

/-- A frame in which `b` goes down, left to `b`, with neither A nor B going
down, reaches the triple-press block of `b` after the cursor movements. -/
theorem frame_pressOf (c : Consts) (f : Frame) (s : State) (b : Btn) (h : f.pressOf b)
    (hA : keyTest f.kDown KEY_A = false) (hB : keyTest f.kDown KEY_B = false) :
    frame c f s =
      (autoAdvance c (skipBlock c f b (moveCursor c f (tracked f s), 0)).1, false) := by
  obtain ⟨_, _, _, hc⟩ := h
  have hn : navigate c f (moveCursor c f (tracked f s)) = none := by
    simp [navigate, hA, hB]
  rw [frame_of_blocks c f s hc.2.1 (combos_clear f _ b hc) hn, skipBlocks_clear c f _ b hc]

/-- The state at the triple-press block in a press frame. -/
theorem moved_press (c : Consts) (f : Frame) (s : State) (b : Btn)
    (hd : keyTest f.kDown b.key = true) (hu : keyTest f.kUp b.key = false) :
    (moveCursor c f (tracked f s)).pressTime b = f.time ∧
    (moveCursor c f (tracked f s)).pressCount b = (s.pressCount b).set (s.pressIdx b) f.time ∧
    (moveCursor c f (tracked f s)).pressIdx b = (s.pressIdx b + 1) % MAX_PRESSES ∧
    (moveCursor c f (tracked f s)).lastSkipTime = s.lastSkipTime ∧
    (moveCursor c f (tracked f s)).skips = [] := by
  obtain ⟨m1, m2, m3, m4⟩ := hist_fields _ _ b (moveCursor_hist c f (tracked f s) b)
  obtain ⟨t1, t2, t3, t4⟩ := tracked_press f s b hd hu
  exact ⟨by rw [m1, t1], by rw [m2, t2], by rw [m3, t3], by rw [m4, t4],
    by rw [moveCursor_skips, tracked_skips]⟩

/-- The state at the triple-press block in a frame in which `b` does not go
down. -/
theorem moved_quiet (c : Consts) (f : Frame) (s : State) (b : Btn)
    (hd : keyTest f.kDown b.key = false) :
    ((moveCursor c f (tracked f s)).pressTime b = s.pressTime b ∨
      (moveCursor c f (tracked f s)).pressTime b = 0) ∧
    (moveCursor c f (tracked f s)).pressCount b = s.pressCount b ∧
    (moveCursor c f (tracked f s)).pressIdx b = s.pressIdx b ∧
    (moveCursor c f (tracked f s)).lastSkipTime = s.lastSkipTime ∧
    (moveCursor c f (tracked f s)).skips = [] := by
  obtain ⟨m1, m2, m3, m4⟩ := hist_fields _ _ b (moveCursor_hist c f (tracked f s) b)
  obtain ⟨t1, t2, t3, t4⟩ := tracked_quiet f s b hd
  exact ⟨by rw [m1]; exact t1, by rw [m2, t2], by rw [m3, t3], by rw [m4, t4],
    by rw [moveCursor_skips, tracked_skips]⟩

/-- A press frame left to `b` in which the three slots do not all qualify:
the press is recorded and nothing else happens to the button's history. -/
theorem pressOf_miss (c : Consts) (f : Frame) (s : State) (b : Btn) (l : List Nat) (i : Nat)
    (hp : f.pressOf b) (hl : s.pressCount b = l) (hi : s.pressIdx b = i)
    (hmiss : ¬ (u64sub f.time ((l.set i f.time).getD 0 0) ≤ 500 ∧
                u64sub f.time ((l.set i f.time).getD 1 0) ≤ 500 ∧
                u64sub f.time ((l.set i f.time).getD 2 0) ≤ 500)) :
    (frame c f s).2 = false ∧
    (frame c f s).1.pressCount b = l.set i f.time ∧
    (frame c f s).1.pressIdx b = (i + 1) % MAX_PRESSES ∧
    (frame c f s).1.lastSkipTime = s.lastSkipTime ∧
    (frame c f s).1.skips = [] ∧
    (frame c f s).1.pressTime b = f.time := by
  obtain ⟨hd, hh, hu, hc⟩ := hp
  obtain ⟨v1, v2, v3, v4, v5⟩ := moved_press c f s b hd hu
  cases hnav : navigate c f (moveCursor c f (tracked f s)) with
  | some r =>
    obtain ⟨n1, n2, n3, n4⟩ := hist_fields _ _ b (navigate_hist c f _ r b hnav)
    rw [frame_of_navigate c f s r hc.2.1 (combos_clear f _ b hc) hnav]
    exact ⟨rfl, by rw [n2, v2, hl, hi], by rw [n3, v3, hi], by rw [n4, v4],
      by rw [navigate_skips c f _ r hnav, v5], by rw [n1, v1]⟩
  | none =>
    rw [frame_of_blocks c f s hc.2.1 (combos_clear f _ b hc) hnav, skipBlocks_clear c f _ b hc,
      skipBlock_miss]
    · obtain ⟨a1, a2, a3, a4, a5⟩ := autoAdvance_keep c (moveCursor c f (tracked f s)) b
      exact ⟨rfl, by rw [a2, v2, hl, hi], by rw [a3, v3, hi], by rw [a4, v4],
        by rw [a5, v5], by rw [a1, v1]⟩
    · simp only [State.qual, v1, v2, hl, hi]
      exact hmiss

/-- A press frame left to `b`, with neither A nor B going down, in which the
three slots all qualify and the cooldown has passed: one skip command, and the
history is empty afterwards. -/
theorem pressOf_hit (c : Consts) (f : Frame) (s : State) (b : Btn) (l : List Nat) (i : Nat)
    (hp : f.pressOf b) (hA : keyTest f.kDown KEY_A = false)
    (hB : keyTest f.kDown KEY_B = false)
    (hl : s.pressCount b = l) (hi : s.pressIdx b = i) (ht : f.time ≠ 0)
    (h0 : u64sub f.time ((l.set i f.time).getD 0 0) ≤ 500)
    (h1 : u64sub f.time ((l.set i f.time).getD 1 0) ≤ 500)
    (h2 : u64sub f.time ((l.set i f.time).getD 2 0) ≤ 500)
    (hcool : u64sub f.time s.lastSkipTime > 1000) :
    (frame c f s).2 = false ∧
    (frame c f s).1.pressCount b = [0, 0, 0] ∧
    (frame c f s).1.pressIdx b = 0 ∧
    (frame c f s).1.pressTime b = f.time ∧
    ∃ j, (frame c f s).1.skips = [Event.changeFile (Site.skip b) j] := by
  obtain ⟨v1, v2, v3, v4, v5⟩ := moved_press c f s b hp.1 hp.2.2.1
  rw [frame_pressOf c f s b hp hA hB, skipBlock_hit]
  · obtain ⟨a1, a2, a3, a4, a5⟩ := autoAdvance_keep c
      (skipAccept c b f.time (moveCursor c f (tracked f s))) b
    obtain ⟨k1, k2, k3, k4⟩ := skipAccept_hist c b f.time (moveCursor c f (tracked f s))
    refine ⟨rfl, by rw [a2, k1], by rw [a3, k2], by rw [a1, k3, v1],
      ⟨(skipMove c b f.time (moveCursor c f (tracked f s))).fileNum -
        (moveCursor c f (tracked f s)).dirList.dirNum - 1, ?_⟩⟩
    rw [a5]
    unfold State.skips at v5 ⊢
    rw [k4, List.filter_append, v5]
    simp [Event.isSkip]
  · exact hp.2.1
  · rw [v1]; exact ht
  · simp only [State.qual, v1, v2, hl, hi]; exact h0
  · simp only [State.qual, v1, v2, hl, hi]; exact h1
  · simp only [State.qual, v1, v2, hl, hi]; exact h2
  · rw [v4]; exact hcool

/-- A frame left to `b` in which `b` does not go down leaves the button's
history and the cooldown alone and emits no skip command, provided the
button's triple-press block has nothing to accept. -/
theorem quietOf_keep (c : Consts) (f : Frame) (s : State) (b : Btn) (hq : f.quietOf b)
    (hn : s.noTriple b) :
    (frame c f s).2 = false ∧
    (frame c f s).1.pressCount b = s.pressCount b ∧
    (frame c f s).1.pressIdx b = s.pressIdx b ∧
    (frame c f s).1.lastSkipTime = s.lastSkipTime ∧
    (frame c f s).1.skips = [] ∧
    (frame c f s).1.noTriple b := by
  obtain ⟨hd, hc⟩ := hq
  obtain ⟨r1, r2, r3, r4, r5⟩ := moved_quiet c f s b hd
  have hr : (moveCursor c f (tracked f s)).noTriple b := noTriple_congr s _ b hn r1 r2
  cases hnav : navigate c f (moveCursor c f (tracked f s)) with
  | some r =>
    obtain ⟨n1, n2, n3, n4⟩ := hist_fields _ _ b (navigate_hist c f _ r b hnav)
    rw [frame_of_navigate c f s r hc.2.1 (combos_clear f _ b hc) hnav]
    exact ⟨rfl, by rw [n2, r2], by rw [n3, r3], by rw [n4, r4],
      by rw [navigate_skips c f _ r hnav, r5],
      noTriple_congr _ _ b hr (Or.inl n1) n2⟩
  | none =>
    rw [frame_of_blocks c f s hc.2.1 (combos_clear f _ b hc) hnav, skipBlocks_clear c f _ b hc,
      skipBlock_noTriple c f b _ hr]
    obtain ⟨a1, a2, a3, a4, a5⟩ := autoAdvance_keep c (moveCursor c f (tracked f s)) b
    exact ⟨rfl, by rw [a2, r2], by rw [a3, r3], by rw [a4, r4], by rw [a5, r5],
      noTriple_congr _ _ b hr (Or.inl a1) a2⟩

/-- A run of frames left to `b` in which `b` does not go down: no skip
command, history and cooldown untouched, and the loop goes on with the frames
that follow. -/
theorem quietOf_run (c : Consts) (b : Btn) : ∀ (qs : List Frame) (s : State),
    (∀ f ∈ qs, f.quietOf b) → s.noTriple b →
    (runEnd c qs s).pressCount b = s.pressCount b ∧
    (runEnd c qs s).pressIdx b = s.pressIdx b ∧
    (runEnd c qs s).lastSkipTime = s.lastSkipTime ∧
    (runEnd c qs s).noTriple b ∧
    ∀ rest, (run c (qs ++ rest) s).map State.skips =
      List.replicate qs.length [] ++ (run c rest (runEnd c qs s)).map State.skips := by
  intro qs
  induction qs with
  | nil =>
    intro s _ hn
    exact ⟨rfl, rfl, rfl, hn, fun rest => rfl⟩
  | cons q qs ih =>
    intro s hq hn
    obtain ⟨k1, k2, k3, k4, k5, k6⟩ := quietOf_keep c q s b (hq q (List.mem_cons_self _ _)) hn
    obtain ⟨i1, i2, i3, i4, i5⟩ := ih (frame c q s).1
      (fun f hf => hq f (List.mem_cons_of_mem _ hf)) k6
    have he : runEnd c (q :: qs) s = runEnd c qs (frame c q s).1 := rfl
    rw [he]
    refine ⟨by rw [i1, k2], by rw [i2, k3], by rw [i3, k4], i4, ?_⟩
    intro rest
    rw [List.cons_append, run_cons, k1]
    simp only [Bool.false_eq_true, if_false, List.map_cons, k5, i5 rest, List.length_cons,
      List.replicate_succ, List.cons_append]

/-! ## Triple press -/

end Ctrmus
